import Mathlib

/-!
# Grid, distance field, path reconstruction and spatial evaluator of `GameAI`

A shallow embedding of `Source/GameAI`:

* `Grid/GAGridActor.cpp`: `GetCellRef`, `GetCellPosition`, `GetCellData`,
  `GridSpaceBoundsToRect2D`, `ResetData`;
* `Pathfinding/GAPathComponent.cpp`: `IsCellValid`, `FindNeighbors`, `dijkstra`,
  `UGAPathComponent::Dijkstra`, `CameFromToPath`, and the follower: `GoThere`,
  `RefreshPath`, `SetDestination`, `SetDestinationAndRebuildPath`, `FollowPath`,
  `TickComponent`;
* `Spatial/GASpatialComponent.cpp`: `CameFromToPath`, `EvaluateLayer`, `ChoosePosition`.

Conventions of the embedding.

* `float` and `double` values are rationals (`ℚ`). Where the claims depend on it, a
  result is rounded as IEEE 754 does (round to nearest, ties to even): `toFloat` rounds
  to binary32 the cell centre `CellRef.X * CellScale + HalfScale` of `GetCellPosition`
  and `GetCellGridSpacePosition` and the distance that `RefreshPath` narrows to `float`
  before its test, and `toDouble` rounds to binary64 every operation of the
  `FVector::Dist` behind that distance. The other arithmetic (the `double` operations of
  `GetCellRef` and `GridSpaceBoundsToRect2D`, the half extents, the scores of the
  evaluator, the distances of `dijkstra`) is taken as exact.
  `int32` values are integers (`Int`); no loop of the modelled code approaches
  the `int32` range on the inputs considered.
* `TMap` is an association list in insertion order, the order in which a `TMap`
  without removals is iterated. `TMap::Add` on a present key overwrites the value
  in place. `TMap::operator[]` is `FindChecked`: on an absent key a `check` fires;
  the model reads the map with `TMap.Find` and stops with `checkFailed` on `none`.
* A computation that can fire a `check` or loop returns a `Run`: `done r`,
  `checkFailed`, or `outOfFuel` when the iteration bound handed to the model is
  used up. A range-checked `TArray` access outside the array is a `checkFailed` too.
* What a component reads from other actors is an argument of the model: the grid that
  `GetGridActor()` yields (`none` for a null pointer), the location of the owner pawn,
  the player position and the line-trace result.
-/

namespace GameAI

/-! ## Outcomes of a run -/

/-- Outcome of running a piece of the program. -/
inductive Run (α : Type) where
  /-- The code returned normally. -/
  | done (a : α) : Run α
  /-- A `check(...)` (such as the one in `TMap::FindChecked`) fired. -/
  | checkFailed : Run α
  /-- The loop did not finish within the iteration bound given to the model. -/
  | outOfFuel : Run α
deriving DecidableEq

/-- The value a run returned, if it returned. -/
def Run.result? {α : Type} : Run α → Option α
  | .done a => some a
  | _ => none

/-! ## `TMap` -/

/-- `TMap<K, V>` without removals: the pairs in insertion order. -/
abbrev TMap (K V : Type) := List (K × V)

namespace TMap

variable {K V : Type} [DecidableEq K]

/-- `TMap::Find`: the value stored under `k`, if any. -/
def Find : TMap K V → K → Option V
  | [], _ => none
  | (k', v) :: m, k => if k' = k then some v else Find m k

/-- `TMap::Contains`. -/
def Contains (m : TMap K V) (k : K) : Bool := (Find m k).isSome

/-- `TMap::Add`: overwrite the value of a present key in place, else append. -/
def Add : TMap K V → K → V → TMap K V
  | [], k, v => [(k, v)]
  | (k', v') :: m, k, v => if k' = k then (k, v) :: m else (k', v') :: Add m k v

end TMap

/-! ## `float` and `double` values -/

/-- The power of two `2 ^ e` for an integer exponent. -/
def pow2 (e : Int) : ℚ :=
  if 0 ≤ e then ((2 ^ e.toNat : Nat) : ℚ) else 1 / ((2 ^ (-e).toNat : Nat) : ℚ)

/-- The number of halvings that bring `n` below 2, `fuel` bounding the count. -/
def log2Fuel : Nat → Nat → Nat
  | 0, _ => 0
  | fuel + 1, n => if n < 2 then 0 else log2Fuel fuel (n / 2) + 1

/-- The binary exponent of a rational other than zero: the `e` with
`2 ^ e ≤ |x| < 2 ^ (e + 1)`. -/
def binExponent (x : ℚ) : Int :=
  let e : Int := (log2Fuel x.num.natAbs x.num.natAbs : Int) - (log2Fuel x.den x.den : Int)
  if pow2 e ≤ |x| then e else e - 1

/-- Rounding to the nearest integer, a tie going to the even one. -/
def roundHalfEven (x : ℚ) : Int :=
  if x - ⌊x⌋ < 1 / 2 then ⌊x⌋
  else if 1 / 2 < x - ⌊x⌋ then ⌊x⌋ + 1
  else if ⌊x⌋ % 2 = 0 then ⌊x⌋ else ⌊x⌋ + 1

/-- The spacing of the `float` values around `x`: 24 significant bits, and `2 ^ (-149)`
in the subnormal range. -/
def floatUlp (x : ℚ) : ℚ := pow2 (max (binExponent x - 23) (-149))

/-- The conversion of an exact value to `float` (IEEE 754 binary32): the nearest multiple
of the spacing, a tie going to the even one. A value beyond `FLT_MAX` is rounded like any
other: the infinities are not modelled. -/
def toFloat (x : ℚ) : ℚ :=
  if x = 0 then 0 else (roundHalfEven (x / floatUlp x) : ℚ) * floatUlp x

/-- Integer square root, digit by digit: the bits `b - 1, ..., 0` are still to decide. -/
def isqrtAux (n : Nat) : Nat → Nat → Nat
  | 0, r => r
  | b + 1, r =>
    if (r + 2 ^ b) * (r + 2 ^ b) ≤ n then isqrtAux n b (r + 2 ^ b) else isqrtAux n b r

/-- Integer square root: the largest `k` with `k * k ≤ n`. -/
def isqrt (n : Nat) : Nat := isqrtAux n (log2Fuel n n / 2 + 1) 0

/-- The spacing of the `double` values around `x`: 53 significant bits, and `2 ^ (-1074)`
in the subnormal range. -/
def doubleUlp (x : ℚ) : ℚ := pow2 (max (binExponent x - 52) (-1074))

/-- The rounding of an exact value to `double` (IEEE 754 binary64): the nearest multiple of
the spacing, a tie going to the even one. The infinities are not modelled. -/
def toDouble (x : ℚ) : ℚ :=
  if x = 0 then 0 else (roundHalfEven (x / doubleUlp x) : ℚ) * doubleUlp x

/-- The `double` nearest to the square root of `d`, a tie going to the even one:
`FMath::Sqrt` on `double`. With `m` the value `d` counted in squares of the spacing and `k`
the integer square root of `m`, the root lies between `k` and `k + 1` spacings, nearer to
`k` when `m < (k + 1/2)²`. -/
def sqrtToDouble (d : ℚ) : ℚ :=
  if d ≤ 0 then 0
  else
    let ulp := pow2 (max (binExponent d / 2 - 52) (-1074))
    let m := d / (ulp * ulp)
    let k : ℚ := ((isqrt ⌊m⌋.toNat : Nat) : ℚ)
    if m < (k + 1 / 2) * (k + 1 / 2) then k * ulp
    else if (k + 1 / 2) * (k + 1 / 2) < m then (k + 1) * ulp
    else if isqrt ⌊m⌋.toNat % 2 = 0 then k * ulp else (k + 1) * ulp

/-! ## Vectors and cells -/

/-- `FLT_MAX`, the largest finite `float`. -/
def FLT_MAX : ℚ := 340282346638528859811704183484516925440

/-- `FVector`. -/
structure FVector where
  X : ℚ
  Y : ℚ
  Z : ℚ
deriving DecidableEq

/-- `FVector::DistSquared`. -/
def FVector.DistSquared (a b : FVector) : ℚ :=
  (b.X - a.X) * (b.X - a.X) + (b.Y - a.Y) * (b.Y - a.Y) + (b.Z - a.Z) * (b.Z - a.Z)

/-- `INDEX_NONE`. -/
def INDEX_NONE : Int := -1

/-- `FCellRef`: an integer pair. -/
structure FCellRef where
  X : Int
  Y : Int
deriving DecidableEq

/-- `FCellRef::Invalid(INDEX_NONE, INDEX_NONE)` (GAGridActor.cpp:11). -/
def FCellRef.Invalid : FCellRef := ⟨INDEX_NONE, INDEX_NONE⟩

/-- Modelled from the spec: `FCellRef::IsValid` is declared in the absent header
`GAGridActor.h`; the spec's data model has one distinguished Invalid value that
"represents no cell", so a cell is valid when it is not that value. -/
def FCellRef.IsValid (c : FCellRef) : Bool := decide (c ≠ FCellRef.Invalid)

/-- Modelled from the spec: the default constructor `FCellRef()` is declared in the
absent header `GAGridActor.h`; the spec has a cell variable that was never assigned
read back as Invalid (the evaluator's best cell "or Invalid if no traversable cell
existed"). -/
def FCellRef.Default : FCellRef := FCellRef.Invalid

/-! ## The grid actor -/

/-- The fields of `AGAGridActor` the modelled code reads.

`Data` is the traversability array (`ECellData` flags as numbers).
`TransformPosition` / `InverseTransformPosition` are those of `GetActorTransform()`.
`DefaultClamp` is the default argument of `bClamp` in the declaration of
`GetCellRef`, which lives in the absent header `GAGridActor.h`. -/
structure AGAGridActor where
  XCount : Int
  YCount : Int
  CellScale : ℚ
  Data : List Nat
  TransformPosition : FVector → FVector
  InverseTransformPosition : FVector → FVector
  DefaultClamp : Bool

/-- `HalfExtents.X` as set by `RefreshDerivedValues`. -/
def AGAGridActor.HalfExtentsX (g : AGAGridActor) : ℚ := (1 / 2) * g.CellScale * (g.XCount : ℚ)

/-- `HalfExtents.Y` as set by `RefreshDerivedValues`. -/
def AGAGridActor.HalfExtentsY (g : AGAGridActor) : ℚ := (1 / 2) * g.CellScale * (g.YCount : ℚ)

/-- `FMath::Clamp(X, Min, Max) = Max(Min(X, MaxValue), MinValue)`. -/
def Clamp {α : Type} [LinearOrder α] (x lo hi : α) : α := max (min x hi) lo

/-- The discretisation at the end of `GetCellRef`: divide by the scale, floor, clamp
to a valid index (the point is already relative to the (0, 0) corner). -/
def AGAGridActor.Discretize (g : AGAGridActor) (lx ly : ℚ) : FCellRef :=
  ⟨Clamp ⌊lx / g.CellScale⌋ 0 (g.XCount - 1), Clamp ⌊ly / g.CellScale⌋ 0 (g.YCount - 1)⟩

/-- `AGAGridActor::GetCellRef(Point, bClamp)`. -/
def AGAGridActor.GetCellRef (g : AGAGridActor) (Point : FVector) (bClamp : Bool) : FCellRef :=
  let LocalPoint := g.InverseTransformPosition Point
  if bClamp then
    let lx := Clamp LocalPoint.X (-g.HalfExtentsX) g.HalfExtentsX
    let ly := Clamp LocalPoint.Y (-g.HalfExtentsY) g.HalfExtentsY
    g.Discretize (lx + g.HalfExtentsX) (ly + g.HalfExtentsY)
  else if |LocalPoint.X| > g.HalfExtentsX ∨ |LocalPoint.Y| > g.HalfExtentsY then
    FCellRef.Invalid
  else
    g.Discretize (LocalPoint.X + g.HalfExtentsX) (LocalPoint.Y + g.HalfExtentsY)

/-- The `float` expression `CellRef.X * CellScale + HalfScale` of `GetCellPosition` and
`GetCellGridSpacePosition`, with `float HalfScale = 0.5f * CellScale`: the index is
converted to `float`, and the product and the sum are rounded to `float`. -/
def AGAGridActor.CellCentre (g : AGAGridActor) (Index : Int) : ℚ :=
  let HalfScale := toFloat ((1 / 2) * g.CellScale)
  toFloat (toFloat (toFloat (Index : ℚ) * g.CellScale) + HalfScale)

/-- `AGAGridActor::GetCellPosition(CellRef)`: the centre of the cell, in world space. The
subtraction of the half extents is done in `double`. -/
def AGAGridActor.GetCellPosition (g : AGAGridActor) (CellRef : FCellRef) : FVector :=
  g.TransformPosition
    ⟨g.CellCentre CellRef.X - g.HalfExtentsX, g.CellCentre CellRef.Y - g.HalfExtentsY, 0⟩

/-- A grid placed with the identity transform. -/
def plainGrid (XCount YCount : Int) (CellScale : ℚ) (Data : List Nat) (DefaultClamp : Bool) :
    AGAGridActor :=
  ⟨XCount, YCount, CellScale, Data, id, id, DefaultClamp⟩

/-- `ECellData::CellDataTraversable`, the one flag bit of a cell (the enum is declared
in the absent header `GAGridActor.h`; the spec names it as the single bit in use). -/
def CellDataTraversable : Nat := 1

/-- `EnumHasAllFlags(Flags, Contains)`. -/
def EnumHasAllFlags (Flags Contains : Nat) : Bool := decide (Flags &&& Contains = Contains)

/-- `AGAGridActor::CellRefToIndex`, declared in the absent header `GAGridActor.h`: the
row-major index into the dense array. -/
def AGAGridActor.CellRefToIndex (g : AGAGridActor) (CellRef : FCellRef) : Int :=
  CellRef.Y * g.XCount + CellRef.X

/-- `AGAGridActor::GetCellData`: `Data[CellRefToIndex(CellRef)]`; `none` when the index
is outside the array (the range check of `TArray::operator[]`). -/
def AGAGridActor.GetCellData (g : AGAGridActor) (CellRef : FCellRef) : Option Nat :=
  if 0 ≤ g.CellRefToIndex CellRef then g.Data.get? (g.CellRefToIndex CellRef).toNat else none

/-! ## Grid boxes and grid maps -/

/-- `FGridBox`: an inclusive rectangle of cells. -/
structure FGridBox where
  MinX : Int
  MaxX : Int
  MinY : Int
  MaxY : Int
deriving DecidableEq

/-- The cells visited by
`for (Y = MinY; Y <= MaxY; ++Y) for (X = MinX; X <= MaxX; ++X)`, in that order. -/
def FGridBox.Cells (b : FGridBox) : List FCellRef :=
  (List.range (b.MaxY - b.MinY + 1).toNat).flatMap fun dy =>
    (List.range (b.MaxX - b.MinX + 1).toNat).map fun dx =>
      (⟨b.MinX + (dx : Int), b.MinY + (dy : Int)⟩ : FCellRef)

/-- The cell lies in the box, bounds included. -/
def FGridBox.IsValidCell (b : FGridBox) (c : FCellRef) : Bool :=
  decide (b.MinX ≤ c.X ∧ c.X ≤ b.MaxX ∧ b.MinY ≤ c.Y ∧ c.Y ≤ b.MaxY)

/-- The box covering the whole grid. -/
def AGAGridActor.WholeBox (g : AGAGridActor) : FGridBox := ⟨0, g.XCount - 1, 0, g.YCount - 1⟩

/-- Modelled from the spec: `FGAGridMap` (GAGridMap.h/.cpp are absent): "a rectangular
sub-region of Grid's index space (MinX..MaxX, MinY..MaxY, inclusive), a default scalar
value, and a mapping from CellRef to scalar value for cells explicitly set". -/
structure FGAGridMap where
  GridBounds : FGridBox
  DefaultValue : ℚ
  Values : TMap FCellRef ℚ
deriving DecidableEq

/-- Modelled from the spec: the constructor `FGAGridMap(Grid, GridBox, Default)`: no
cell is set yet. -/
def FGAGridMap.New (GridBox : FGridBox) (Default : ℚ) : FGAGridMap := ⟨GridBox, Default, []⟩

/-- Modelled from the spec: `FGAGridMap::SetValue` "overwrites or inserts". -/
def FGAGridMap.SetValue (m : FGAGridMap) (c : FCellRef) (v : ℚ) : FGAGridMap :=
  { m with Values := TMap.Add m.Values c v }

/-- Modelled from the spec: `FGAGridMap::GetValue(cellRef) -> (value, found)`, "unset
cells report the configured default". The Boolean the C++ function returns is the
first component: the cell is on the map (`RefreshDebugTexture` calls it `IsOnMap`);
the second is the value written to the out-parameter. -/
def FGAGridMap.GetValue (m : FGAGridMap) (c : FCellRef) : Bool × ℚ :=
  (m.GridBounds.IsValidCell c, (TMap.Find m.Values c).getD m.DefaultValue)

/-! ## `GAPathComponent.cpp`: the distance field -/

/-- `IsCellValid(GridActor, Cell)`. -/
def IsCellValid (GridActor : Option AGAGridActor) (Cell : FCellRef) : Bool :=
  match GridActor with
  | none => false
  | some g => decide (Cell.X ≥ 0 ∧ Cell.X < g.XCount ∧ Cell.Y ≥ 0 ∧ Cell.Y < g.YCount)

/-- `FindNeighbors(GridActor, CurrentCell, Neighbors)`: the list left in `Neighbors`. -/
def FindNeighbors (GridActor : Option AGAGridActor) (CurrentCell : FCellRef) : List FCellRef :=
  match GridActor with
  | none => []
  | some _ =>
    let GridStep : Int := 1
    ([-1, 0, 1] : List Int).flatMap fun YOffset =>
      ([-1, 0, 1] : List Int).flatMap fun XOffset =>
        if XOffset = 0 ∧ YOffset = 0 then []
        else if IsCellValid GridActor
            ⟨CurrentCell.X + XOffset * GridStep, CurrentCell.Y + YOffset * GridStep⟩ then
          [(⟨CurrentCell.X + XOffset * GridStep, CurrentCell.Y + YOffset * GridStep⟩ : FCellRef)]
        else []

/-- The local maps of `dijkstra` together with the `CameFrom` it fills. -/
structure DijkstraState where
  dist : TMap FCellRef ℚ
  sptSet : TMap FCellRef Bool
  CameFrom : TMap FCellRef FVector
deriving DecidableEq

/-- The selection loop of `dijkstra` (lines 306-315) over the pairs of `dist` still to
visit, carrying `(minDist, u)`. -/
def pickMin (sptSet : TMap FCellRef Bool) :
    List (FCellRef × ℚ) → ℚ × FCellRef → Run (ℚ × FCellRef)
  | [], acc => .done acc
  | (Key, Value) :: rest, (minDist, u) =>
    match TMap.Find sptSet Key with
    | none => .checkFailed
    | some visited =>
      if visited = false ∧ Value ≤ minDist then pickMin sptSet rest (Value, Key)
      else pickMin sptSet rest (minDist, u)

/-- The relaxation loop of `dijkstra` (lines 324-336) over the neighbours still to
visit. -/
def relax (GridActor : AGAGridActor) (u : FCellRef) :
    List FCellRef → DijkstraState → Run DijkstraState
  | [], s => .done s
  | Neighbor :: rest, s =>
    match TMap.Find s.sptSet Neighbor with
    | none => .checkFailed
    | some true => relax GridActor u rest s
    | some false =>
      match TMap.Find s.dist u with
      | none => .checkFailed
      | some du =>
        if du ≠ FLT_MAX then
          match TMap.Find s.dist Neighbor with
          | none => .checkFailed
          | some _ =>
            relax GridActor u rest
              ⟨TMap.Add s.dist Neighbor (du + 1), s.sptSet,
               TMap.Add s.CameFrom Neighbor (GridActor.GetCellPosition Neighbor)⟩
        else relax GridActor u rest s

/-- One pass of the main loop of `dijkstra` (lines 305-336). -/
def dijkstraStep (GridActor : AGAGridActor) (s : DijkstraState) : Run DijkstraState :=
  match pickMin s.sptSet s.dist (FLT_MAX, FCellRef.Default) with
  | .done (_, u) =>
    match TMap.Find s.sptSet u with
    | none => .checkFailed
    | some _ =>
      relax GridActor u (FindNeighbors (some GridActor) u)
        ⟨s.dist, TMap.Add s.sptSet u true, s.CameFrom⟩
  | .checkFailed => .checkFailed
  | .outOfFuel => .outOfFuel

/-- The main loop of `dijkstra`, `count` passes. -/
def dijkstraLoop (GridActor : AGAGridActor) : Nat → DijkstraState → Run DijkstraState
  | 0, s => .done s
  | count + 1, s =>
    match dijkstraStep GridActor s with
    | .done s' => dijkstraLoop GridActor count s'
    | .checkFailed => .checkFailed
    | .outOfFuel => .outOfFuel

/-- The state of `dijkstra` when its main loop starts (lines 280-300). -/
def dijkstraInit (StartPoint : FVector) (Bounds : FGridBox) (CameFrom : TMap FCellRef FVector)
    (GridActor : AGAGridActor) : DijkstraState :=
  ⟨TMap.Add (Bounds.Cells.foldl (fun m c => TMap.Add m c FLT_MAX) [])
      (GridActor.GetCellRef StartPoint GridActor.DefaultClamp) 0,
   Bounds.Cells.foldl (fun m c => TMap.Add m c false) [],
   CameFrom⟩

/-- `Area - 1`, the number of passes of the main loop of `dijkstra`. -/
def dijkstraPasses (Bounds : FGridBox) : Nat :=
  ((Bounds.MaxX - Bounds.MinX + 1) * (Bounds.MaxY - Bounds.MinY + 1) - 1).toNat

/-- The static function `dijkstra(StartPoint, DistanceMap, CameFrom, GridActor)`: the
distance map and the `CameFrom` map it leaves. -/
def dijkstra (StartPoint : FVector) (DistanceMap : FGAGridMap)
    (CameFrom : TMap FCellRef FVector) (GridActor : AGAGridActor) :
    Run (FGAGridMap × TMap FCellRef FVector) :=
  match dijkstraLoop GridActor (dijkstraPasses DistanceMap.GridBounds)
      (dijkstraInit StartPoint DistanceMap.GridBounds CameFrom GridActor) with
  | .done s => .done (s.dist.foldl (fun m Pair => m.SetValue Pair.1 Pair.2) DistanceMap, s.CameFrom)
  | .checkFailed => .checkFailed
  | .outOfFuel => .outOfFuel

/-- `UGAPathComponent::Dijkstra(StartPoint, DistanceMapOut, CameFrom)`: the Boolean it
returns with the two maps it leaves. `Grid` is the result of `GetGridActor()`. -/
def UGAPathComponent.Dijkstra (Grid : Option AGAGridActor) (StartPoint : FVector)
    (DistanceMapOut : FGAGridMap) (CameFrom : TMap FCellRef FVector) :
    Run (Bool × FGAGridMap × TMap FCellRef FVector) :=
  match Grid with
  | none => .done (false, DistanceMapOut, CameFrom)
  | some g =>
    match dijkstra StartPoint DistanceMapOut CameFrom g with
    | .done (m, cf) => .done (true, m, cf)
    | .checkFailed => .checkFailed
    | .outOfFuel => .outOfFuel

/-! ## Path reconstruction -/

/-- The loop of `CameFromToPath` in GAPathComponent.cpp (lines 103-114), then lines
116-120. `fuel` bounds the number of passes; `path` is the array built so far. The
early `return` hands back `path` as it stands. `CurrentCell` is never assigned, so the
lookup is at the default-constructed cell. -/
def PathComponent.CameFromToPathLoop (CameFrom : TMap FCellRef FVector) (start : FVector)
    (GridActor : AGAGridActor) : Nat → FVector → List FVector → Run (List FVector)
  | 0, current, path =>
    if current = start then .done (path ++ [start]).reverse else .outOfFuel
  | fuel + 1, current, path =>
    if current = start then .done (path ++ [start]).reverse
    else if (GridActor.GetCellRef current false).IsValid then .done (path ++ [current])
    else
      match TMap.Find CameFrom FCellRef.Default with
      | none => .checkFailed
      | some next =>
        PathComponent.CameFromToPathLoop CameFrom start GridActor fuel next (path ++ [current])

/-- `CameFromToPath(CameFrom, start, goal, path, GridActor)` of GAPathComponent.cpp: the
contents of `path` on return. -/
def PathComponent.CameFromToPath (fuel : Nat) (CameFrom : TMap FCellRef FVector)
    (start goal : FVector) (GridActor : AGAGridActor) : Run (List FVector) :=
  PathComponent.CameFromToPathLoop CameFrom start GridActor fuel goal []

/-- The loop of `CameFromToPath` in GASpatialComponent.cpp (lines 93-104), then lines
106-110: as in GAPathComponent.cpp, with the added test `!CameFrom.Contains(CurrentCell)`. -/
def SpatialComponent.CameFromToPathLoop (CameFrom : TMap FCellRef FVector) (start : FVector)
    (GridActor : AGAGridActor) : Nat → FVector → List FVector → Run (List FVector)
  | 0, current, path =>
    if current = start then .done (path ++ [start]).reverse else .outOfFuel
  | fuel + 1, current, path =>
    if current = start then .done (path ++ [start]).reverse
    else if (GridActor.GetCellRef current false).IsValid
        ∨ TMap.Contains CameFrom FCellRef.Default = false then .done (path ++ [current])
    else
      match TMap.Find CameFrom FCellRef.Default with
      | none => .checkFailed
      | some next =>
        SpatialComponent.CameFromToPathLoop CameFrom start GridActor fuel next (path ++ [current])

/-- `CameFromToPath(CameFrom, start, goal, path, GridActor)` of GASpatialComponent.cpp. -/
def SpatialComponent.CameFromToPath (fuel : Nat) (CameFrom : TMap FCellRef FVector)
    (start goal : FVector) (GridActor : AGAGridActor) : Run (List FVector) :=
  SpatialComponent.CameFromToPathLoop CameFrom start GridActor fuel goal []

/-! ## `GASpatialComponent.cpp`: the evaluator -/

/-- `ESpatialInput` (declared in the absent header `GASpatialFunction.h`; the
enumerators are those of the `switch` in `EvaluateLayer`). -/
inductive ESpatialInput where
  | SI_None
  | SI_TargetRange
  | SI_PathDistance
  | SI_LOS
deriving DecidableEq

/-- `ESpatialOp` (declared in the absent header `GASpatialFunction.h`; the enumerators
are those of the `switch` in `EvaluateLayer`). `SO_None` is the operator the spec calls
Replace: its case sets the value. -/
inductive ESpatialOp where
  | SO_None
  | SO_Add
  | SO_Multiply
deriving DecidableEq

/-- `FFunctionLayer`; `ResponseCurve` is `ResponseCurve.GetRichCurveConst()->Eval`. -/
structure FFunctionLayer where
  Input : ESpatialInput
  Op : ESpatialOp
  ResponseCurve : ℚ → ℚ

/-- What `EvaluateLayer` reads from the world: the position of the player pawn (the
target) and the result `bHitSomething` of `LineTraceSingleByChannel(Start, End)`. -/
structure FWorld where
  PlayerPosition : FVector
  LineTrace : FVector → FVector → Bool

/-- The conversion of a `bool` to `float`. -/
def boolToFloat (b : Bool) : ℚ := if b then 1 else 0

/-- The running state of `EvaluateLayer`: the grid map, `BestValue` and `BestCell`. -/
structure EvalState where
  GridMap : FGAGridMap
  BestValue : ℚ
  BestCell : FCellRef
deriving DecidableEq

/-- The raw value of a cell (the `switch (Layer.Input)`, lines 281-319). -/
def layerInput (Layer : FFunctionLayer) (Grid : AGAGridActor) (World : FWorld)
    (DistanceMap : FGAGridMap) (CellRef : FCellRef) : ℚ :=
  match Layer.Input with
  | .SI_None => 0
  | .SI_TargetRange => FVector.DistSquared (Grid.GetCellPosition CellRef) World.PlayerPosition
  | .SI_PathDistance => boolToFloat (DistanceMap.GetValue CellRef).1
  | .SI_LOS =>
    if World.LineTrace { Grid.GetCellPosition CellRef with Z := World.PlayerPosition.Z }
        World.PlayerPosition = false then 1 else 0

/-- The combination step (the `switch (Layer.Op)`, lines 325-346). -/
def layerCombine (Layer : FFunctionLayer) (GridMap : FGAGridMap) (CellRef : FCellRef)
    (ModifiedValue : ℚ) : FGAGridMap :=
  match Layer.Op with
  | .SO_None => GridMap.SetValue CellRef ModifiedValue
  | .SO_Add =>
    if (GridMap.GetValue CellRef).1 then
      GridMap.SetValue CellRef (ModifiedValue + boolToFloat (GridMap.GetValue CellRef).1)
    else GridMap
  | .SO_Multiply =>
    if (GridMap.GetValue CellRef).1 then
      GridMap.SetValue CellRef (ModifiedValue * boolToFloat (GridMap.GetValue CellRef).1)
    else GridMap

/-- The body of the loops of `EvaluateLayer` for one cell (lines 268-381). -/
def evaluateCell (Layer : FFunctionLayer) (Grid : AGAGridActor) (World : FWorld)
    (DistanceMap : FGAGridMap) (CellRef : FCellRef) (s : EvalState) : Run EvalState :=
  match Grid.GetCellData CellRef with
  | none => .checkFailed
  | some CellData =>
    if EnumHasAllFlags CellData CellDataTraversable then
      let GridMap := layerCombine Layer s.GridMap CellRef
        (Layer.ResponseCurve (layerInput Layer Grid World DistanceMap CellRef))
      if (GridMap.GetValue CellRef).1 ∧ (GridMap.GetValue CellRef).2 > s.BestValue then
        .done ⟨GridMap, (GridMap.GetValue CellRef).2, CellRef⟩
      else .done ⟨GridMap, s.BestValue, s.BestCell⟩
    else .done s

/-- The cells visited by the loops of `EvaluateLayer`,
`for (Y = MinY; Y < MaxY; Y++) for (X = MinX; X < MaxX; X++)`, in that order. -/
def FGridBox.EvaluatedCells (b : FGridBox) : List FCellRef :=
  (List.range (b.MaxY - b.MinY).toNat).flatMap fun dy =>
    (List.range (b.MaxX - b.MinX).toNat).map fun dx =>
      (⟨b.MinX + (dx : Int), b.MinY + (dy : Int)⟩ : FCellRef)

/-- The loops of `EvaluateLayer` over the cells still to visit. -/
def evaluateCells (Layer : FFunctionLayer) (Grid : AGAGridActor) (World : FWorld)
    (DistanceMap : FGAGridMap) : List FCellRef → EvalState → Run EvalState
  | [], s => .done s
  | CellRef :: rest, s =>
    match evaluateCell Layer Grid World DistanceMap CellRef s with
    | .done s' => evaluateCells Layer Grid World DistanceMap rest s'
    | .checkFailed => .checkFailed
    | .outOfFuel => .outOfFuel

/-- `UGASpatialComponent::EvaluateLayer(Layer, GridMap, DistanceMap, BestCell)`: the grid
map and the best cell it leaves. -/
def UGASpatialComponent.EvaluateLayer (Grid : AGAGridActor) (World : FWorld)
    (Layer : FFunctionLayer) (GridMap DistanceMap : FGAGridMap) (BestCell : FCellRef) :
    Run (FGAGridMap × FCellRef) :=
  match evaluateCells Layer Grid World DistanceMap GridMap.GridBounds.EvaluatedCells
      ⟨GridMap, -FLT_MAX, BestCell⟩ with
  | .done s => .done (s.GridMap, s.BestCell)
  | .checkFailed => .checkFailed
  | .outOfFuel => .outOfFuel

/-- Apply a function to the value a run returned. -/
def Run.map {α β : Type} (f : α → β) : Run α → Run β
  | .done a => .done (f a)
  | .checkFailed => .checkFailed
  | .outOfFuel => .outOfFuel

/-- The two local maps of a `dijkstra` state, without `CameFrom`. -/
def DijkstraState.Maps (s : DijkstraState) : TMap FCellRef ℚ × TMap FCellRef Bool :=
  (s.dist, s.sptSet)

/-- Every entry of the map pairs a cell with the centre of that same cell. -/
def CameFromSelf (g : AGAGridActor) (CameFrom : TMap FCellRef FVector) : Prop :=
  ∀ p ∈ CameFrom, p.2 = g.GetCellPosition p.1

/-! ## `GAPathComponent`: the path follower -/

/-- `EGAPathState` (GAPathComponent.h:31-38). -/
inductive EGAPathState where
  | GAPS_None
  | GAPS_Active
  | GAPS_Finished
  | GAPS_Invalid
deriving DecidableEq

/-- `FVector2D`. -/
structure FVector2D where
  X : ℚ
  Y : ℚ
deriving DecidableEq

/-- `FPathStep` (GAPathComponent.h:11-28). -/
structure FPathStep where
  Point : FVector2D
  CellRef : FCellRef
deriving DecidableEq

/-- The constructor `FPathStep()`: `Point(FVector2D::ZeroVector), CellRef(FCellRef::Invalid)`. -/
def FPathStep.New : FPathStep := ⟨⟨0, 0⟩, FCellRef.Invalid⟩

/-- The members of `UGAPathComponent` that the modelled functions read or write.

`StateWrites` is not a member of the C++ class: it records, oldest first, every value
the modelled functions assign to `State`, so that a statement can speak about the states
the follower passes through during a call. -/
structure UGAPathComponent where
  State : EGAPathState
  bDestinationValid : Bool
  ArrivalDistance : ℚ
  bRebuildPathRequested : Bool
  Destination : FVector
  DestinationCell : FCellRef
  Steps : List FPathStep
  CachedCameFrom : TMap FCellRef FVector
  StateWrites : List EGAPathState
deriving DecidableEq

/-- An assignment `State = s`. -/
def UGAPathComponent.SetState (c : UGAPathComponent) (s : EGAPathState) : UGAPathComponent :=
  { c with State := s, StateWrites := c.StateWrites ++ [s] }

/-- `FMath::Square` on `double`. -/
def squareDouble (x : ℚ) : ℚ := toDouble (x * x)

/-- `FVector::Dist(a, b)`, the square root of
`Square(b.X - a.X) + Square(b.Y - a.Y) + Square(b.Z - a.Z)`, every operation rounded to
`double`. -/
def FVector.Dist (a b : FVector) : ℚ :=
  sqrtToDouble
    (toDouble (toDouble (squareDouble (toDouble (b.X - a.X))
        + squareDouble (toDouble (b.Y - a.Y)))
      + squareDouble (toDouble (b.Z - a.Z))))

/-- The test of `RefreshPath` (lines 182-184):
`float DistanceToDestination = FVector::Dist(a, b)`, the distance narrowed to `float`,
and then `DistanceToDestination <= r`. -/
def FVector.DistLE (a b : FVector) (r : ℚ) : Bool :=
  decide (toFloat (FVector.Dist a b) ≤ r)

/-- The bounds of the distance map that `GoThere` builds (lines 133-135):
`FGridBox GridBox(CellRect)` for the default-constructed `FIntRect CellRect`, whose four
coordinates are zero. -/
def GoThereBounds : FGridBox := ⟨0, 0, 0, 0⟩

/-- `TArray<FPathStep>::SetNum(n)`: keep the first `n` elements, pad with
default-constructed steps. -/
def SetNum (Steps : List FPathStep) (n : Nat) : List FPathStep :=
  Steps.take n ++ List.replicate (n - Steps.length) FPathStep.New

/-- The conversion loop of `GoThere` (lines 151-162) over the points still to visit,
carrying `Steps` and `i`. `GetCellData` and `Steps[i]` are range-checked array reads. -/
def fillSteps (Grid : AGAGridActor) : List FVector → List FPathStep → Nat → Run (List FPathStep)
  | [], Steps, _ => .done Steps
  | Point :: rest, Steps, i =>
    match Grid.GetCellData (Grid.GetCellRef Point Grid.DefaultClamp) with
    | none => .checkFailed
    | some CellData =>
      if CellData = CellDataTraversable then
        if i < Steps.length then
          fillSteps Grid rest
            (Steps.set i ⟨⟨Point.X, Point.Y⟩, Grid.GetCellRef Point Grid.DefaultClamp⟩) (i + 1)
        else .checkFailed
      else fillSteps Grid rest Steps i

/-- `UGAPathComponent::GoThere(CameFrom)`: the component, the map behind the reference
`CameFrom`, and the returned state. `Grid` is what `GetGridActor()` yields,
`OwnerLocation` is `GetOwnerPawn()->GetActorLocation()`, `fuel` bounds the loop of
`CameFromToPath`. -/
def UGAPathComponent.GoThere (fuel : Nat) (Grid : Option AGAGridActor) (OwnerLocation : FVector)
    (c : UGAPathComponent) (CameFrom : TMap FCellRef FVector) :
    Run (UGAPathComponent × TMap FCellRef FVector × EGAPathState) :=
  match Grid with
  | none => .done (c, CameFrom, .GAPS_Invalid)
  | some g =>
    match UGAPathComponent.Dijkstra Grid OwnerLocation (FGAGridMap.New GoThereBounds FLT_MAX)
        CameFrom with
    | .done (true, _, CameFrom') =>
      match PathComponent.CameFromToPath fuel CameFrom' OwnerLocation c.Destination g with
      | .done RawPath =>
        match fillSteps g RawPath (SetNum c.Steps CameFrom'.length) 0 with
        | .done Steps =>
          .done (({ c with Steps := Steps }).SetState .GAPS_Active, CameFrom', .GAPS_Active)
        | .checkFailed => .checkFailed
        | .outOfFuel => .outOfFuel
      | .checkFailed => .checkFailed
      | .outOfFuel => .outOfFuel
    | .done (false, _, CameFrom') => .done (c.SetState .GAPS_Invalid, CameFrom', .GAPS_Invalid)
    | .checkFailed => .checkFailed
    | .outOfFuel => .outOfFuel

/-- `UGAPathComponent::RefreshPath()`: the component and the returned state. `GoThere`
is handed the member `CachedCameFrom` by reference. -/
def UGAPathComponent.RefreshPath (fuel : Nat) (Grid : Option AGAGridActor)
    (OwnerLocation : FVector) (c : UGAPathComponent) : Run (UGAPathComponent × EGAPathState) :=
  if c.bDestinationValid = false then .checkFailed
  else if FVector.DistLE OwnerLocation c.Destination c.ArrivalDistance then
    .done (c.SetState .GAPS_Finished, .GAPS_Finished)
  else if c.State ≠ .GAPS_Active then
    match UGAPathComponent.GoThere fuel Grid OwnerLocation (c.SetState .GAPS_Active)
        c.CachedCameFrom with
    | .done (c', CameFrom', Result) => .done ({ c' with CachedCameFrom := CameFrom' }, Result)
    | .checkFailed => .checkFailed
    | .outOfFuel => .outOfFuel
  else .done (c, c.State)

/-- `UGAPathComponent::SetDestination(DestinationPoint, CameFrom)`: the component and the
returned state. -/
def UGAPathComponent.SetDestination (fuel : Nat) (Grid : Option AGAGridActor)
    (OwnerLocation : FVector) (c : UGAPathComponent) (DestinationPoint : FVector)
    (CameFrom : TMap FCellRef FVector) : Run (UGAPathComponent × EGAPathState) :=
  match Grid with
  | none =>
    .done ({ ({ c with Destination := DestinationPoint }).SetState .GAPS_Invalid with
      bDestinationValid := true }, .GAPS_Invalid)
  | some g =>
    if (g.GetCellRef DestinationPoint g.DefaultClamp).IsValid then
      match UGAPathComponent.RefreshPath fuel Grid OwnerLocation
          { ({ c with Destination := DestinationPoint }).SetState .GAPS_Invalid with
            bDestinationValid := true
            DestinationCell := g.GetCellRef DestinationPoint g.DefaultClamp
            bRebuildPathRequested := true
            CachedCameFrom := CameFrom } with
      | .done (c', _) => .done (c', c'.State)
      | .checkFailed => .checkFailed
      | .outOfFuel => .outOfFuel
    else
      .done ({ ({ c with Destination := DestinationPoint }).SetState .GAPS_Invalid with
        bDestinationValid := true }, .GAPS_Invalid)

/-- `UGAPathComponent::SetDestinationAndRebuildPath(DestinationPoint)`. -/
def UGAPathComponent.SetDestinationAndRebuildPath (c : UGAPathComponent)
    (DestinationPoint : FVector) : UGAPathComponent :=
  { c with Destination := DestinationPoint, bDestinationValid := true,
           bRebuildPathRequested := true }

/-- `UGAPathComponent::FollowPath()`: the two checks, then the vector `V` from the owner
to the first step, as it is before `V.Normalize()`. -/
def UGAPathComponent.FollowPath (OwnerLocation : FVector) (c : UGAPathComponent) : Run FVector :=
  if c.State ≠ .GAPS_Active then .checkFailed
  else
    match c.Steps with
    | [] => .checkFailed
    | Step :: _ =>
      .done ⟨Step.Point.X - OwnerLocation.X, Step.Point.Y - OwnerLocation.Y,
        0 - OwnerLocation.Z⟩

/-- The second half of `TickComponent` (lines 83-87). -/
def UGAPathComponent.FollowIfActive (OwnerLocation : FVector) (c : UGAPathComponent) :
    Run (UGAPathComponent × Option FVector) :=
  if c.State = .GAPS_Active then
    match UGAPathComponent.FollowPath OwnerLocation c with
    | .done V => .done (c, some V)
    | .checkFailed => .checkFailed
    | .outOfFuel => .outOfFuel
  else .done (c, none)

/-- `UGAPathComponent::TickComponent`: the component after the tick and the vector handed
to `FollowPath`'s move request, if `FollowPath` ran. -/
def UGAPathComponent.TickComponent (fuel : Nat) (Grid : Option AGAGridActor)
    (OwnerLocation : FVector) (c : UGAPathComponent) : Run (UGAPathComponent × Option FVector) :=
  if c.bDestinationValid = true ∧ c.bRebuildPathRequested = true then
    match UGAPathComponent.RefreshPath fuel Grid OwnerLocation c with
    | .done (c', _) =>
      UGAPathComponent.FollowIfActive OwnerLocation { c' with bRebuildPathRequested := false }
    | .checkFailed => .checkFailed
    | .outOfFuel => .outOfFuel
  else UGAPathComponent.FollowIfActive OwnerLocation c

/-- Consecutive ticks, one per owner location of the list. -/
def UGAPathComponent.Ticks (fuel : Nat) (Grid : Option AGAGridActor) :
    List FVector → UGAPathComponent → Run UGAPathComponent
  | [], c => .done c
  | OwnerLocation :: rest, c =>
    match UGAPathComponent.TickComponent fuel Grid OwnerLocation c with
    | .done (c', _) => UGAPathComponent.Ticks fuel Grid rest c'
    | .checkFailed => .checkFailed
    | .outOfFuel => .outOfFuel

/-! ## `GASpatialComponent.cpp`: `ChoosePosition` -/

/-- The conversion `int32(x)` of a `float`: truncation toward zero. -/
def TruncToInt (x : ℚ) : Int := if 0 ≤ x then ⌊x⌋ else ⌈x⌉

/-- `FBox2D`: the corners `Min` and `Max`. -/
structure FBox2D where
  Min : FVector2D
  Max : FVector2D
deriving DecidableEq

/-- `FIntRect`: the corners `Min` and `Max`. -/
structure FIntRect where
  MinX : Int
  MinY : Int
  MaxX : Int
  MaxY : Int
deriving DecidableEq

/-- `AGAGridActor::GridSpaceBoundsToRect2D(Box, RectOut)`: the returned Boolean and the
rectangle written to `RectOut`. -/
def AGAGridActor.GridSpaceBoundsToRect2D (g : AGAGridActor) (Box : FBox2D) : Bool × FIntRect :=
  let HalfScale := (1 / 2) * g.CellScale
  let MinX := max (TruncToInt ((Box.Min.X + HalfScale) / g.CellScale)) 0
  let MaxX := min (TruncToInt ((Box.Max.X - HalfScale) / g.CellScale)) (g.XCount - 1)
  let MinY := max (TruncToInt ((Box.Min.Y + HalfScale) / g.CellScale)) 0
  let MaxY := min (TruncToInt ((Box.Max.Y - HalfScale) / g.CellScale)) (g.YCount - 1)
  (decide (MinX ≤ MaxX ∧ MinY ≤ MaxY), ⟨MinX, MinY, MaxX, MaxY⟩)

/-- The constructor `FGridBox(CellRect)` (declared in an absent header): the same
rectangle, as `ChoosePosition` says of the two types. -/
def FGridBox.OfRect (r : FIntRect) : FGridBox := ⟨r.MinX, r.MaxX, r.MinY, r.MaxY⟩

/-- The box of `ChoosePosition` (lines 135-139): the pawn location expanded by half of
`SampleDimensions` on both axes. -/
def QueryBox (PawnLocation : FVector) (SampleDimensions : ℚ) : FBox2D :=
  ⟨⟨PawnLocation.X - SampleDimensions / 2, PawnLocation.Y - SampleDimensions / 2⟩,
   ⟨PawnLocation.X + SampleDimensions / 2, PawnLocation.Y + SampleDimensions / 2⟩⟩

/-- The loop over the layers in `ChoosePosition` (lines 168-174), carrying the grid map
and the best cell. -/
def evaluateLayers (Grid : AGAGridActor) (World : FWorld) (DistanceMap : FGAGridMap) :
    List FFunctionLayer → FGAGridMap × FCellRef → Run (FGAGridMap × FCellRef)
  | [], acc => .done acc
  | Layer :: rest, (GridMap, BestCell) =>
    match UGASpatialComponent.EvaluateLayer Grid World Layer GridMap DistanceMap BestCell with
    | .done acc => evaluateLayers Grid World DistanceMap rest acc
    | .checkFailed => .checkFailed
    | .outOfFuel => .outOfFuel

/-- `UGASpatialComponent::ChoosePosition(PathfindToPosition, Debug)` without its debug
rendering: the returned Boolean and the path component afterwards.

`SpatialFunction` is the layer list behind `SpatialFunctionReference` (`none` when the
reference is null), `Grid` the grid actor both components resolve, `PathComp` the path
component, `Uninit` the contents of the local `FVector BestCellPosition` before any
assignment. -/
def UGASpatialComponent.ChoosePosition (fuel : Nat) (Grid : AGAGridActor) (World : FWorld)
    (OwnerLocation : FVector) (SpatialFunction : Option (List FFunctionLayer))
    (SampleDimensions : ℚ) (PathComp : UGAPathComponent) (Uninit : FVector)
    (PathfindToPosition : Bool) : Run (Bool × UGAPathComponent) :=
  match SpatialFunction with
  | none => .done (false, PathComp)
  | some Layers =>
    if (Grid.GridSpaceBoundsToRect2D (QueryBox OwnerLocation SampleDimensions)).1 then
      match UGAPathComponent.Dijkstra (some Grid) OwnerLocation
          (FGAGridMap.New
            (FGridBox.OfRect (Grid.GridSpaceBoundsToRect2D (QueryBox OwnerLocation SampleDimensions)).2)
            FLT_MAX) [] with
      | .done (_, DistanceMap, CameFrom) =>
        match evaluateLayers Grid World DistanceMap Layers
            (FGAGridMap.New
              (FGridBox.OfRect
                (Grid.GridSpaceBoundsToRect2D (QueryBox OwnerLocation SampleDimensions)).2) 0,
             FCellRef.Default) with
        | .done (_, BestCell) =>
          if PathfindToPosition then
            match UGAPathComponent.SetDestination fuel (some Grid) OwnerLocation PathComp
                (if BestCell.IsValid then Grid.GetCellPosition BestCell else Uninit) CameFrom with
            | .done (PathComp', _) => .done (true, PathComp')
            | .checkFailed => .checkFailed
            | .outOfFuel => .outOfFuel
          else .done (true, PathComp)
        | .checkFailed => .checkFailed
        | .outOfFuel => .outOfFuel
      | .checkFailed => .checkFailed
      | .outOfFuel => .outOfFuel
    else .done (false, PathComp)

/-! ## `GAGridActor.cpp`: `ResetData` and the traversable flag -/

/-- Modelled from the spec: `AGAGridActor::GetCellCount()` is declared in the absent header
`GAGridActor.h`; the spec has the traversability array "of length XCount×YCount". -/
def AGAGridActor.GetCellCount (g : AGAGridActor) : Int := g.XCount * g.YCount

/-- `TArray<ECellData>::SetNum(n)`: keep the first `n` elements, pad with zeroes. -/
def SetNumData (Data : List Nat) (n : Nat) : List Nat :=
  Data.take n ++ List.replicate (n - Data.length) 0

/-- `AGAGridActor::ResetData()`: the returned Boolean and the grid afterwards. `SetNum`
with a negative count fails a check; the `memset` overwrites every element with 0. -/
def AGAGridActor.ResetData (g : AGAGridActor) : Run (Bool × AGAGridActor) :=
  if g.GetCellCount < 0 then .checkFailed
  else .done (false, { g with Data := (SetNumData g.Data g.GetCellCount.toNat).map fun _ => 0 })

/-- The test `EnumHasAllFlags(Grid->GetCellData(CellRef), ECellData::CellDataTraversable)`
of `EvaluateLayer`, false for a cell outside the array. -/
def AGAGridActor.IsTraversable (g : AGAGridActor) (CellRef : FCellRef) : Bool :=
  match g.GetCellData CellRef with
  | some CellData => EnumHasAllFlags CellData CellDataTraversable
  | none => false

/-! ## Cell centres, the distance between cells and cell-by-cell evaluation -/

/-- `AGAGridActor::GetCellGridSpacePosition(CellRef)`: the centre of the cell in grid
space, whose origin is the corner of the grid. -/
def AGAGridActor.GetCellGridSpacePosition (g : AGAGridActor) (CellRef : FCellRef) : FVector2D :=
  ⟨g.CellCentre CellRef.X, g.CellCentre CellRef.Y⟩

/-- The Chebyshev distance `max(|dx|, |dy|)` between two cells. -/
def FCellRef.ChebyshevDistance (u v : FCellRef) : Int := max |v.X - u.X| |v.Y - u.Y|

/-- What the body of the loops of `EvaluateLayer` does to the grid map for one cell, the
bookkeeping of the best cell left out. -/
def evaluateCellMap (Layer : FFunctionLayer) (Grid : AGAGridActor) (World : FWorld)
    (DistanceMap : FGAGridMap) (CellRef : FCellRef) (GridMap : FGAGridMap) : Run FGAGridMap :=
  (evaluateCell Layer Grid World DistanceMap CellRef ⟨GridMap, -FLT_MAX, FCellRef.Default⟩).map
    fun s => s.GridMap

/-- Cell-by-cell evaluation of one cell: all the layers folded, in order, over that cell
alone. -/
def cellByCellAt (Grid : AGAGridActor) (World : FWorld) (DistanceMap : FGAGridMap)
    (CellRef : FCellRef) : List FFunctionLayer → FGAGridMap → Run FGAGridMap
  | [], GridMap => .done GridMap
  | Layer :: rest, GridMap =>
    match evaluateCellMap Layer Grid World DistanceMap CellRef GridMap with
    | .done GridMap' => cellByCellAt Grid World DistanceMap CellRef rest GridMap'
    | .checkFailed => .checkFailed
    | .outOfFuel => .outOfFuel

/-- Cell-by-cell evaluation of a list of cells: the cells in the outer loop, the layers in
the inner one. -/
def cellByCell (Grid : AGAGridActor) (World : FWorld) (DistanceMap : FGAGridMap)
    (Layers : List FFunctionLayer) : List FCellRef → FGAGridMap → Run FGAGridMap
  | [], GridMap => .done GridMap
  | CellRef :: rest, GridMap =>
    match cellByCellAt Grid World DistanceMap CellRef Layers GridMap with
    | .done GridMap' => cellByCell Grid World DistanceMap Layers rest GridMap'
    | .checkFailed => .checkFailed
    | .outOfFuel => .outOfFuel

/-- The grid map after the body of the loops of `EvaluateLayer` for a cell that has data:
combined at a cell with the traversable flag, unchanged otherwise. -/
def cellStep (Layer : FFunctionLayer) (Grid : AGAGridActor) (World : FWorld)
    (DistanceMap : FGAGridMap) (CellRef : FCellRef) (GridMap : FGAGridMap) : FGAGridMap :=
  if Grid.IsTraversable CellRef then
    layerCombine Layer GridMap CellRef
      (Layer.ResponseCurve (layerInput Layer Grid World DistanceMap CellRef))
  else GridMap

/-- Two grid maps that report the same for the cell `k`: same window, same default and
the same stored value at `k`. -/
def FGAGridMap.AgreeAt (k : FCellRef) (a b : FGAGridMap) : Prop :=
  a.GridBounds = b.GridBounds ∧ a.DefaultValue = b.DefaultValue
    ∧ TMap.Find a.Values k = TMap.Find b.Values k

/-- A step on grid maps, one per cell, is local: the step for the cell `c` changes nothing
at another cell `k`, and at `c` itself its result depends on the grid map at `c` only. -/
def LocalStep (f : FCellRef → FGAGridMap → FGAGridMap) : Prop :=
  ∀ (c k : FCellRef) (a b : FGAGridMap), FGAGridMap.AgreeAt k a b →
    FGAGridMap.AgreeAt k (f c a) (if c = k then f k b else b)

/-! ## What holds of the maps of `dijkstra` between two passes on the whole grid -/

/-- A distance value that fits the cell `c` after `N` passes: still `FLT_MAX`, or a whole
number between the Chebyshev distance of `c` from the source and `N`. -/
def DistValueOK (Source : FCellRef) (N : Int) (c : FCellRef) (v : ℚ) : Prop :=
  v = FLT_MAX ∨ ∃ m : Int, v = (m : ℚ) ∧ Source.ChebyshevDistance c ≤ m ∧ m ≤ N

/-- The cells of the grid that `sptSet` marks as processed. -/
def visitedCells (g : AGAGridActor) (sptSet : TMap FCellRef Bool) : Finset FCellRef :=
  g.WholeBox.Cells.toFinset.filter fun c => TMap.Find sptSet c = some true

/-- The maps of `dijkstra` after `N` passes on the whole grid: the keys of `dist` and of
`sptSet` are the cells of the grid, every distance fits its cell, and at most `N` cells
are marked as processed. -/
def DijkstraInv (g : AGAGridActor) (Source : FCellRef) (N : Nat) (s : DijkstraState) : Prop :=
  (∀ c, TMap.Find s.dist c ≠ none ↔ IsCellValid (some g) c = true)
    ∧ (∀ c, TMap.Find s.sptSet c ≠ none ↔ IsCellValid (some g) c = true)
    ∧ (∀ c v, (c, v) ∈ s.dist → DistValueOK Source N c v)
    ∧ (visitedCells g s.sptSet).card ≤ N

/-! ## Concrete inputs -/

/-- A fully traversable grid of scale 100 placed with the identity transform. -/
def openGrid (XCount YCount : Nat) (DefaultClamp : Bool) : AGAGridActor :=
  plainGrid XCount YCount 100 (List.replicate (XCount * YCount) CellDataTraversable) DefaultClamp

/-- The 5 x 1 grid of scale 100 whose cell (2, 0) is not traversable. -/
def blockedRow : AGAGridActor := plainGrid 5 1 100 [1, 1, 0, 1, 1] false

/-- A fresh distance map over the whole grid, as built with
`FGAGridMap DistanceMap(Grid, GridBox, FLT_MAX)`. -/
def AGAGridActor.FreshDistanceMap (g : AGAGridActor) : FGAGridMap :=
  FGAGridMap.New g.WholeBox FLT_MAX

/-- The distance field from the centre of cell `c`, over the whole grid, with an empty
`CameFrom` to start with. -/
def AGAGridActor.DistanceFieldFrom (g : AGAGridActor) (c : FCellRef) :
    Run (FGAGridMap × TMap FCellRef FVector) :=
  dijkstra (g.GetCellPosition c) g.FreshDistanceMap [] g

/-- The value a distance field holds for a cell, when the run returned. -/
def storedDistance (r : Run (FGAGridMap × TMap FCellRef FVector)) (c : FCellRef) : Option ℚ :=
  r.result?.map fun out => (out.1.GetValue c).2

/-- The single layer [TargetRange, identity curve, Replace]. -/
def targetRangeLayer : FFunctionLayer := ⟨.SI_TargetRange, .SO_None, fun v => v⟩

/-- Sequencing of runs: the first failure is the outcome. -/
def Run.bind {α β : Type} (r : Run α) (f : α → Run β) : Run β :=
  match r with
  | .done a => f a
  | .checkFailed => .checkFailed
  | .outOfFuel => .outOfFuel

/-- The path component as its constructor leaves it (GAPathComponent.cpp:6-16), with no
steps, no cached map and no write to `State` recorded. -/
def UGAPathComponent.New : UGAPathComponent :=
  ⟨.GAPS_None, false, 100, false, ⟨0, 0, 0⟩, FCellRef.Invalid, [], [], []⟩

/-- The 2 x 2 grid of scale 100 without any traversable cell. -/
def closedGrid : AGAGridActor := plainGrid 2 2 100 [0, 0, 0, 0] false

/-- A world whose player stands at `PlayerPosition` and in which no line trace hits. -/
def openWorld (PlayerPosition : FVector) : FWorld := ⟨PlayerPosition, fun _ _ => false⟩

/-- The fully traversable 3 x 1 grid of scale 100; its cell centres are (-100, 0, 0),
(0, 0, 0) and (100, 0, 0). -/
def row3 : AGAGridActor := openGrid 3 1 false

/-- A follower on `row3` that is actively following a path to cell (1, 0), its one step,
with a cached map of two entries. -/
def activeFollower : UGAPathComponent :=
  { UGAPathComponent.New with
    State := .GAPS_Active
    bDestinationValid := true
    Destination := ⟨0, 0, 0⟩
    DestinationCell := ⟨1, 0⟩
    Steps := [⟨⟨0, 0⟩, ⟨1, 0⟩⟩]
    CachedCameFrom := [(⟨1, 0⟩, ⟨0, 0, 0⟩), (⟨2, 0⟩, ⟨100, 0, 0⟩)] }

/-- A freshly constructed follower whose destination is (100, 0, 0), the centre of cell
(2, 0) of `row3`. -/
def plannedFollower : UGAPathComponent :=
  { UGAPathComponent.New with Destination := ⟨100, 0, 0⟩ }

/-- The 3 x 3 grid of scale 100 whose cell (1, 0) is not traversable; the centre of its
cell (0, 0) is (-100, -100, 0). -/
def pillarGrid : AGAGridActor := plainGrid 3 3 100 [1, 0, 1, 1, 1, 1, 1, 1, 1] false

/-- A grid of one row of 20000000 traversable cells of scale 1, placed with the identity
transform. -/
def longRow : AGAGridActor :=
  plainGrid 20000000 1 1 (List.replicate 20000000 CellDataTraversable) true

/-- The Active follower of `row3` with the destination (50 + 2^(-20), 0, 0): from the owner
location (-50, 0, 0) the distance is 100 + 2^(-20), and `ArrivalDistance` is 100. -/
def nearFollower : UGAPathComponent :=
  { activeFollower with Destination := ⟨50 + 1 / 1048576, 0, 0⟩ }

/-- A follower of `row3` in state Finished whose destination is (100, 0, 0), the centre of
cell (2, 0). -/
def finishedFollower : UGAPathComponent :=
  { activeFollower with State := .GAPS_Finished, Destination := ⟨100, 0, 0⟩ }

/-- The follower `finishedFollower` after a replan from the owner location (-100, 0, 0):
Active, with the step to cell (2, 0) and a default step, `State` written twice. -/
def replannedFollower : UGAPathComponent :=
  { finishedFollower with
    State := .GAPS_Active
    Steps := [⟨⟨100, 0⟩, ⟨2, 0⟩⟩, FPathStep.New]
    StateWrites := [.GAPS_Active, .GAPS_Active] }

/-! ## Theorems -/

/-! ### The rounding to `float` and `double` -/

/-- The power `pow2 e` is `2 ^ e`. -/
theorem pow2_eq (e : Int) : pow2 e = (2 : ℚ) ^ e := by
  unfold pow2
  by_cases h : 0 ≤ e
  · simp only [h, if_true]
    have he : e = ((e.toNat : Nat) : Int) := (Int.toNat_of_nonneg h).symm
    conv_rhs => rw [he]
    rw [zpow_natCast]
    push_cast
    rfl
  · simp only [h, if_false]
    have hn : 0 ≤ -e := by omega
    have he : e = -(((-e).toNat : Nat) : Int) := by
      rw [Int.toNat_of_nonneg hn]
      ring
    conv_rhs => rw [he]
    rw [zpow_neg, zpow_natCast]
    push_cast
    rw [one_div]

/-- The count `log2Fuel` is the binary logarithm, rounded down, when the fuel is at least
the number. -/
theorem log2Fuel_spec :
    ∀ (fuel n : Nat), n ≠ 0 → n ≤ fuel →
      2 ^ log2Fuel fuel n ≤ n ∧ n < 2 ^ (log2Fuel fuel n + 1) := by
  intro fuel
  induction fuel with
  | zero => intro n h0 hle; omega
  | succ fuel ih =>
    intro n h0 hle
    simp only [log2Fuel]
    by_cases h2 : n < 2
    · simp only [h2, if_true]
      omega
    · simp only [h2, if_false]
      have hdiv : n / 2 ≠ 0 := by omega
      have hdle : n / 2 ≤ fuel := by omega
      obtain ⟨h1, h3⟩ := ih (n / 2) hdiv hdle
      constructor
      · rw [pow_succ]
        omega
      · rw [pow_succ]
        omega

/-- The binary exponent brackets the value. -/
theorem binExponent_spec (x : ℚ) (hx : x ≠ 0) :
    (2 : ℚ) ^ binExponent x ≤ |x| ∧ |x| < (2 : ℚ) ^ (binExponent x + 1) := by
  have hnum : x.num.natAbs ≠ 0 := by
    intro h
    exact hx (Rat.zero_of_num_zero (Int.natAbs_eq_zero.mp h))
  have hden : x.den ≠ 0 := x.den_nz
  obtain ⟨hp1, hp2⟩ := log2Fuel_spec x.num.natAbs x.num.natAbs hnum le_rfl
  obtain ⟨hq1, hq2⟩ := log2Fuel_spec x.den x.den hden le_rfl
  have habs : |x| = (x.num.natAbs : ℚ) / (x.den : ℚ) := by
    have h1 : x = (x.num : ℚ) / (x.den : ℚ) := (Rat.num_div_den x).symm
    conv_lhs => rw [h1]
    rw [abs_div, Nat.abs_cast]
    congr 1
    rw [Nat.cast_natAbs, Int.cast_abs]
  set p := x.num.natAbs with hp
  set q := x.den with hq
  set lp := log2Fuel p p with hlp
  set lq := log2Fuel q q with hlq
  have hqpos : (0 : ℚ) < (q : ℚ) := by exact_mod_cast Nat.pos_of_ne_zero hden
  have hp1q : (2 : ℚ) ^ lp ≤ (p : ℚ) := by exact_mod_cast hp1
  have hp2q : (p : ℚ) < (2 : ℚ) ^ (lp + 1) := by exact_mod_cast hp2
  have hq1q : (2 : ℚ) ^ lq ≤ (q : ℚ) := by exact_mod_cast hq1
  have hq2q : (q : ℚ) < (2 : ℚ) ^ (lq + 1) := by exact_mod_cast hq2
  have h2pos : ∀ k : Int, (0 : ℚ) < (2 : ℚ) ^ k := fun k => zpow_pos (by norm_num) k
  -- the value lies strictly between `2 ^ (lp - lq - 1)` and `2 ^ (lp - lq + 1)`
  have hlow : (2 : ℚ) ^ ((lp : Int) - (lq : Int) - 1) < |x| := by
    rw [habs, lt_div_iff₀ hqpos]
    have e1 : (2 : ℚ) ^ ((lp : Int) - (lq : Int) - 1) * (2 : ℚ) ^ ((lq : Int) + 1)
        = (2 : ℚ) ^ (lp : Int) := by
      rw [← zpow_add₀ (by norm_num : (2 : ℚ) ≠ 0)]
      congr 1
      ring
    have e2 : (2 : ℚ) ^ ((lq : Int) + 1) = (2 : ℚ) ^ (lq + 1) := by
      rw [← zpow_natCast]
      push_cast
      rfl
    have e3 : (2 : ℚ) ^ (lp : Int) = (2 : ℚ) ^ lp := zpow_natCast _ _
    calc (2 : ℚ) ^ ((lp : Int) - (lq : Int) - 1) * (q : ℚ)
        < (2 : ℚ) ^ ((lp : Int) - (lq : Int) - 1) * (2 : ℚ) ^ (lq + 1) :=
          mul_lt_mul_of_pos_left hq2q (h2pos _)
      _ = (2 : ℚ) ^ lp := by rw [← e2, e1, e3]
      _ ≤ (p : ℚ) := hp1q
  have hhigh : |x| < (2 : ℚ) ^ ((lp : Int) - (lq : Int) + 1) := by
    rw [habs, div_lt_iff₀ hqpos]
    have e1 : (2 : ℚ) ^ ((lp : Int) - (lq : Int) + 1) * (2 : ℚ) ^ (lq : Int)
        = (2 : ℚ) ^ ((lp : Int) + 1) := by
      rw [← zpow_add₀ (by norm_num : (2 : ℚ) ≠ 0)]
      congr 1
      ring
    have e2 : (2 : ℚ) ^ ((lp : Int) + 1) = (2 : ℚ) ^ (lp + 1) := by
      rw [← zpow_natCast]
      push_cast
      rfl
    have e3 : (2 : ℚ) ^ (lq : Int) = (2 : ℚ) ^ lq := zpow_natCast _ _
    calc (p : ℚ) < (2 : ℚ) ^ (lp + 1) := hp2q
      _ = (2 : ℚ) ^ ((lp : Int) - (lq : Int) + 1) * (2 : ℚ) ^ lq := by rw [← e3, e1, e2]
      _ ≤ (2 : ℚ) ^ ((lp : Int) - (lq : Int) + 1) * (q : ℚ) :=
          mul_le_mul_of_nonneg_left hq1q (h2pos _).le
  unfold binExponent
  simp only [← hp, ← hq, ← hlp, ← hlq, pow2_eq]
  by_cases hc : (2 : ℚ) ^ ((lp : Int) - (lq : Int)) ≤ |x|
  · rw [if_pos hc]
    exact ⟨hc, hhigh⟩
  · rw [if_neg hc]
    refine ⟨hlow.le, ?_⟩
    have e : (lp : Int) - (lq : Int) - 1 + 1 = (lp : Int) - (lq : Int) := by ring
    rw [e]
    exact lt_of_not_le hc

/-- Rounding to the nearest integer moves a value by at most one half. -/
theorem roundHalfEven_err (x : ℚ) : |(roundHalfEven x : ℚ) - x| ≤ 1 / 2 := by
  have h0 : 0 ≤ x - ⌊x⌋ := by linarith [Int.floor_le x]
  have h1 : x - ⌊x⌋ < 1 := by linarith [Int.lt_floor_add_one x]
  unfold roundHalfEven
  rw [abs_le]
  split
  · constructor <;> linarith
  · split
    · push_cast
      constructor <;> linarith
    · split
      · constructor <;> linarith
      · push_cast
        constructor <;> linarith

/-- In the normal range the conversion to `float` has a relative error of at most
`2 ^ (-24)`. -/
theorem toFloat_rel (x : ℚ) (hx : (2 : ℚ) ^ (-126 : Int) ≤ |x|) :
    |toFloat x - x| ≤ |x| / 16777216 := by
  have h2pos : ∀ k : Int, (0 : ℚ) < (2 : ℚ) ^ k := fun k => zpow_pos (by norm_num) k
  have hx0 : x ≠ 0 := by
    intro h
    rw [h, abs_zero] at hx
    exact absurd hx (not_le.mpr (h2pos _))
  obtain ⟨he1, he2⟩ := binExponent_spec x hx0
  have hexp : (-126 : Int) < binExponent x + 1 := by
    have := lt_of_le_of_lt hx he2
    exact (zpow_lt_zpow_iff_right₀ (by norm_num : (1 : ℚ) < 2)).mp this
  have hmax : max (binExponent x - 23) (-149) = binExponent x - 23 := max_eq_left (by omega)
  have hulp : floatUlp x = (2 : ℚ) ^ (binExponent x - 23) := by
    unfold floatUlp
    rw [hmax, pow2_eq]
  have hw : (0 : ℚ) < floatUlp x := by rw [hulp]; exact h2pos _
  have hsplit : (2 : ℚ) ^ (binExponent x - 23) = (2 : ℚ) ^ binExponent x / 8388608 := by
    rw [zpow_sub₀ (by norm_num : (2 : ℚ) ≠ 0)]
    norm_num
  unfold toFloat
  rw [if_neg hx0]
  have herr := roundHalfEven_err (x / floatUlp x)
  have hrew : (roundHalfEven (x / floatUlp x) : ℚ) * floatUlp x - x
      = ((roundHalfEven (x / floatUlp x) : ℚ) - x / floatUlp x) * floatUlp x := by
    field_simp
  rw [hrew, abs_mul, abs_of_pos hw]
  calc |(roundHalfEven (x / floatUlp x) : ℚ) - x / floatUlp x| * floatUlp x
      ≤ 1 / 2 * floatUlp x := mul_le_mul_of_nonneg_right herr hw.le
    _ = (2 : ℚ) ^ binExponent x / 16777216 := by rw [hulp, hsplit]; ring
    _ ≤ |x| / 16777216 := by
        apply div_le_div_of_nonneg_right he1
        norm_num

/-- The conversion of a value at least `2 ^ (-126)` to `float` lies within the relative
error `2 ^ (-24)` below and above the value. -/
theorem toFloat_pos (x : ℚ) (hx : (2 : ℚ) ^ (-126 : Int) ≤ x) :
    x * (16777215 / 16777216) ≤ toFloat x ∧ toFloat x ≤ x * (16777217 / 16777216) := by
  have hpos : (0 : ℚ) < x := lt_of_lt_of_le (zpow_pos (by norm_num) _) hx
  have h := toFloat_rel x (by rw [abs_of_pos hpos]; exact hx)
  rw [abs_of_pos hpos, abs_le] at h
  constructor <;> linarith [h.1, h.2]

/-- The conversion of zero to `float`. -/
theorem toFloat_zero : toFloat 0 = 0 := by
  simp [toFloat]

/-- The conversion to `float` of zero or of a value at least `2 ^ (-126)`: within the
relative error `2 ^ (-24)`. -/
theorem toFloat_range (x : ℚ) (hx : x = 0 ∨ 1 / 2 ^ 126 ≤ x) :
    x * (16777215 / 16777216) ≤ toFloat x ∧ toFloat x ≤ x * (16777217 / 16777216) := by
  rcases hx with hx | hx
  · rw [hx, toFloat_zero]
    simp
  · refine toFloat_pos x ?_
    have e : (2 : ℚ) ^ (-126 : Int) = 1 / 2 ^ 126 := by
      rw [zpow_neg, one_div, show (126 : Int) = ((126 : Nat) : Int) from rfl, zpow_natCast]
    rw [e]
    exact hx

/-- The conversion to `float` of a value at most `-2 ^ (-126)`: within the relative error
`2 ^ (-24)`. -/
theorem toFloat_neg (x : ℚ) (hx : x ≤ -(1 / 2 ^ 126)) :
    x * (16777217 / 16777216) ≤ toFloat x ∧ toFloat x ≤ x * (16777215 / 16777216) := by
  have hneg : x < 0 := lt_of_le_of_lt hx (by norm_num)
  have e : (2 : ℚ) ^ (-126 : Int) = 1 / 2 ^ 126 := by
    rw [zpow_neg, one_div, show (126 : Int) = ((126 : Nat) : Int) from rfl, zpow_natCast]
  have h := toFloat_rel x (by rw [abs_of_neg hneg, e]; linarith)
  rw [abs_of_neg hneg, abs_le] at h
  constructor <;> linarith [h.1, h.2]

/-- Flooring `c + 1/2` for an integer `c` gives `c`. -/
theorem floor_int_add_half (c : Int) : ⌊(c : ℚ) + 1 / 2⌋ = c := by
  rw [Int.floor_eq_iff]
  constructor <;> linarith

/-- Discretising the corner-relative centre of an in-bounds cell gives the cell. -/
theorem Discretize_centre (g : AGAGridActor) (hs : 0 < g.CellScale) (c : FCellRef)
    (hx0 : 0 ≤ c.X) (hx1 : c.X < g.XCount) (hy0 : 0 ≤ c.Y) (hy1 : c.Y < g.YCount) :
    g.Discretize ((c.X : ℚ) * g.CellScale + (1 / 2) * g.CellScale)
      ((c.Y : ℚ) * g.CellScale + (1 / 2) * g.CellScale) = c := by
  have hne : g.CellScale ≠ 0 := ne_of_gt hs
  have ex : ((c.X : ℚ) * g.CellScale + (1 / 2) * g.CellScale) / g.CellScale = (c.X : ℚ) + 1 / 2 := by
    field_simp
    ring
  have ey : ((c.Y : ℚ) * g.CellScale + (1 / 2) * g.CellScale) / g.CellScale = (c.Y : ℚ) + 1 / 2 := by
    field_simp
    ring
  unfold AGAGridActor.Discretize Clamp
  rw [ex, ey, floor_int_add_half, floor_int_add_half]
  cases c with
  | mk cx cy =>
    simp only at hx0 hx1 hy0 hy1 ⊢
    congr 1
    · rw [min_eq_left (by omega), max_eq_left hx0]
    · rw [min_eq_left (by omega), max_eq_left hy0]

/-- The digit-by-digit square root never exceeds the root. -/
theorem isqrtAux_sq_le (n : Nat) :
    ∀ (b r : Nat), r * r ≤ n → isqrtAux n b r * isqrtAux n b r ≤ n := by
  intro b
  induction b with
  | zero => intro r h; exact h
  | succ b ih =>
    intro r h
    simp only [isqrtAux]
    split
    · rename_i hc
      exact ih _ hc
    · exact ih _ h

/-- The integer square root squared is at most the number. -/
theorem isqrt_sq_le (n : Nat) : isqrt n * isqrt n ≤ n :=
  isqrtAux_sq_le n _ 0 (Nat.zero_le _)

/-- For non-negative rationals, the order of the squares is the order of the values. -/
theorem le_of_mul_self_le (x y : ℚ) (hy : 0 ≤ y) (h : x * x ≤ y * y) : x ≤ y := by
  by_contra hlt
  push_neg at hlt
  have : y * y < x * x := mul_self_lt_mul_self hy hlt
  linarith

/-- The binary exponent is the only one whose power of two brackets the value. -/
theorem binExponent_unique (x : ℚ) (e : Int) (h1 : (2 : ℚ) ^ e ≤ |x|)
    (h2 : |x| < (2 : ℚ) ^ (e + 1)) : binExponent x = e := by
  have hx0 : x ≠ 0 := by
    intro h
    rw [h, abs_zero] at h1
    exact absurd h1 (not_le.mpr (zpow_pos (by norm_num) _))
  obtain ⟨he1, he2⟩ := binExponent_spec x hx0
  have a1 : e < binExponent x + 1 :=
    (zpow_lt_zpow_iff_right₀ (by norm_num : (1 : ℚ) < 2)).mp (lt_of_le_of_lt h1 he2)
  have a2 : binExponent x < e + 1 :=
    (zpow_lt_zpow_iff_right₀ (by norm_num : (1 : ℚ) < 2)).mp (lt_of_le_of_lt he1 h2)
  omega

/-- Rounding a non-negative value to the nearest integer gives a non-negative integer. -/
theorem roundHalfEven_nonneg (x : ℚ) (hx : 0 ≤ x) : 0 ≤ roundHalfEven x := by
  have h : (0 : Int) ≤ ⌊x⌋ := Int.floor_nonneg.mpr hx
  unfold roundHalfEven
  split
  · exact h
  · split
    · omega
    · split
      · exact h
      · omega

/-- Rounding to the nearest integer never passes an integer above the value. -/
theorem roundHalfEven_le (x : ℚ) (j : Int) (hx : x ≤ (j : ℚ)) : roundHalfEven x ≤ j := by
  have h : ⌊x⌋ ≤ j := by
    have := Int.floor_le x
    exact Int.floor_le_iff.mpr (by linarith [hx]) |>.trans (le_refl _)
  have hup : 0 < x - ⌊x⌋ → ⌊x⌋ + 1 ≤ j := by
    intro hpos
    have h1 : ((⌊x⌋ : Int) : ℚ) < (j : ℚ) := by linarith
    have h2 : ⌊x⌋ < j := by exact_mod_cast h1
    omega
  unfold roundHalfEven
  split
  · exact h
  · rename_i h1
    split
    · rename_i h2
      exact hup (by linarith)
    · split
      · exact h
      · exact hup (by linarith)

/-- Rounding a value strictly between an integer and the next half gives the integer. -/
theorem roundHalfEven_eq (x : ℚ) (j : Int) (h1 : (j : ℚ) ≤ x) (h2 : x < (j : ℚ) + 1 / 2) :
    roundHalfEven x = j := by
  have hf : ⌊x⌋ = j := by
    rw [Int.floor_eq_iff]
    constructor
    · exact h1
    · linarith
  unfold roundHalfEven
  rw [hf, if_pos (by linarith)]

/-- The conversion to `double` moves a value by at most the relative error `2 ^ (-53)`
plus half the subnormal spacing `2 ^ (-1075)`. -/
theorem toDouble_err (x : ℚ) : |toDouble x - x| ≤ |x| * (1 / 2 ^ 53) + 1 / 2 ^ 1075 := by
  have h2pos : ∀ k : Int, (0 : ℚ) < (2 : ℚ) ^ k := fun k => zpow_pos (by norm_num) k
  by_cases hx0 : x = 0
  · rw [hx0]
    simp [toDouble]
  obtain ⟨he1, _⟩ := binExponent_spec x hx0
  have hw : (0 : ℚ) < doubleUlp x := by
    unfold doubleUlp
    rw [pow2_eq]
    exact h2pos _
  have hwle : doubleUlp x ≤ |x| * (1 / 2 ^ 52) + 1 / 2 ^ 1074 := by
    unfold doubleUlp
    rw [pow2_eq]
    rcases le_total (binExponent x - 52) (-1074) with hc | hc
    · rw [max_eq_right hc]
      have e : (2 : ℚ) ^ (-1074 : Int) = 1 / 2 ^ 1074 := by
        rw [zpow_neg, one_div, show (1074 : Int) = ((1074 : Nat) : Int) from rfl, zpow_natCast]
      rw [e]
      have : (0 : ℚ) ≤ |x| * (1 / 2 ^ 52) := by positivity
      linarith
    · rw [max_eq_left hc]
      have e : (2 : ℚ) ^ (binExponent x - 52) = (2 : ℚ) ^ binExponent x * (1 / 2 ^ 52) := by
        rw [zpow_sub₀ (by norm_num : (2 : ℚ) ≠ 0)]
        rw [show (52 : Int) = ((52 : Nat) : Int) from rfl, zpow_natCast]
        ring
      rw [e]
      have : (2 : ℚ) ^ binExponent x * (1 / 2 ^ 52) ≤ |x| * (1 / 2 ^ 52) :=
        mul_le_mul_of_nonneg_right he1 (by positivity)
      have : (0 : ℚ) ≤ 1 / 2 ^ 1074 := by positivity
      linarith
  unfold toDouble
  rw [if_neg hx0]
  have herr := roundHalfEven_err (x / doubleUlp x)
  have hrew : (roundHalfEven (x / doubleUlp x) : ℚ) * doubleUlp x - x
      = ((roundHalfEven (x / doubleUlp x) : ℚ) - x / doubleUlp x) * doubleUlp x := by
    field_simp
  rw [hrew, abs_mul, abs_of_pos hw]
  calc |(roundHalfEven (x / doubleUlp x) : ℚ) - x / doubleUlp x| * doubleUlp x
      ≤ 1 / 2 * doubleUlp x := mul_le_mul_of_nonneg_right herr hw.le
    _ ≤ 1 / 2 * (|x| * (1 / 2 ^ 52) + 1 / 2 ^ 1074) :=
        mul_le_mul_of_nonneg_left hwle (by norm_num)
    _ = |x| * (1 / 2 ^ 53) + 1 / 2 ^ 1075 := by ring

/-- The conversion of a non-negative value to `double` is non-negative. -/
theorem toDouble_nonneg (x : ℚ) (hx : 0 ≤ x) : 0 ≤ toDouble x := by
  unfold toDouble
  split
  · exact le_rfl
  · have hw : (0 : ℚ) < doubleUlp x := by
      unfold doubleUlp
      rw [pow2_eq]
      exact zpow_pos (by norm_num) _
    have := roundHalfEven_nonneg (x / doubleUlp x) (div_nonneg hx hw.le)
    have h2 : (0 : ℚ) ≤ (roundHalfEven (x / doubleUlp x) : ℚ) := by exact_mod_cast this
    exact mul_nonneg h2 hw.le

/-- The conversion of a non-negative value to `double` from above. -/
theorem toDouble_le (x : ℚ) (hx : 0 ≤ x) :
    toDouble x ≤ x * (1 + 1 / 2 ^ 53) + 1 / 2 ^ 1075 := by
  have h := toDouble_err x
  rw [abs_of_nonneg hx, abs_le] at h
  linarith [h.2]

/-- The size of the conversion to `double` from above. -/
theorem toDouble_abs_le (x : ℚ) :
    |toDouble x| ≤ |x| * (1 + 1 / 2 ^ 53) + 1 / 2 ^ 1075 := by
  have h := toDouble_err x
  have h2 : |toDouble x| ≤ |toDouble x - x| + |x| := by
    have := abs_add (toDouble x - x) x
    simpa using this
  linarith

/-- The `double` nearest to the square root of `s` is at most `B * (1 + 2 ^ (-52))` plus the
subnormal spacing, for every `B ≥ 0` whose square is at least `s`. -/
theorem sqrtToDouble_le (s B : ℚ) (hB : 0 ≤ B) (h : s ≤ B * B) :
    sqrtToDouble s ≤ B * (1 + 1 / 2 ^ 52) + 1 / 2 ^ 1074 := by
  unfold sqrtToDouble
  by_cases hd : s ≤ 0
  · rw [if_pos hd]
    positivity
  rw [if_neg hd]
  push_neg at hd
  have hdne : s ≠ 0 := ne_of_gt hd
  have h2pos : ∀ k : Int, (0 : ℚ) < (2 : ℚ) ^ k := fun k => zpow_pos (by norm_num) k
  set a : Int := max (binExponent s / 2 - 52) (-1074) with ha
  have hulp : pow2 a = (2 : ℚ) ^ a := pow2_eq a
  have hu : (0 : ℚ) < pow2 a := by rw [hulp]; exact h2pos _
  set ulp : ℚ := pow2 a with hulpdef
  set m : ℚ := s / (ulp * ulp) with hm
  have hmpos : 0 < m := div_pos hd (mul_pos hu hu)
  have hdm : s = m * (ulp * ulp) := by
    rw [hm]; field_simp
  set k : Nat := isqrt ⌊m⌋.toNat with hk
  have hfloor : ((⌊m⌋.toNat : Nat) : ℚ) ≤ m := by
    have h1 : (0 : Int) ≤ ⌊m⌋ := Int.floor_nonneg.mpr hmpos.le
    have h2 : ((⌊m⌋.toNat : Nat) : Int) = ⌊m⌋ := Int.toNat_of_nonneg h1
    have h3 : ((⌊m⌋.toNat : Nat) : ℚ) = ((⌊m⌋ : Int) : ℚ) := by exact_mod_cast h2
    rw [h3]
    exact Int.floor_le m
  have hkm : (k : ℚ) * (k : ℚ) ≤ m := by
    have := isqrt_sq_le ⌊m⌋.toNat
    have h1 : ((k * k : Nat) : ℚ) ≤ ((⌊m⌋.toNat : Nat) : ℚ) := by exact_mod_cast this
    push_cast at h1
    exact le_trans h1 hfloor
  have hk0 : (0 : ℚ) ≤ (k : ℚ) := Nat.cast_nonneg k
  have hlow : (k : ℚ) * ulp ≤ B := by
    apply le_of_mul_self_le _ _ hB
    have : (k : ℚ) * ulp * ((k : ℚ) * ulp) = (k : ℚ) * (k : ℚ) * (ulp * ulp) := by ring
    rw [this]
    calc (k : ℚ) * (k : ℚ) * (ulp * ulp) ≤ m * (ulp * ulp) :=
          mul_le_mul_of_nonneg_right hkm (mul_pos hu hu).le
      _ = s := hdm.symm
      _ ≤ B * B := h
  have hule : ulp ≤ B * (1 / 2 ^ 52) + 1 / 2 ^ 1074 := by
    rw [hulp]
    rcases le_total (binExponent s / 2 - 52) (-1074) with hc | hc
    · rw [ha, max_eq_right hc]
      have e : (2 : ℚ) ^ (-1074 : Int) = 1 / 2 ^ 1074 := by
        rw [zpow_neg, one_div, show (1074 : Int) = ((1074 : Nat) : Int) from rfl, zpow_natCast]
      rw [e]
      have : (0 : ℚ) ≤ B * (1 / 2 ^ 52) := by positivity
      linarith
    · rw [ha, max_eq_left hc]
      obtain ⟨hd1, _⟩ := binExponent_spec s hdne
      rw [abs_of_pos hd] at hd1
      have hE : 2 * (binExponent s / 2) ≤ binExponent s := by omega
      have hr_ge : (2 : ℚ) ^ (binExponent s / 2) ≤ B := by
        apply le_of_mul_self_le _ _ hB
        calc (2 : ℚ) ^ (binExponent s / 2) * (2 : ℚ) ^ (binExponent s / 2)
            = (2 : ℚ) ^ (2 * (binExponent s / 2)) := by
              rw [← zpow_add₀ (by norm_num : (2 : ℚ) ≠ 0)]
              congr 1
              ring
          _ ≤ (2 : ℚ) ^ binExponent s := zpow_le_zpow_right₀ (by norm_num) hE
          _ ≤ s := hd1
          _ ≤ B * B := h
      have e : (2 : ℚ) ^ (binExponent s / 2 - 52)
          = (2 : ℚ) ^ (binExponent s / 2) * (1 / 2 ^ 52) := by
        rw [zpow_sub₀ (by norm_num : (2 : ℚ) ≠ 0)]
        rw [show (52 : Int) = ((52 : Nat) : Int) from rfl, zpow_natCast]
        ring
      rw [e]
      have : (2 : ℚ) ^ (binExponent s / 2) * (1 / 2 ^ 52) ≤ B * (1 / 2 ^ 52) :=
        mul_le_mul_of_nonneg_right hr_ge (by positivity)
      have : (0 : ℚ) ≤ 1 / 2 ^ 1074 := by positivity
      linarith
  have hhigh : ((k : ℚ) + 1) * ulp ≤ B * (1 + 1 / 2 ^ 52) + 1 / 2 ^ 1074 := by
    have : ((k : ℚ) + 1) * ulp = (k : ℚ) * ulp + ulp := by ring
    rw [this]
    linarith
  have hlow2 : (k : ℚ) * ulp ≤ B * (1 + 1 / 2 ^ 52) + 1 / 2 ^ 1074 := by
    have : (k : ℚ) * ulp ≤ ((k : ℚ) + 1) * ulp :=
      mul_le_mul_of_nonneg_right (by linarith) hu.le
    linarith
  simp only
  split
  · exact hlow2
  · split
    · exact hhigh
    · split
      · exact hlow2
      · exact hhigh

/-- The spacing of the `float` values around a value is positive. -/
theorem floatUlp_pos (x : ℚ) : 0 < floatUlp x := by
  unfold floatUlp
  rw [pow2_eq]
  exact zpow_pos (by norm_num) _

/-- The spacing of the `float` values around a value other than zero is more than the
value's size times `2 ^ (-24)`, and at least `2 ^ (-149)`. -/
theorem floatUlp_ge (r : ℚ) (hr : r ≠ 0) :
    |r| * (1 / 2 ^ 24) < floatUlp r ∧ 1 / 2 ^ 149 ≤ floatUlp r := by
  obtain ⟨_, he2⟩ := binExponent_spec r hr
  unfold floatUlp
  rw [pow2_eq]
  have e149 : (2 : ℚ) ^ (-149 : Int) = 1 / 2 ^ 149 := by
    rw [zpow_neg, one_div, show (149 : Int) = ((149 : Nat) : Int) from rfl, zpow_natCast]
  constructor
  · have e : (2 : ℚ) ^ (binExponent r - 23) = (2 : ℚ) ^ (binExponent r + 1) * (1 / 2 ^ 24) := by
      rw [zpow_sub₀ (by norm_num : (2 : ℚ) ≠ 0), zpow_add₀ (by norm_num : (2 : ℚ) ≠ 0)]
      rw [show (23 : Int) = ((23 : Nat) : Int) from rfl, zpow_natCast]
      norm_num
      ring
    calc |r| * (1 / 2 ^ 24) < (2 : ℚ) ^ (binExponent r + 1) * (1 / 2 ^ 24) :=
          mul_lt_mul_of_pos_right he2 (by positivity)
      _ = (2 : ℚ) ^ (binExponent r - 23) := e.symm
      _ ≤ (2 : ℚ) ^ (max (binExponent r - 23) (-149)) :=
          zpow_le_zpow_right₀ (by norm_num) (le_max_left _ _)
  · rw [← e149]
    exact zpow_le_zpow_right₀ (by norm_num) (le_max_right _ _)

/-- A positive `float` value is a positive whole number of its spacing. -/
theorem float_grid (r : ℚ) (hr : 0 < r) (hfl : toFloat r = r) :
    ∃ j : Int, 0 < j ∧ r = (j : ℚ) * floatUlp r := by
  refine ⟨roundHalfEven (r / floatUlp r), ?_, ?_⟩
  · have h1 : toFloat r = (roundHalfEven (r / floatUlp r) : ℚ) * floatUlp r := by
      unfold toFloat
      rw [if_neg (ne_of_gt hr)]
    rw [hfl] at h1
    have hw := floatUlp_pos r
    by_contra hneg
    push_neg at hneg
    have : (roundHalfEven (r / floatUlp r) : ℚ) ≤ 0 := by exact_mod_cast hneg
    have : (roundHalfEven (r / floatUlp r) : ℚ) * floatUlp r ≤ 0 :=
      mul_nonpos_of_nonpos_of_nonneg this hw.le
    linarith
  · have h1 : toFloat r = (roundHalfEven (r / floatUlp r) : ℚ) * floatUlp r := by
      unfold toFloat
      rw [if_neg (ne_of_gt hr)]
    rw [← h1, hfl]

/-- The conversion to `float` never passes a `float` value `r ≥ 0` above the value. -/
theorem toFloat_le_of_le (x r : ℚ) (hr0 : 0 ≤ r) (hfl : toFloat r = r) (h : x ≤ r) :
    toFloat x ≤ r := by
  have h2pos : ∀ k : Int, (0 : ℚ) < (2 : ℚ) ^ k := fun k => zpow_pos (by norm_num) k
  by_cases hx0 : x = 0
  · rw [hx0, toFloat_zero]; exact hr0
  have hwx := floatUlp_pos x
  have hdef : toFloat x = (roundHalfEven (x / floatUlp x) : ℚ) * floatUlp x := by
    unfold toFloat
    rw [if_neg hx0]
  rcases lt_or_le x 0 with hxneg | hxpos
  · have h1 : x / floatUlp x ≤ ((0 : Int) : ℚ) := by
      push_cast
      exact div_nonpos_of_nonpos_of_nonneg hxneg.le hwx.le
    have h2 := roundHalfEven_le _ 0 h1
    have h3 : (roundHalfEven (x / floatUlp x) : ℚ) ≤ 0 := by exact_mod_cast h2
    rw [hdef]
    exact le_trans (mul_nonpos_of_nonpos_of_nonneg h3 hwx.le) hr0
  have hxp : 0 < x := lt_of_le_of_ne hxpos (Ne.symm hx0)
  have hrpos : 0 < r := lt_of_lt_of_le hxp h
  obtain ⟨hx1, _⟩ := binExponent_spec x hx0
  obtain ⟨_, hr2⟩ := binExponent_spec r (ne_of_gt hrpos)
  rw [abs_of_pos hxp] at hx1
  rw [abs_of_pos hrpos] at hr2
  have hexp : binExponent x < binExponent r + 1 :=
    (zpow_lt_zpow_iff_right₀ (by norm_num : (1 : ℚ) < 2)).mp
      (lt_of_le_of_lt (le_trans hx1 h) hr2)
  set a : Int := max (binExponent x - 23) (-149) with ha
  set b : Int := max (binExponent r - 23) (-149) with hb
  have hab : a ≤ b := by
    rw [ha, hb]
    exact max_le_max (by omega) le_rfl
  have hwa : floatUlp x = (2 : ℚ) ^ a := by
    unfold floatUlp
    rw [← ha, pow2_eq]
  have hwb : floatUlp r = (2 : ℚ) ^ b := by
    unfold floatUlp
    rw [← hb, pow2_eq]
  have hwsplit : (2 : ℚ) ^ b = ((2 ^ (b - a).toNat : Nat) : ℚ) * (2 : ℚ) ^ a := by
    have e1 : b = ((b - a).toNat : Int) + a := by
      rw [Int.toNat_of_nonneg (by omega)]
      ring
    conv_lhs => rw [e1]
    rw [zpow_add₀ (by norm_num : (2 : ℚ) ≠ 0), zpow_natCast]
    push_cast
    rfl
  obtain ⟨j, _, hj⟩ := float_grid r hrpos hfl
  set J : Int := j * (2 ^ (b - a).toNat : Nat) with hJ
  have hrj : r = (J : ℚ) * floatUlp x := by
    calc r = (j : ℚ) * floatUlp r := hj
      _ = (j : ℚ) * (((2 ^ (b - a).toNat : Nat) : ℚ) * (2 : ℚ) ^ a) := by rw [hwb, hwsplit]
      _ = (J : ℚ) * floatUlp x := by rw [hJ, hwa]; push_cast; ring
  have hq : x / floatUlp x ≤ (J : ℚ) := by
    rw [div_le_iff₀ hwx, ← hrj]
    exact h
  have h2 := roundHalfEven_le _ J hq
  have h3 : (roundHalfEven (x / floatUlp x) : ℚ) ≤ (J : ℚ) := by exact_mod_cast h2
  rw [hdef, hrj]
  exact mul_le_mul_of_nonneg_right h3 hwx.le

/-- A value above a positive `float` value `r` by less than half the spacing converts to
`r`. -/
theorem toFloat_eq_of_lt (x r : ℚ) (hr : 0 < r) (hfl : toFloat r = r) (h1 : r < x)
    (h2 : x < r + floatUlp r / 2) : toFloat x = r := by
  have h2pos : ∀ k : Int, (0 : ℚ) < (2 : ℚ) ^ k := fun k => zpow_pos (by norm_num) k
  have hxp : 0 < x := lt_trans hr h1
  have hrne : r ≠ 0 := ne_of_gt hr
  obtain ⟨j, hj0, hj⟩ := float_grid r hr hfl
  obtain ⟨he1, he2⟩ := binExponent_spec r hrne
  rw [abs_of_pos hr] at he1 he2
  have hw := floatUlp_pos r
  obtain ⟨_, hw149⟩ := floatUlp_ge r hrne
  set b : Int := max (binExponent r - 23) (-149) with hb
  have hwb : floatUlp r = (2 : ℚ) ^ b := by
    unfold floatUlp
    rw [← hb, pow2_eq]
  -- the spacing is at most the value
  have hwr : floatUlp r ≤ r := by
    have : (1 : ℚ) ≤ (j : ℚ) := by exact_mod_cast hj0
    calc floatUlp r = 1 * floatUlp r := (one_mul _).symm
      _ ≤ (j : ℚ) * floatUlp r := mul_le_mul_of_nonneg_right this hw.le
      _ = r := hj.symm
  have hbe : b < binExponent r + 1 := by
    have : (2 : ℚ) ^ b < (2 : ℚ) ^ (binExponent r + 1) := by
      rw [← hwb]
      exact lt_of_le_of_lt hwr he2
    exact (zpow_lt_zpow_iff_right₀ (by norm_num : (1 : ℚ) < 2)).mp this
  -- the next power of two is a whole number of spacings
  have htop : (2 : ℚ) ^ (binExponent r + 1)
      = ((2 ^ (binExponent r + 1 - b).toNat : Nat) : ℚ) * floatUlp r := by
    have e1 : binExponent r + 1 = ((binExponent r + 1 - b).toNat : Int) + b := by
      rw [Int.toNat_of_nonneg (by omega)]
      ring
    conv_lhs => rw [e1]
    rw [zpow_add₀ (by norm_num : (2 : ℚ) ≠ 0), zpow_natCast, hwb]
    push_cast
    rfl
  set N : Nat := 2 ^ (binExponent r + 1 - b).toNat with hN
  have hjN : (j : ℚ) < (N : ℚ) := by
    have : (j : ℚ) * floatUlp r < (N : ℚ) * floatUlp r := by
      rw [← hj, ← htop]
      exact he2
    exact lt_of_mul_lt_mul_right this hw.le
  have hjN1 : (j : ℚ) + 1 ≤ (N : ℚ) := by
    have h3 : (j : Int) < (N : Int) := by exact_mod_cast hjN
    have h4 : j + 1 ≤ (N : Int) := by omega
    exact_mod_cast h4
  have hnext : r + floatUlp r ≤ (2 : ℚ) ^ (binExponent r + 1) := by
    rw [htop]
    have e : ((j : ℚ) + 1) * floatUlp r = r + floatUlp r := by
      have : ((j : ℚ) + 1) * floatUlp r = (j : ℚ) * floatUlp r + floatUlp r := by ring
      rw [this, ← hj]
    rw [← e]
    exact mul_le_mul_of_nonneg_right hjN1 hw.le
  have hex : binExponent x = binExponent r := by
    apply binExponent_unique
    · rw [abs_of_pos hxp]
      linarith
    · rw [abs_of_pos hxp]
      linarith
  have hwx : floatUlp x = floatUlp r := by
    unfold floatUlp
    rw [hex]
  have hround : roundHalfEven (x / floatUlp r) = j := by
    apply roundHalfEven_eq
    · rw [le_div_iff₀ hw, ← hj]
      exact h1.le
    · rw [div_lt_iff₀ hw]
      have e : ((j : ℚ) + 1 / 2) * floatUlp r = r + floatUlp r / 2 := by
        have : ((j : ℚ) + 1 / 2) * floatUlp r = (j : ℚ) * floatUlp r + floatUlp r / 2 := by
          ring
        rw [this, ← hj]
      rw [e]
      exact h2
  unfold toFloat
  rw [if_neg (ne_of_gt hxp), hwx, hround]
  exact hj.symm

/-- The conversion to `float` of a value below a `float` value `r > 0` plus half its
spacing is at most `r`. -/
theorem toFloat_le_float (x r : ℚ) (hr : 0 < r) (hfl : toFloat r = r)
    (h : x < r + floatUlp r / 2) : toFloat x ≤ r := by
  rcases le_or_lt x r with hle | hgt
  · exact toFloat_le_of_le x r hr.le hfl hle
  · exact (toFloat_eq_of_lt x r hr hfl hgt h).le

/-- A positive `float` value is at least `2 ^ (-149)`. -/
theorem float_ge (r : ℚ) (hr : 0 < r) (hfl : toFloat r = r) : 1 / 2 ^ 149 ≤ r := by
  obtain ⟨j, hj0, hj⟩ := float_grid r hr hfl
  obtain ⟨_, hw149⟩ := floatUlp_ge r (ne_of_gt hr)
  have hw := floatUlp_pos r
  have : (1 : ℚ) ≤ (j : ℚ) := by exact_mod_cast hj0
  calc (1 : ℚ) / 2 ^ 149 ≤ floatUlp r := hw149
    _ = 1 * floatUlp r := (one_mul _).symm
    _ ≤ (j : ℚ) * floatUlp r := mul_le_mul_of_nonneg_right this hw.le
    _ = r := hj.symm

/-- The square in `double` of a difference rounded to `double`, against the exact square:
within the relative error `2 ^ (-51)` and a share `2 ^ (-700)` of `r * r`, for a difference
of size at most `r` and `r` at least `2 ^ (-149)`. -/
theorem squareDouble_toDouble_le (x r : ℚ) (hx : x * x ≤ r * r) (hr : 1 / 2 ^ 149 ≤ r) :
    0 ≤ squareDouble (toDouble x)
      ∧ squareDouble (toDouble x) ≤ x * x * (1 + 1 / 2 ^ 51) + r * r * (1 / 2 ^ 700) := by
  have hr0 : (0 : ℚ) < r := lt_of_lt_of_le (by positivity) hr
  have hxr : |x| ≤ r := by
    apply le_of_mul_self_le _ _ hr0.le
    rw [abs_mul_abs_self]
    exact hx
  have hax : |x| * |x| = x * x := abs_mul_abs_self x
  have hu := toDouble_abs_le x
  have hu0 : 0 ≤ |toDouble x| := abs_nonneg _
  have huu : toDouble x * toDouble x = |toDouble x| * |toDouble x| := (abs_mul_abs_self _).symm
  have hvv : |toDouble x| * |toDouble x|
      ≤ (|x| * (1 + 1 / 2 ^ 53) + 1 / 2 ^ 1075) * (|x| * (1 + 1 / 2 ^ 53) + 1 / 2 ^ 1075) :=
    mul_self_le_mul_self hu0 hu
  have hexp : (|x| * (1 + 1 / 2 ^ 53) + 1 / 2 ^ 1075) * (|x| * (1 + 1 / 2 ^ 53) + 1 / 2 ^ 1075)
      = x * x * ((1 + 1 / 2 ^ 53) * (1 + 1 / 2 ^ 53))
        + |x| * (2 * (1 + 1 / 2 ^ 53) * (1 / 2 ^ 1075)) + 1 / 2 ^ 1075 * (1 / 2 ^ 1075) := by
    rw [← hax]
    ring
  have hxe : |x| * (2 * (1 + 1 / 2 ^ 53) * (1 / 2 ^ 1075)) ≤ r * (r * (1 / 2 ^ 924)) := by
    apply mul_le_mul hxr _ (by positivity) hr0.le
    calc (2 : ℚ) * (1 + 1 / 2 ^ 53) * (1 / 2 ^ 1075) ≤ 1 / 2 ^ 149 * (1 / 2 ^ 924) := by norm_num
      _ ≤ r * (1 / 2 ^ 924) := mul_le_mul_of_nonneg_right hr (by positivity)
  have hrr : (1 : ℚ) / 2 ^ 149 * (1 / 2 ^ 149) ≤ r * r :=
    mul_le_mul hr hr (by positivity) hr0.le
  have hsq0 : 0 ≤ toDouble x * toDouble x := mul_self_nonneg _
  have hd := toDouble_le (toDouble x * toDouble x) hsq0
  have hxx0 : 0 ≤ x * x := mul_self_nonneg x
  refine ⟨toDouble_nonneg _ hsq0, ?_⟩
  unfold squareDouble
  have hrrn : (1 : ℚ) / 2 ^ 149 * (1 / 2 ^ 149) = 1 / 2 ^ 298 := by norm_num
  rw [hrrn] at hrr
  rw [huu] at hd ⊢
  rw [hexp] at hvv
  have hA : |toDouble x| * |toDouble x|
      ≤ x * x * ((1 + 1 / 2 ^ 53) * (1 + 1 / 2 ^ 53)) + r * r * (1 / 2 ^ 923) := by
    have h1 : (1 : ℚ) / 2 ^ 1075 * (1 / 2 ^ 1075) ≤ r * r * (1 / 2 ^ 924) := by
      calc (1 : ℚ) / 2 ^ 1075 * (1 / 2 ^ 1075) ≤ 1 / 2 ^ 298 * (1 / 2 ^ 924) := by norm_num
        _ ≤ r * r * (1 / 2 ^ 924) := mul_le_mul_of_nonneg_right hrr (by positivity)
    have h2 : r * r * (1 / 2 ^ 923) = r * (r * (1 / 2 ^ 924)) + r * r * (1 / 2 ^ 924) := by
      ring
    linarith
  have hB : (1 : ℚ) / 2 ^ 1075 ≤ r * r * (1 / 2 ^ 777) := by
    calc (1 : ℚ) / 2 ^ 1075 = 1 / 2 ^ 298 * (1 / 2 ^ 777) := by norm_num
      _ ≤ r * r * (1 / 2 ^ 777) := mul_le_mul_of_nonneg_right hrr (by positivity)
  have hrr0 : 0 ≤ r * r := mul_self_nonneg r
  have hC : |toDouble x| * |toDouble x| * (1 + 1 / 2 ^ 53)
      ≤ (x * x * ((1 + 1 / 2 ^ 53) * (1 + 1 / 2 ^ 53)) + r * r * (1 / 2 ^ 923))
        * (1 + 1 / 2 ^ 53) :=
    mul_le_mul_of_nonneg_right hA (by positivity)
  have hD : (x * x * ((1 + 1 / 2 ^ 53) * (1 + 1 / 2 ^ 53)) + r * r * (1 / 2 ^ 923))
        * (1 + 1 / 2 ^ 53) + r * r * (1 / 2 ^ 777)
      ≤ x * x * (1 + 1 / 2 ^ 51) + r * r * (1 / 2 ^ 700) := by
    have e : (x * x * ((1 + 1 / 2 ^ 53) * (1 + 1 / 2 ^ 53)) + r * r * (1 / 2 ^ 923))
        * (1 + 1 / 2 ^ 53) + r * r * (1 / 2 ^ 777)
        = x * x * ((1 + 1 / 2 ^ 53) * (1 + 1 / 2 ^ 53) * (1 + 1 / 2 ^ 53))
          + r * r * (1 / 2 ^ 923 * (1 + 1 / 2 ^ 53) + 1 / 2 ^ 777) := by ring
    rw [e]
    have c1 : ((1 : ℚ) + 1 / 2 ^ 53) * (1 + 1 / 2 ^ 53) * (1 + 1 / 2 ^ 53) ≤ 1 + 1 / 2 ^ 51 := by
      norm_num
    have c2 : (1 : ℚ) / 2 ^ 923 * (1 + 1 / 2 ^ 53) + 1 / 2 ^ 777 ≤ 1 / 2 ^ 700 := by norm_num
    have := mul_le_mul_of_nonneg_left c1 hxx0
    have := mul_le_mul_of_nonneg_left c2 hrr0
    linarith
  linarith

/-- The distance computed in `double` is at most `r * (1 + 2 ^ (-49))` when the exact
distance is at most the positive `float` value `r`. -/
theorem FVector.Dist_le (a b : FVector) (r : ℚ) (hr : 0 < r) (hfl : toFloat r = r)
    (h : FVector.DistSquared a b ≤ r * r) : FVector.Dist a b ≤ r * (1 + 1 / 2 ^ 49) := by
  have hr149 := float_ge r hr hfl
  unfold FVector.DistSquared at h
  have hx0 : 0 ≤ (b.X - a.X) * (b.X - a.X) := mul_self_nonneg _
  have hy0 : 0 ≤ (b.Y - a.Y) * (b.Y - a.Y) := mul_self_nonneg _
  have hz0 : 0 ≤ (b.Z - a.Z) * (b.Z - a.Z) := mul_self_nonneg _
  obtain ⟨sx0, sx⟩ := squareDouble_toDouble_le (b.X - a.X) r (by linarith) hr149
  obtain ⟨sy0, sy⟩ := squareDouble_toDouble_le (b.Y - a.Y) r (by linarith) hr149
  obtain ⟨sz0, sz⟩ := squareDouble_toDouble_le (b.Z - a.Z) r (by linarith) hr149
  have h1 := toDouble_le _ (add_nonneg sx0 sy0)
  have h10 := toDouble_nonneg _ (add_nonneg sx0 sy0)
  have h2 := toDouble_le _ (add_nonneg h10 sz0)
  have hrr : (1 : ℚ) / 2 ^ 298 ≤ r * r := by
    calc (1 : ℚ) / 2 ^ 298 = 1 / 2 ^ 149 * (1 / 2 ^ 149) := by norm_num
      _ ≤ r * r := mul_le_mul hr149 hr149 (by positivity) hr.le
  have hrr0 : 0 ≤ r * r := mul_self_nonneg r
  have hsum : toDouble (toDouble (squareDouble (toDouble (b.X - a.X))
        + squareDouble (toDouble (b.Y - a.Y))) + squareDouble (toDouble (b.Z - a.Z)))
      ≤ r * (1 + 1 / 2 ^ 50) * (r * (1 + 1 / 2 ^ 50)) := by
    have e : r * (1 + 1 / 2 ^ 50) * (r * (1 + 1 / 2 ^ 50))
        = r * r * ((1 + 1 / 2 ^ 50) * (1 + 1 / 2 ^ 50)) := by ring
    rw [e]
    set SX := squareDouble (toDouble (b.X - a.X))
    set SY := squareDouble (toDouble (b.Y - a.Y))
    set SZ := squareDouble (toDouble (b.Z - a.Z))
    set S1 := toDouble (SX + SY)
    set PX := (b.X - a.X) * (b.X - a.X)
    set PY := (b.Y - a.Y) * (b.Y - a.Y)
    set PZ := (b.Z - a.Z) * (b.Z - a.Z)
    set Q := r * r
    -- everything against `Q`
    have hη : (1 : ℚ) / 2 ^ 1075 ≤ Q * (1 / 2 ^ 777) := by
      calc (1 : ℚ) / 2 ^ 1075 = 1 / 2 ^ 298 * (1 / 2 ^ 777) := by norm_num
        _ ≤ Q * (1 / 2 ^ 777) := mul_le_mul_of_nonneg_right hrr (by positivity)
    have hS : SX + SY + SZ ≤ Q * (1 + 1 / 2 ^ 51 + 3 / 2 ^ 700) := by
      have : (PX + PY + PZ) * (1 + 1 / 2 ^ 51) ≤ Q * (1 + 1 / 2 ^ 51) :=
        mul_le_mul_of_nonneg_right h (by positivity)
      linarith
    have hS12 : (SX + SY) * (1 + 1 / 2 ^ 53) + SZ ≤ (SX + SY + SZ) * (1 + 1 / 2 ^ 53) := by
      have : 0 ≤ SZ * (1 / 2 ^ 53) := by positivity
      linarith
    have hS1 : S1 + SZ ≤ (SX + SY + SZ) * (1 + 1 / 2 ^ 53) + Q * (1 / 2 ^ 777) := by
      linarith
    have hm1 : (S1 + SZ) * (1 + 1 / 2 ^ 53)
        ≤ ((SX + SY + SZ) * (1 + 1 / 2 ^ 53) + Q * (1 / 2 ^ 777)) * (1 + 1 / 2 ^ 53) :=
      mul_le_mul_of_nonneg_right hS1 (by positivity)
    have hm2 : (SX + SY + SZ) * ((1 + 1 / 2 ^ 53) * (1 + 1 / 2 ^ 53))
        ≤ Q * (1 + 1 / 2 ^ 51 + 3 / 2 ^ 700) * ((1 + 1 / 2 ^ 53) * (1 + 1 / 2 ^ 53)) :=
      mul_le_mul_of_nonneg_right hS (by positivity)
    have hc : ((1 : ℚ) + 1 / 2 ^ 51 + 3 / 2 ^ 700) * ((1 + 1 / 2 ^ 53) * (1 + 1 / 2 ^ 53))
        + 1 / 2 ^ 777 * (1 + 1 / 2 ^ 53) + 1 / 2 ^ 777
        ≤ (1 + 1 / 2 ^ 50) * (1 + 1 / 2 ^ 50) := by norm_num
    have hcQ := mul_le_mul_of_nonneg_left hc hrr0
    have e1 : ((SX + SY + SZ) * (1 + 1 / 2 ^ 53) + Q * (1 / 2 ^ 777)) * (1 + 1 / 2 ^ 53)
        = (SX + SY + SZ) * ((1 + 1 / 2 ^ 53) * (1 + 1 / 2 ^ 53))
          + Q * (1 / 2 ^ 777 * (1 + 1 / 2 ^ 53)) := by ring
    have e2 : Q * (((1 : ℚ) + 1 / 2 ^ 51 + 3 / 2 ^ 700) * ((1 + 1 / 2 ^ 53) * (1 + 1 / 2 ^ 53))
        + 1 / 2 ^ 777 * (1 + 1 / 2 ^ 53) + 1 / 2 ^ 777)
        = Q * (1 + 1 / 2 ^ 51 + 3 / 2 ^ 700) * ((1 + 1 / 2 ^ 53) * (1 + 1 / 2 ^ 53))
          + Q * (1 / 2 ^ 777 * (1 + 1 / 2 ^ 53)) + Q * (1 / 2 ^ 777) := by ring
    linarith
  have hroot := sqrtToDouble_le _ (r * (1 + 1 / 2 ^ 50)) (by positivity) hsum
  unfold FVector.Dist
  have hfin : r * (1 + 1 / 2 ^ 50) * (1 + 1 / 2 ^ 52) + 1 / 2 ^ 1074 ≤ r * (1 + 1 / 2 ^ 49) := by
    have e : r * (1 + 1 / 2 ^ 49) - (r * (1 + 1 / 2 ^ 50) * (1 + 1 / 2 ^ 52))
        = r * (1 + 1 / 2 ^ 49 - (1 + 1 / 2 ^ 50) * (1 + 1 / 2 ^ 52)) := by ring
    have c : (1 : ℚ) / 2 ^ 52 ≤ 1 + 1 / 2 ^ 49 - (1 + 1 / 2 ^ 50) * (1 + 1 / 2 ^ 52) := by
      norm_num
    have h3 := mul_le_mul_of_nonneg_left c hr.le
    have h4 : (1 : ℚ) / 2 ^ 1074 ≤ r * (1 / 2 ^ 52) := by
      calc (1 : ℚ) / 2 ^ 1074 ≤ 1 / 2 ^ 149 * (1 / 2 ^ 52) := by norm_num
        _ ≤ r * (1 / 2 ^ 52) := mul_le_mul_of_nonneg_right hr149 (by positivity)
    linarith
  linarith

/-- The `float` centre of the cell with index `n` lies in the cell, for a scale of at least
`2 ^ (-100)` and an index from 0 to `2 ^ 20 - 1`. -/
theorem CellCentre_bounds (g : AGAGridActor) (hs : 1 / 2 ^ 100 ≤ g.CellScale) (n : Int)
    (h0 : 0 ≤ n) (h1 : n ≤ 1048575) :
    (n : ℚ) * g.CellScale ≤ g.CellCentre n ∧ g.CellCentre n < ((n : ℚ) + 1) * g.CellScale := by
  have hspos : (0 : ℚ) < g.CellScale := lt_of_lt_of_le (by norm_num) hs
  have hn0 : (0 : ℚ) ≤ (n : ℚ) := by exact_mod_cast h0
  have hn1 : (n : ℚ) ≤ 1048575 := by exact_mod_cast h1
  -- the index converted to `float`
  have ha := toFloat_range (n : ℚ) (by
    rcases eq_or_lt_of_le h0 with h | h
    · left; rw [← h]; simp
    · right
      have : (1 : ℚ) ≤ (n : ℚ) := by exact_mod_cast h
      exact le_trans (by norm_num) this)
  -- the product
  have hy1 : (n : ℚ) * g.CellScale * (16777215 / 16777216) ≤ toFloat (n : ℚ) * g.CellScale := by
    have := mul_le_mul_of_nonneg_right ha.1 hspos.le
    linarith
  have hy2 : toFloat (n : ℚ) * g.CellScale ≤ (n : ℚ) * g.CellScale * (16777217 / 16777216) := by
    have := mul_le_mul_of_nonneg_right ha.2 hspos.le
    linarith
  have hz0 : 0 ≤ (n : ℚ) * g.CellScale := mul_nonneg hn0 hspos.le
  have hz1 : (n : ℚ) * g.CellScale ≤ 1048575 * g.CellScale :=
    mul_le_mul_of_nonneg_right hn1 hspos.le
  have hp := toFloat_range (toFloat (n : ℚ) * g.CellScale) (by
    rcases eq_or_lt_of_le h0 with h | h
    · left; rw [← h]; simp [toFloat_zero]
    · right
      have h1q : (1 : ℚ) ≤ (n : ℚ) := by exact_mod_cast h
      have h2 : (1 : ℚ) * g.CellScale ≤ (n : ℚ) * g.CellScale :=
        mul_le_mul_of_nonneg_right h1q hspos.le
      have h3 : (1 : ℚ) / 2 ^ 126 ≤ 1 / 2 ^ 100 * (16777215 / 16777216) := by norm_num
      have h4 : (1 : ℚ) / 2 ^ 100 * (16777215 / 16777216)
          ≤ g.CellScale * (16777215 / 16777216) :=
        mul_le_mul_of_nonneg_right hs (by norm_num)
      linarith)
  -- the half scale
  have hh := toFloat_range ((1 / 2) * g.CellScale) (by
    right
    have h3 : (1 : ℚ) / 2 ^ 126 ≤ 1 / 2 * (1 / 2 ^ 100) := by norm_num
    linarith)
  -- the sum
  have hq := toFloat_range (toFloat (toFloat (n : ℚ) * g.CellScale)
      + toFloat ((1 / 2) * g.CellScale)) (by
    right
    have h3 : (1 : ℚ) / 2 ^ 126 ≤ 1 / 2 * (1 / 2 ^ 100) * (16777215 / 16777216) := by norm_num
    have h4 : (1 : ℚ) / 2 * (1 / 2 ^ 100) * (16777215 / 16777216)
        ≤ 1 / 2 * g.CellScale * (16777215 / 16777216) := by
      have := mul_le_mul_of_nonneg_right hs (by norm_num : (0 : ℚ) ≤ 1 / 2 * (16777215 / 16777216))
      linarith
    have h5 : 0 ≤ toFloat (toFloat (n : ℚ) * g.CellScale) := by
      have : 0 ≤ toFloat (n : ℚ) * g.CellScale * (16777215 / 16777216) := by
        have : 0 ≤ (n : ℚ) * g.CellScale * (16777215 / 16777216) :=
          mul_nonneg hz0 (by norm_num)
        have h6 : (0 : ℚ) ≤ toFloat (n : ℚ) * g.CellScale := by linarith
        exact mul_nonneg h6 (by norm_num)
      linarith [hp.1]
    linarith [hh.1])
  unfold AGAGridActor.CellCentre
  simp only
  constructor
  · linarith [hp.1, hh.1, hq.1]
  · linarith [hp.2, hh.2, hq.2]

/-- The discretisation of a point that lies in the cell `c` of the grid is `c`. -/
theorem Discretize_of_bounds (g : AGAGridActor) (hs : 0 < g.CellScale) (c : FCellRef)
    (hx0 : 0 ≤ c.X) (hx1 : c.X < g.XCount) (hy0 : 0 ≤ c.Y) (hy1 : c.Y < g.YCount)
    (lx ly : ℚ)
    (hlx0 : (c.X : ℚ) * g.CellScale ≤ lx) (hlx1 : lx < ((c.X : ℚ) + 1) * g.CellScale)
    (hly0 : (c.Y : ℚ) * g.CellScale ≤ ly) (hly1 : ly < ((c.Y : ℚ) + 1) * g.CellScale) :
    g.Discretize lx ly = c := by
  have fx : ⌊lx / g.CellScale⌋ = c.X := by
    rw [Int.floor_eq_iff]
    constructor
    · rw [le_div_iff₀ hs]; exact hlx0
    · rw [div_lt_iff₀ hs]; exact hlx1
  have fy : ⌊ly / g.CellScale⌋ = c.Y := by
    rw [Int.floor_eq_iff]
    constructor
    · rw [le_div_iff₀ hs]; exact hly0
    · rw [div_lt_iff₀ hs]; exact hly1
  unfold AGAGridActor.Discretize Clamp
  rw [fx, fy]
  cases c with
  | mk cx cy =>
    simp only at hx0 hx1 hy0 hy1 ⊢
    congr 1
    · rw [min_eq_left (by omega), max_eq_left hx0]
    · rw [min_eq_left (by omega), max_eq_left hy0]

/-- C1 as amended: for every grid with at most `2 ^ 20` columns and rows and a cell scale
between `2 ^ (-100)` and `2 ^ 100` (placed by a transform whose inverse undoes it), and
every cell `c` with `0 ≤ c.X < XCount` and `0 ≤ c.Y < YCount`:
`GetCellRef (GetCellPosition c) true = c`, the centre of the cell being computed in
`float`. -/
theorem GetCellRef_GetCellPosition (g : AGAGridActor) (hs : 1 / 2 ^ 100 ≤ g.CellScale)
    (_hs1 : g.CellScale ≤ 2 ^ 100) (hX : g.XCount ≤ 1048576) (hY : g.YCount ≤ 1048576)
    (hT : ∀ p, g.InverseTransformPosition (g.TransformPosition p) = p)
    (c : FCellRef) (hx0 : 0 ≤ c.X) (hx1 : c.X < g.XCount) (hy0 : 0 ≤ c.Y) (hy1 : c.Y < g.YCount) :
    g.GetCellRef (g.GetCellPosition c) true = c := by
  have hspos : (0 : ℚ) < g.CellScale := lt_of_lt_of_le (by norm_num) hs
  obtain ⟨bx0, bx1⟩ := CellCentre_bounds g hs c.X hx0 (by omega)
  obtain ⟨by0, by1⟩ := CellCentre_bounds g hs c.Y hy0 (by omega)
  have hxq0 : (0 : ℚ) ≤ (c.X : ℚ) := by exact_mod_cast hx0
  have hyq0 : (0 : ℚ) ≤ (c.Y : ℚ) := by exact_mod_cast hy0
  have hxq1 : (c.X : ℚ) + 1 ≤ (g.XCount : ℚ) := by exact_mod_cast hx1
  have hyq1 : (c.Y : ℚ) + 1 ≤ (g.YCount : ℚ) := by exact_mod_cast hy1
  have hsx : ((c.X : ℚ) + 1) * g.CellScale ≤ (g.XCount : ℚ) * g.CellScale :=
    mul_le_mul_of_nonneg_right hxq1 hspos.le
  have hsy : ((c.Y : ℚ) + 1) * g.CellScale ≤ (g.YCount : ℚ) * g.CellScale :=
    mul_le_mul_of_nonneg_right hyq1 hspos.le
  have hcx : 0 ≤ (c.X : ℚ) * g.CellScale := mul_nonneg hxq0 hspos.le
  have hcy : 0 ≤ (c.Y : ℚ) * g.CellScale := mul_nonneg hyq0 hspos.le
  have kx : Clamp (g.CellCentre c.X - g.HalfExtentsX) (-g.HalfExtentsX) g.HalfExtentsX
      + g.HalfExtentsX = g.CellCentre c.X := by
    unfold Clamp AGAGridActor.HalfExtentsX
    rw [min_eq_left (by linarith), max_eq_left (by linarith)]
    ring
  have ky : Clamp (g.CellCentre c.Y - g.HalfExtentsY) (-g.HalfExtentsY) g.HalfExtentsY
      + g.HalfExtentsY = g.CellCentre c.Y := by
    unfold Clamp AGAGridActor.HalfExtentsY
    rw [min_eq_left (by linarith), max_eq_left (by linarith)]
    ring
  simp only [AGAGridActor.GetCellRef, AGAGridActor.GetCellPosition, hT, if_true]
  rw [kx, ky]
  exact Discretize_of_bounds g hspos c hx0 hx1 hy0 hy1 _ _ bx0 bx1 by0 by1

/-- C1 as amended, at a concrete input: a 5 x 5 grid of scale 100 and the cell (3, 2). -/
theorem GetCellRef_GetCellPosition_witness :
    (plainGrid 5 5 100 (List.replicate 25 1) false).GetCellRef
      ((plainGrid 5 5 100 (List.replicate 25 1) false).GetCellPosition ⟨3, 2⟩) true = ⟨3, 2⟩ :=
  GetCellRef_GetCellPosition (plainGrid 5 5 100 (List.replicate 25 1) false)
    (by decide!) (by decide!) (by decide) (by decide) (fun _ => rfl) ⟨3, 2⟩
    (by decide) (by decide) (by decide) (by decide)

/-- C1 refuted as stated: on the grid of 20000000 x 1 cells of scale 1 the cell
(16777215, 0) lies inside the grid, the `float` sum `16777215 * 1 + 0.5` of
`GetCellPosition` is rounded to 16777216, and `GetCellRef` of the position returns the
cell (16777216, 0). -/
theorem GetCellRef_GetCellPosition_large_grid :
    (0 : Int) ≤ 16777215 ∧ (16777215 : Int) < (longRow).XCount
      ∧ (0 : Int) < (longRow).YCount
      ∧ (longRow).CellCentre 16777215 = 16777216
      ∧ (longRow).GetCellRef
          ((longRow).GetCellPosition ⟨16777215, 0⟩) true
        = ⟨16777216, 0⟩ := by
  decide!

/-! ### The distance field at concrete inputs -/

/-- C2 at the failing input: on the fully traversable 3 x 3 grid with the start in the
centre cell (1, 1) and the whole grid as window, the run returns and stores distance 3
for cell (2, 1), which is a neighbour of the source cell (one step away). -/
theorem dijkstra_3x3_not_shortest :
    storedDistance ((openGrid 3 3 false).DistanceFieldFrom ⟨1, 1⟩) ⟨2, 1⟩ = some 3
      ∧ (⟨2, 1⟩ : FCellRef) ∈ FindNeighbors (some (openGrid 3 3 false)) ⟨1, 1⟩
      ∧ (openGrid 3 3 false).GetCellData ⟨1, 1⟩ = some CellDataTraversable
      ∧ (openGrid 3 3 false).GetCellData ⟨2, 1⟩ = some CellDataTraversable := by
  decide!

/-- C3 at the failing input: on the 5 x 1 grid whose cell (2, 0) is not traversable,
with the start in cell (0, 0) and the whole grid as window, the run returns and stores
the finite distances 2 for the non-traversable cell (2, 0) and 4 for cell (4, 0). -/
theorem dijkstra_blockedRow_finite :
    blockedRow.GetCellData ⟨2, 0⟩ = some 0
      ∧ EnumHasAllFlags 0 CellDataTraversable = false
      ∧ storedDistance (blockedRow.DistanceFieldFrom ⟨0, 0⟩) ⟨2, 0⟩ = some 2
      ∧ storedDistance (blockedRow.DistanceFieldFrom ⟨0, 0⟩) ⟨4, 0⟩ = some 4
      ∧ (4 : ℚ) ≠ FLT_MAX := by
  decide!

/-- C7 at the failing input: on the 3 x 1 grid with the window of cells (0, 0) and
(1, 0) and the start in cell (1, 0), which lies in the window, the run stops at a failed
check (the lookup `sptSet[Neighbor]` for the neighbour (2, 0), inside the grid and
outside the window): no distance is stored. With the whole grid as window the same start
gives a run that returns and stores 0 for the source cell. -/
theorem dijkstra_subwindow_checkFailed :
    (openGrid 3 1 false).GetCellRef ((openGrid 3 1 false).GetCellPosition ⟨1, 0⟩)
        (openGrid 3 1 false).DefaultClamp = ⟨1, 0⟩
      ∧ FGridBox.IsValidCell ⟨0, 1, 0, 0⟩ ⟨1, 0⟩ = true
      ∧ dijkstra ((openGrid 3 1 false).GetCellPosition ⟨1, 0⟩)
          (FGAGridMap.New ⟨0, 1, 0, 0⟩ FLT_MAX) [] (openGrid 3 1 false) = .checkFailed
      ∧ storedDistance ((openGrid 3 1 false).DistanceFieldFrom ⟨1, 0⟩) ⟨1, 0⟩ = some 0 := by
  decide!

/-- C8 at the failing input: on the 2 x 1 grid with the start in cell (0, 0), the entry
that `dijkstra` records for cell (1, 0) is the centre of cell (1, 0) itself: it
designates (1, 0), which is not among the neighbours of (1, 0), and whose stored
distance is 1, the same as that of (1, 0), rather than one less. -/
theorem dijkstra_2x1_CameFrom_self :
    ((openGrid 2 1 false).DistanceFieldFrom ⟨0, 0⟩).result?.map
        (fun out => TMap.Find out.2 ⟨1, 0⟩) = some (some ((openGrid 2 1 false).GetCellPosition ⟨1, 0⟩))
      ∧ (openGrid 2 1 false).GetCellRef ((openGrid 2 1 false).GetCellPosition ⟨1, 0⟩) false = ⟨1, 0⟩
      ∧ (⟨1, 0⟩ : FCellRef) ∉ FindNeighbors (some (openGrid 2 1 false)) ⟨1, 0⟩
      ∧ storedDistance ((openGrid 2 1 false).DistanceFieldFrom ⟨0, 0⟩) ⟨1, 0⟩ = some 1 := by
  decide!

/-! ### The distance maps do not depend on placement, scale or `CameFrom` -/

/-- The relaxation loop changes `dist` and `sptSet` the same way on two grids and two
states that agree on `dist` and `sptSet`. -/
theorem relax_Maps (g g' : AGAGridActor) (u : FCellRef) :
    ∀ (ns : List FCellRef) (s s' : DijkstraState), s.Maps = s'.Maps →
      (relax g u ns s).map DijkstraState.Maps = (relax g' u ns s').map DijkstraState.Maps := by
  intro ns
  induction ns with
  | nil =>
    intro s s' h
    simp [relax, Run.map, h]
  | cons n ns ih =>
    intro s s' h
    have hd : s.dist = s'.dist := congrArg Prod.fst h
    have hs : s.sptSet = s'.sptSet := congrArg Prod.snd h
    simp only [relax]
    rw [← hd, ← hs]
    cases TMap.Find s.sptSet n with
    | none => rfl
    | some b =>
      cases b with
      | true => exact ih s s' h
      | false =>
        simp only
        cases TMap.Find s.dist u with
        | none => rfl
        | some du =>
          simp only
          by_cases hdu : du = FLT_MAX
          · simp only [hdu, ne_eq, not_true_eq_false, if_false]
            exact ih s s' h
          · simp only [hdu, ne_eq, not_false_eq_true, if_true]
            cases TMap.Find s.dist n with
            | none => rfl
            | some _ =>
              simp only
              apply ih
              simp [DijkstraState.Maps, hd, hs]

/-- `FindNeighbors` reads only the two counts of the grid. -/
theorem FindNeighbors_counts (g g' : AGAGridActor) (hX : g.XCount = g'.XCount)
    (hY : g.YCount = g'.YCount) (u : FCellRef) :
    FindNeighbors (some g) u = FindNeighbors (some g') u := by
  simp [FindNeighbors, IsCellValid, hX, hY]

/-- One pass of the main loop changes `dist` and `sptSet` the same way on two grids with
the same counts and two states that agree on `dist` and `sptSet`. -/
theorem dijkstraStep_Maps (g g' : AGAGridActor) (hX : g.XCount = g'.XCount)
    (hY : g.YCount = g'.YCount) (s s' : DijkstraState) (h : s.Maps = s'.Maps) :
    (dijkstraStep g s).map DijkstraState.Maps = (dijkstraStep g' s').map DijkstraState.Maps := by
  have hd : s.dist = s'.dist := congrArg Prod.fst h
  have hs : s.sptSet = s'.sptSet := congrArg Prod.snd h
  simp only [dijkstraStep]
  rw [← hd, ← hs]
  cases pickMin s.sptSet s.dist (FLT_MAX, FCellRef.Default) with
  | checkFailed => rfl
  | outOfFuel => rfl
  | done p =>
    cases p with
    | mk md u =>
      simp only
      cases TMap.Find s.sptSet u with
      | none => rfl
      | some _ =>
        simp only
        rw [FindNeighbors_counts g g' hX hY u]
        apply relax_Maps
        simp [DijkstraState.Maps, hd]

/-- The main loop changes `dist` and `sptSet` the same way on two grids with the same
counts and two states that agree on `dist` and `sptSet`. -/
theorem dijkstraLoop_Maps (g g' : AGAGridActor) (hX : g.XCount = g'.XCount)
    (hY : g.YCount = g'.YCount) :
    ∀ (count : Nat) (s s' : DijkstraState), s.Maps = s'.Maps →
      (dijkstraLoop g count s).map DijkstraState.Maps
        = (dijkstraLoop g' count s').map DijkstraState.Maps := by
  intro count
  induction count with
  | zero =>
    intro s s' h
    simp [dijkstraLoop, Run.map, h]
  | succ n ih =>
    intro s s' h
    have hstep := dijkstraStep_Maps g g' hX hY s s' h
    simp only [dijkstraLoop]
    cases h1 : dijkstraStep g s with
    | checkFailed =>
      cases h2 : dijkstraStep g' s' with
      | checkFailed => rfl
      | outOfFuel => rw [h1, h2] at hstep; simp [Run.map] at hstep
      | done b => rw [h1, h2] at hstep; simp [Run.map] at hstep
    | outOfFuel =>
      cases h2 : dijkstraStep g' s' with
      | checkFailed => rw [h1, h2] at hstep; simp [Run.map] at hstep
      | outOfFuel => rfl
      | done b => rw [h1, h2] at hstep; simp [Run.map] at hstep
    | done a =>
      cases h2 : dijkstraStep g' s' with
      | checkFailed => rw [h1, h2] at hstep; simp [Run.map] at hstep
      | outOfFuel => rw [h1, h2] at hstep; simp [Run.map] at hstep
      | done b =>
        rw [h1, h2] at hstep
        simp only [Run.map, Run.done.injEq] at hstep
        exact ih a b hstep

/-- The distance map that `dijkstra` leaves is the same on two grids with the same
counts, for two start points in the same source cell, whatever `CameFrom` held. -/
theorem dijkstra_distanceMap_congr (g g' : AGAGridActor) (hX : g.XCount = g'.XCount)
    (hY : g.YCount = g'.YCount) (StartPoint StartPoint' : FVector)
    (hsrc : g.GetCellRef StartPoint g.DefaultClamp = g'.GetCellRef StartPoint' g'.DefaultClamp)
    (DistanceMap : FGAGridMap) (CameFrom CameFrom' : TMap FCellRef FVector) :
    (dijkstra StartPoint DistanceMap CameFrom g).map Prod.fst
      = (dijkstra StartPoint' DistanceMap CameFrom' g').map Prod.fst := by
  have hloop := dijkstraLoop_Maps g g' hX hY (dijkstraPasses DistanceMap.GridBounds)
    (dijkstraInit StartPoint DistanceMap.GridBounds CameFrom g)
    (dijkstraInit StartPoint' DistanceMap.GridBounds CameFrom' g')
    (by simp [DijkstraState.Maps, dijkstraInit, hsrc])
  simp only [dijkstra]
  cases h1 : dijkstraLoop g (dijkstraPasses DistanceMap.GridBounds)
      (dijkstraInit StartPoint DistanceMap.GridBounds CameFrom g) with
  | checkFailed =>
    cases h2 : dijkstraLoop g' (dijkstraPasses DistanceMap.GridBounds)
        (dijkstraInit StartPoint' DistanceMap.GridBounds CameFrom' g') with
    | checkFailed => rfl
    | outOfFuel => rw [h1, h2] at hloop; simp [Run.map] at hloop
    | done b => rw [h1, h2] at hloop; simp [Run.map] at hloop
  | outOfFuel =>
    cases h2 : dijkstraLoop g' (dijkstraPasses DistanceMap.GridBounds)
        (dijkstraInit StartPoint' DistanceMap.GridBounds CameFrom' g') with
    | checkFailed => rw [h1, h2] at hloop; simp [Run.map] at hloop
    | outOfFuel => rfl
    | done b => rw [h1, h2] at hloop; simp [Run.map] at hloop
  | done a =>
    cases h2 : dijkstraLoop g' (dijkstraPasses DistanceMap.GridBounds)
        (dijkstraInit StartPoint' DistanceMap.GridBounds CameFrom' g') with
    | checkFailed => rw [h1, h2] at hloop; simp [Run.map] at hloop
    | outOfFuel => rw [h1, h2] at hloop; simp [Run.map] at hloop
    | done b =>
      rw [h1, h2] at hloop
      simp only [Run.map, Run.done.injEq, DijkstraState.Maps, Prod.mk.injEq] at hloop
      simp only [Run.map, hloop.1]

/-! ### What `dijkstra` records in `CameFrom` -/

/-- A pair found by `TMap.Find` is a member of the map. -/
theorem TMap.mem_of_Find {K V : Type} [DecidableEq K] :
    ∀ (m : TMap K V) (k : K) (v : V), TMap.Find m k = some v → (k, v) ∈ m := by
  intro m
  induction m with
  | nil => intro k v h; simp [TMap.Find] at h
  | cons p m ih =>
    intro k v h
    obtain ⟨k', v'⟩ := p
    by_cases hk : k' = k
    · simp [TMap.Find, hk] at h
      simp [hk, h]
    · simp [TMap.Find, hk] at h
      exact List.mem_cons_of_mem _ (ih k v h)

/-- A member of `TMap.Add m k v` is the added pair or a member of `m`. -/
theorem TMap.mem_Add {K V : Type} [DecidableEq K] :
    ∀ (m : TMap K V) (k : K) (v : V) (p : K × V), p ∈ TMap.Add m k v → p = (k, v) ∨ p ∈ m := by
  intro m
  induction m with
  | nil => intro k v p h; simp [TMap.Add] at h; exact Or.inl h
  | cons q m ih =>
    intro k v p h
    obtain ⟨k', v'⟩ := q
    by_cases hk : k' = k
    · simp [TMap.Add, hk] at h
      rcases h with h | h
      · exact Or.inl h
      · exact Or.inr (List.mem_cons_of_mem _ h)
    · simp [TMap.Add, hk] at h
      rcases h with h | h
      · exact Or.inr (by simp [h])
      · rcases ih k v p h with h' | h'
        · exact Or.inl h'
        · exact Or.inr (List.mem_cons_of_mem _ h')

/-- The relaxation loop only adds entries that pair a cell with its own centre. -/
theorem relax_CameFromSelf (g : AGAGridActor) (u : FCellRef) :
    ∀ (ns : List FCellRef) (s s' : DijkstraState), relax g u ns s = .done s' →
      CameFromSelf g s.CameFrom → CameFromSelf g s'.CameFrom := by
  intro ns
  induction ns with
  | nil =>
    intro s s' h hs
    simp only [relax, Run.done.injEq] at h
    rw [← h]
    exact hs
  | cons n ns ih =>
    intro s s' h hs
    simp only [relax] at h
    cases h1 : TMap.Find s.sptSet n with
    | none => rw [h1] at h; simp at h
    | some b =>
      rw [h1] at h
      cases b with
      | true => exact ih s s' h hs
      | false =>
        simp only at h
        cases h2 : TMap.Find s.dist u with
        | none => rw [h2] at h; simp at h
        | some du =>
          rw [h2] at h
          simp only at h
          by_cases hdu : du = FLT_MAX
          · simp only [hdu, ne_eq, not_true_eq_false, if_false] at h
            exact ih s s' h hs
          · simp only [hdu, ne_eq, not_false_eq_true, if_true] at h
            cases h3 : TMap.Find s.dist n with
            | none => rw [h3] at h; simp at h
            | some d =>
              rw [h3] at h
              simp only at h
              refine ih _ s' h ?_
              intro p hp
              rcases TMap.mem_Add s.CameFrom n (g.GetCellPosition n) p hp with hp' | hp'
              · rw [hp']
              · exact hs p hp'

/-- The main loop only adds entries that pair a cell with its own centre. -/
theorem dijkstraLoop_CameFromSelf (g : AGAGridActor) :
    ∀ (count : Nat) (s s' : DijkstraState), dijkstraLoop g count s = .done s' →
      CameFromSelf g s.CameFrom → CameFromSelf g s'.CameFrom := by
  intro count
  induction count with
  | zero =>
    intro s s' h hs
    simp only [dijkstraLoop, Run.done.injEq] at h
    rw [← h]
    exact hs
  | succ n ih =>
    intro s s' h hs
    simp only [dijkstraLoop] at h
    cases h1 : dijkstraStep g s with
    | checkFailed => rw [h1] at h; simp at h
    | outOfFuel => rw [h1] at h; simp at h
    | done t =>
      rw [h1] at h
      simp only at h
      refine ih t s' h ?_
      simp only [dijkstraStep] at h1
      cases h2 : pickMin s.sptSet s.dist (FLT_MAX, FCellRef.Default) with
      | checkFailed => rw [h2] at h1; simp at h1
      | outOfFuel => rw [h2] at h1; simp at h1
      | done p =>
        rw [h2] at h1
        obtain ⟨md, v⟩ := p
        simp only at h1
        cases h3 : TMap.Find s.sptSet v with
        | none => rw [h3] at h1; simp at h1
        | some b =>
          rw [h3] at h1
          simp only at h1
          exact relax_CameFromSelf g v _ _ t h1 hs

/-- For every grid, window and start point: when `dijkstra` is handed an empty `CameFrom`
and returns, every entry it recorded maps a cell to the centre of that same cell (not to
the cell it was reached from). -/
theorem dijkstra_CameFrom_self (g : AGAGridActor) (StartPoint : FVector)
    (DistanceMap : FGAGridMap) (out : FGAGridMap × TMap FCellRef FVector)
    (h : dijkstra StartPoint DistanceMap [] g = .done out) (c : FCellRef) (v : FVector)
    (hv : TMap.Find out.2 c = some v) : v = g.GetCellPosition c := by
  simp only [dijkstra] at h
  cases h1 : dijkstraLoop g (dijkstraPasses DistanceMap.GridBounds)
      (dijkstraInit StartPoint DistanceMap.GridBounds [] g) with
  | checkFailed => rw [h1] at h; simp at h
  | outOfFuel => rw [h1] at h; simp at h
  | done s =>
    rw [h1] at h
    simp only [Run.done.injEq] at h
    have hself := dijkstraLoop_CameFromSelf g _ _ s h1
      (by intro p hp; simp [dijkstraInit] at hp)
    rw [← h] at hv
    exact hself (c, v) (TMap.mem_of_Find _ c v hv)

/-- Mapping twice is mapping the composition. -/
theorem Run.map_map {α β γ : Type} (f : α → β) (h : β → γ) (r : Run α) :
    (r.map f).map h = r.map (fun a => h (f a)) := by
  cases r <;> rfl

/-- C4: on every 5 x 5 grid (whatever its scale, placement and traversability data, so in
particular on a fully traversable one), with the window equal to the whole grid and any
start point whose cell is (0, 0), `dijkstra` returns and the distance map it leaves holds
exactly 4 for cell (4, 4). -/
theorem dijkstra_5x5_corner_distance (g : AGAGridActor) (hX : g.XCount = 5) (hY : g.YCount = 5)
    (StartPoint : FVector) (hsrc : g.GetCellRef StartPoint g.DefaultClamp = ⟨0, 0⟩)
    (CameFrom : TMap FCellRef FVector) :
    (dijkstra StartPoint g.FreshDistanceMap CameFrom g).map
      (fun out => out.1.GetValue ⟨4, 4⟩) = .done (true, 4) := by
  have hmap : g.FreshDistanceMap = (openGrid 5 5 false).FreshDistanceMap := by
    simp [AGAGridActor.FreshDistanceMap, AGAGridActor.WholeBox, hX, hY, openGrid, plainGrid]
  have hsrc' : g.GetCellRef StartPoint g.DefaultClamp
      = (openGrid 5 5 false).GetCellRef ((openGrid 5 5 false).GetCellPosition ⟨0, 0⟩)
          (openGrid 5 5 false).DefaultClamp := by
    rw [hsrc]
    decide!
  have hcongr := dijkstra_distanceMap_congr g (openGrid 5 5 false)
    (by rw [hX]; rfl) (by rw [hY]; rfl) StartPoint
    ((openGrid 5 5 false).GetCellPosition ⟨0, 0⟩) hsrc' g.FreshDistanceMap CameFrom []
  have hsplit : (dijkstra StartPoint g.FreshDistanceMap CameFrom g).map
      (fun out => out.1.GetValue ⟨4, 4⟩)
      = ((dijkstra StartPoint g.FreshDistanceMap CameFrom g).map Prod.fst).map
          (fun m => m.GetValue ⟨4, 4⟩) := by
    rw [Run.map_map]
  rw [hsplit, hcongr, hmap]
  decide!

/-- C4 at a concrete input: the fully traversable 5 x 5 grid of scale 100, start at the
centre of cell (0, 0). -/
theorem dijkstra_5x5_corner_distance_witness :
    (dijkstra ((openGrid 5 5 false).GetCellPosition ⟨0, 0⟩)
        (openGrid 5 5 false).FreshDistanceMap [] (openGrid 5 5 false)).map
      (fun out => out.1.GetValue ⟨4, 4⟩) = .done (true, 4) :=
  dijkstra_5x5_corner_distance (openGrid 5 5 false) rfl rfl
    ((openGrid 5 5 false).GetCellPosition ⟨0, 0⟩) (by decide!) []

/-! ### Path reconstruction at concrete inputs -/

/-- `CameFromToPath` of GAPathComponent.cpp, for any `CameFrom`: when the goal differs from
the start and lies inside the grid, the result is the one-element path `[goal]`. -/
theorem PathComponent_CameFromToPath_goal_inside (fuel : Nat)
    (CameFrom : TMap FCellRef FVector) (start goal : FVector) (g : AGAGridActor)
    (hne : goal ≠ start) (hin : (g.GetCellRef goal false).IsValid = true) :
    PathComponent.CameFromToPath (fuel + 1) CameFrom start goal g = .done [goal] := by
  simp [PathComponent.CameFromToPath, PathComponent.CameFromToPathLoop, hne, hin]

/-- `CameFromToPath` of GASpatialComponent.cpp, for any `CameFrom`: when the goal differs
from the start and lies inside the grid, the result is the one-element path `[goal]`. -/
theorem SpatialComponent_CameFromToPath_goal_inside (fuel : Nat)
    (CameFrom : TMap FCellRef FVector) (start goal : FVector) (g : AGAGridActor)
    (hne : goal ≠ start) (hin : (g.GetCellRef goal false).IsValid = true) :
    SpatialComponent.CameFromToPath (fuel + 1) CameFrom start goal g = .done [goal] := by
  simp [SpatialComponent.CameFromToPath, SpatialComponent.CameFromToPathLoop, hne, hin]

/-- Both versions of `CameFromToPath`, for any `CameFrom`: when the goal is the start
point itself, the result is the one-element path `[start]`. -/
theorem CameFromToPath_goal_eq_start (fuel : Nat) (CameFrom : TMap FCellRef FVector)
    (start : FVector) (g : AGAGridActor) :
    PathComponent.CameFromToPath fuel CameFrom start start g = .done [start]
      ∧ SpatialComponent.CameFromToPath fuel CameFrom start start g = .done [start] := by
  cases fuel <;>
    simp [PathComponent.CameFromToPath, PathComponent.CameFromToPathLoop,
      SpatialComponent.CameFromToPath, SpatialComponent.CameFromToPathLoop]

/-- C5 at the failing input: on the fully traversable 5 x 5 grid, start at the centre of
cell (0, 0), goal at the centre of cell (4, 4), the distance field holds 4 for the goal's
cell, and `CameFromToPath` of GAPathComponent.cpp, run on the `CameFrom` that `dijkstra`
built, returns the single waypoint `goal`: 1 waypoint, not 5, and none in the start's
cell. -/
theorem CameFromToPath_5x5_single_waypoint :
    ((openGrid 5 5 false).DistanceFieldFrom ⟨0, 0⟩).map
        (fun out => ((out.1.GetValue ⟨4, 4⟩).2,
          PathComponent.CameFromToPath 25 out.2 ((openGrid 5 5 false).GetCellPosition ⟨0, 0⟩)
            ((openGrid 5 5 false).GetCellPosition ⟨4, 4⟩) (openGrid 5 5 false)))
      = .done (4, .done [(openGrid 5 5 false).GetCellPosition ⟨4, 4⟩]) := by
  decide!

/-- C6 at the failing input: on the 5 x 1 grid whose cell (2, 0) is not traversable, with
an empty predecessor map (so the goal's cell has no predecessor chain at all), start at
the centre of cell (0, 0) and goal at the centre of cell (4, 0), both versions of
`CameFromToPath` return the one-element path `[goal]`, not an empty path. -/
theorem CameFromToPath_unreachable_nonempty :
    PathComponent.CameFromToPath 5 [] (blockedRow.GetCellPosition ⟨0, 0⟩)
        (blockedRow.GetCellPosition ⟨4, 0⟩) blockedRow
        = .done [blockedRow.GetCellPosition ⟨4, 0⟩]
      ∧ SpatialComponent.CameFromToPath 5 [] (blockedRow.GetCellPosition ⟨0, 0⟩)
        (blockedRow.GetCellPosition ⟨4, 0⟩) blockedRow
        = .done [blockedRow.GetCellPosition ⟨4, 0⟩] := by
  decide!

/-! ### `UGAPathComponent::Dijkstra` -/

/-- C9 at the failing input: the start point (1000, 0, 0) lies outside the 5 x 5 grid
(unclamped it discretizes to Invalid), and `UGAPathComponent::Dijkstra` does not return
false. When the default of `bClamp` does not clamp, the source cell is Invalid, which
`dijkstra` adds to `dist` and not to `sptSet`, and the run stops at the failed check
`sptSet[Pair.Key]` of the first pass. When the default clamps, the start is taken for the
border cell (4, 2) and the call returns true, with distance 0 stored for that cell. -/
theorem Dijkstra_outside_start_never_false :
    (openGrid 5 5 false).GetCellRef ⟨1000, 0, 0⟩ false = FCellRef.Invalid
      ∧ UGAPathComponent.Dijkstra (some (openGrid 5 5 false)) ⟨1000, 0, 0⟩
          (openGrid 5 5 false).FreshDistanceMap [] = .checkFailed
      ∧ (openGrid 5 5 true).GetCellRef ⟨1000, 0, 0⟩ false = FCellRef.Invalid
      ∧ (openGrid 5 5 true).GetCellRef ⟨1000, 0, 0⟩ true = ⟨4, 2⟩
      ∧ (UGAPathComponent.Dijkstra (some (openGrid 5 5 true)) ⟨1000, 0, 0⟩
          (openGrid 5 5 true).FreshDistanceMap []).map Prod.fst = .done true
      ∧ (UGAPathComponent.Dijkstra (some (openGrid 5 5 true)) ⟨1000, 0, 0⟩
          (openGrid 5 5 true).FreshDistanceMap []).map (fun out => out.2.1.GetValue ⟨4, 2⟩)
        = .done (true, 0) := by
  decide!

/-- The only test in `UGAPathComponent::Dijkstra` is the one for a missing grid actor:
without a grid it returns false and leaves both maps as they were; with a grid it does
what `dijkstra` does and reports true, so every call that returns, returns true. -/
theorem Dijkstra_false_only_without_grid (StartPoint : FVector) (DistanceMapOut : FGAGridMap)
    (CameFrom : TMap FCellRef FVector) :
    UGAPathComponent.Dijkstra none StartPoint DistanceMapOut CameFrom
        = .done (false, DistanceMapOut, CameFrom)
      ∧ (∀ g : AGAGridActor,
          UGAPathComponent.Dijkstra (some g) StartPoint DistanceMapOut CameFrom
            = (dijkstra StartPoint DistanceMapOut CameFrom g).map
                (fun out => (true, out.1, out.2)))
      ∧ ∀ (g : AGAGridActor) (out : Bool × FGAGridMap × TMap FCellRef FVector),
          UGAPathComponent.Dijkstra (some g) StartPoint DistanceMapOut CameFrom = .done out →
            out.1 = true := by
  have heq : ∀ g : AGAGridActor,
      UGAPathComponent.Dijkstra (some g) StartPoint DistanceMapOut CameFrom
        = (dijkstra StartPoint DistanceMapOut CameFrom g).map
            (fun out => (true, out.1, out.2)) := by
    intro g
    simp only [UGAPathComponent.Dijkstra]
    cases dijkstra StartPoint DistanceMapOut CameFrom g with
    | checkFailed => rfl
    | outOfFuel => rfl
    | done r => cases r; rfl
  refine ⟨rfl, heq, ?_⟩
  intro g out h
  rw [heq g] at h
  cases hd : dijkstra StartPoint DistanceMapOut CameFrom g with
  | checkFailed => rw [hd] at h; simp [Run.map] at h
  | outOfFuel => rw [hd] at h; simp [Run.map] at h
  | done r =>
    rw [hd] at h
    simp only [Run.map, Run.done.injEq] at h
    rw [← h]

/-! ### The evaluator at a concrete input -/

/-- C10 at the failing input: on the fully traversable 2 x 2 grid, window the whole grid
(cells 0..1 on both axes), target at the centre of cell (0, 0), single layer
[TargetRange, identity, Replace], starting from an unassigned best cell: `EvaluateLayer`
returns and leaves (0, 0) as best cell, whose squared distance to the target is 0, while
the traversable cell (1, 1) of the window has squared distance 20000; the only cell that
received a value is (0, 0). -/
theorem EvaluateLayer_2x2_skips_last_row_and_column :
    (UGASpatialComponent.EvaluateLayer (openGrid 2 2 false)
        ⟨(openGrid 2 2 false).GetCellPosition ⟨0, 0⟩, fun _ _ => false⟩ targetRangeLayer
        (FGAGridMap.New (openGrid 2 2 false).WholeBox 0) (openGrid 2 2 false).FreshDistanceMap
        FCellRef.Default).map (fun out => (out.2, out.1.Values))
        = .done (⟨0, 0⟩, [(⟨0, 0⟩, 0)])
      ∧ (openGrid 2 2 false).GetCellData ⟨1, 1⟩ = some CellDataTraversable
      ∧ (openGrid 2 2 false).WholeBox.IsValidCell ⟨1, 1⟩ = true
      ∧ FVector.DistSquared ((openGrid 2 2 false).GetCellPosition ⟨1, 1⟩)
          ((openGrid 2 2 false).GetCellPosition ⟨0, 0⟩) = 20000
      ∧ FVector.DistSquared ((openGrid 2 2 false).GetCellPosition ⟨0, 0⟩)
          ((openGrid 2 2 false).GetCellPosition ⟨0, 0⟩) = 0 := by
  decide!

/-! ### The operators of the evaluator -/

/-- After `TMap.Add m k v` the key `k` holds `v`. -/
theorem TMap.Find_Add_self {K V : Type} [DecidableEq K] :
    ∀ (m : TMap K V) (k : K) (v : V), TMap.Find (TMap.Add m k v) k = some v := by
  intro m
  induction m with
  | nil => intro k v; simp [TMap.Add, TMap.Find]
  | cons p m ih =>
    intro k v
    obtain ⟨k', v'⟩ := p
    by_cases hk : k' = k
    · simp [TMap.Add, TMap.Find, hk]
    · simp [TMap.Add, TMap.Find, hk, ih]

/-- C14: for a layer with `Op = SO_None` (the operator the spec calls Replace), every grid
map and every cell whose data has the traversable flag, the body of `EvaluateLayer`
returns and the value the grid map then holds for the cell is the layer's curve applied
to the raw input, whatever the map held for the cell before. -/
theorem evaluateCell_Replace (Layer : FFunctionLayer) (hOp : Layer.Op = .SO_None)
    (Grid : AGAGridActor) (World : FWorld) (DistanceMap : FGAGridMap) (CellRef : FCellRef)
    (s : EvalState) (CellData : Nat) (hData : Grid.GetCellData CellRef = some CellData)
    (hTrav : EnumHasAllFlags CellData CellDataTraversable = true) :
    ∃ s', evaluateCell Layer Grid World DistanceMap CellRef s = .done s'
      ∧ TMap.Find s'.GridMap.Values CellRef
          = some (Layer.ResponseCurve (layerInput Layer Grid World DistanceMap CellRef))
      ∧ (s'.GridMap.GetValue CellRef).2
          = Layer.ResponseCurve (layerInput Layer Grid World DistanceMap CellRef) := by
  have hfind : TMap.Find (layerCombine Layer s.GridMap CellRef
      (Layer.ResponseCurve (layerInput Layer Grid World DistanceMap CellRef))).Values CellRef
      = some (Layer.ResponseCurve (layerInput Layer Grid World DistanceMap CellRef)) := by
    simp [layerCombine, hOp, FGAGridMap.SetValue, TMap.Find_Add_self]
  simp only [evaluateCell, hData, hTrav, if_true]
  split
  · exact ⟨_, rfl, hfind, by simp [FGAGridMap.GetValue, hfind]⟩
  · exact ⟨_, rfl, hfind, by simp [FGAGridMap.GetValue, hfind]⟩

/-- C14 at a concrete input: the fully traversable 2 x 2 grid, the layer
[TargetRange, identity, Replace], the cell (1, 1), which held 5 before. -/
theorem evaluateCell_Replace_witness :
    ∃ s', evaluateCell targetRangeLayer (openGrid 2 2 false)
        (openWorld ((openGrid 2 2 false).GetCellPosition ⟨0, 0⟩))
        (openGrid 2 2 false).FreshDistanceMap ⟨1, 1⟩
        ⟨(FGAGridMap.New (openGrid 2 2 false).WholeBox 0).SetValue ⟨1, 1⟩ 5, -FLT_MAX,
          FCellRef.Default⟩ = .done s'
      ∧ TMap.Find s'.GridMap.Values ⟨1, 1⟩
          = some (targetRangeLayer.ResponseCurve (layerInput targetRangeLayer (openGrid 2 2 false)
              (openWorld ((openGrid 2 2 false).GetCellPosition ⟨0, 0⟩))
              (openGrid 2 2 false).FreshDistanceMap ⟨1, 1⟩))
      ∧ (s'.GridMap.GetValue ⟨1, 1⟩).2
          = targetRangeLayer.ResponseCurve (layerInput targetRangeLayer (openGrid 2 2 false)
              (openWorld ((openGrid 2 2 false).GetCellPosition ⟨0, 0⟩))
              (openGrid 2 2 false).FreshDistanceMap ⟨1, 1⟩) :=
  evaluateCell_Replace targetRangeLayer rfl (openGrid 2 2 false)
    (openWorld ((openGrid 2 2 false).GetCellPosition ⟨0, 0⟩))
    (openGrid 2 2 false).FreshDistanceMap ⟨1, 1⟩ _ 1 (by decide) (by decide)

/-- With `Input = SI_PathDistance` the raw value of a cell is 1 or 0 (the Boolean that
`GetValue` returns), for every distance map. -/
theorem layerInput_PathDistance_zero_or_one (Layer : FFunctionLayer)
    (hIn : Layer.Input = .SI_PathDistance) (Grid : AGAGridActor) (World : FWorld)
    (DistanceMap : FGAGridMap) (CellRef : FCellRef) :
    layerInput Layer Grid World DistanceMap CellRef = 1
      ∨ layerInput Layer Grid World DistanceMap CellRef = 0 := by
  simp only [layerInput, hIn, boolToFloat]
  split
  · exact Or.inl rfl
  · exact Or.inr rfl

/-- C12 at the failing input: on the fully traversable 5 x 5 grid with the distance field
computed from cell (0, 0), the field holds 4 for the traversable cell (4, 4) of the
window, and the raw value of a layer with `Input = SI_PathDistance` for that cell is 1. -/
theorem layerInput_PathDistance_5x5 :
    ((openGrid 5 5 false).DistanceFieldFrom ⟨0, 0⟩).map
        (fun out => ((out.1.GetValue ⟨4, 4⟩).2,
          layerInput ⟨.SI_PathDistance, .SO_None, fun v => v⟩ (openGrid 5 5 false)
            (openWorld ⟨0, 0, 0⟩) out.1 ⟨4, 4⟩))
        = .done (4, 1)
      ∧ (openGrid 5 5 false).GetCellData ⟨4, 4⟩ = some CellDataTraversable := by
  decide!

/-- C13 at the failing input: on the fully traversable 2 x 2 grid, with a grid map over
the whole grid (default 0) in which cell (0, 0) was set to 5, a layer whose curve yields
the score 2 writes 3 for (0, 0) with `Op = SO_Add` (not 5 + 2) and 2 with
`Op = SO_Multiply` (not 5 * 2); for the never-set cell (1, 0) `SO_Add` writes 3 (not
0 + 2). -/
theorem evaluateCell_Add_Multiply_2x2 :
    (evaluateCell ⟨.SI_None, .SO_Add, fun _ => 2⟩ (openGrid 2 2 false) (openWorld ⟨0, 0, 0⟩)
        (openGrid 2 2 false).FreshDistanceMap ⟨0, 0⟩
        ⟨(FGAGridMap.New (openGrid 2 2 false).WholeBox 0).SetValue ⟨0, 0⟩ 5, -FLT_MAX,
          FCellRef.Default⟩).map (fun s => s.GridMap.GetValue ⟨0, 0⟩) = .done (true, 3)
      ∧ (evaluateCell ⟨.SI_None, .SO_Multiply, fun _ => 2⟩ (openGrid 2 2 false)
        (openWorld ⟨0, 0, 0⟩) (openGrid 2 2 false).FreshDistanceMap ⟨0, 0⟩
        ⟨(FGAGridMap.New (openGrid 2 2 false).WholeBox 0).SetValue ⟨0, 0⟩ 5, -FLT_MAX,
          FCellRef.Default⟩).map (fun s => s.GridMap.GetValue ⟨0, 0⟩) = .done (true, 2)
      ∧ (evaluateCell ⟨.SI_None, .SO_Add, fun _ => 2⟩ (openGrid 2 2 false) (openWorld ⟨0, 0, 0⟩)
        (openGrid 2 2 false).FreshDistanceMap ⟨1, 0⟩
        ⟨(FGAGridMap.New (openGrid 2 2 false).WholeBox 0).SetValue ⟨0, 0⟩ 5, -FLT_MAX,
          FCellRef.Default⟩).map (fun s => s.GridMap.GetValue ⟨1, 0⟩) = .done (true, 3)
      ∧ ((FGAGridMap.New (openGrid 2 2 false).WholeBox 0).SetValue ⟨0, 0⟩ 5).GetValue ⟨0, 0⟩
          = (true, 5)
      ∧ ((FGAGridMap.New (openGrid 2 2 false).WholeBox 0).SetValue ⟨0, 0⟩ 5).GetValue ⟨1, 0⟩
          = (true, 0) := by
  decide!

/-! ### The path follower -/

/-- A point at an exact distance of at most `r` passes the test of `RefreshPath`, for a
non-negative `float` value `r`: neither the rounding of the operations to `double` nor the
narrowing to `float` pushes such a distance above `r`. -/
theorem FVector.DistLE_of_exact (a b : FVector) (r : ℚ) (hr0 : 0 ≤ r) (hfl : toFloat r = r)
    (h : FVector.DistSquared a b ≤ r * r) : FVector.DistLE a b r = true := by
  unfold FVector.DistLE
  rw [decide_eq_true_eq]
  rcases eq_or_lt_of_le hr0 with h0 | hpos
  · -- `r = 0`: the two points coincide
    rw [← h0] at h ⊢
    unfold FVector.DistSquared at h
    have hx0 : 0 ≤ (b.X - a.X) * (b.X - a.X) := mul_self_nonneg _
    have hy0 : 0 ≤ (b.Y - a.Y) * (b.Y - a.Y) := mul_self_nonneg _
    have hz0 : 0 ≤ (b.Z - a.Z) * (b.Z - a.Z) := mul_self_nonneg _
    have ex : b.X - a.X = 0 := mul_self_eq_zero.mp (by linarith)
    have ey : b.Y - a.Y = 0 := mul_self_eq_zero.mp (by linarith)
    have ez : b.Z - a.Z = 0 := mul_self_eq_zero.mp (by linarith)
    have hD : FVector.Dist a b = 0 := by
      unfold FVector.Dist
      rw [ex, ey, ez]
      simp [toDouble, squareDouble, sqrtToDouble]
    rw [hD, toFloat_zero]
  · have hD := FVector.Dist_le a b r hpos hfl h
    obtain ⟨hu, _⟩ := floatUlp_ge r (ne_of_gt hpos)
    rw [abs_of_pos hpos] at hu
    apply toFloat_le_float _ r hpos hfl
    have c : r * (1 + 1 / 2 ^ 49) ≤ r + r * (1 / 2 ^ 24) / 2 := by
      have : r * (1 / 2 ^ 49) ≤ r * (1 / 2 ^ 24 / 2) :=
        mul_le_mul_of_nonneg_left (by norm_num) hpos.le
      linarith
    linarith

/-- A clamped `GetCellRef` never yields the Invalid cell. -/
theorem GetCellRef_clamped_IsValid (g : AGAGridActor) (p : FVector) :
    (g.GetCellRef p true).IsValid = true := by
  have hx : 0 ≤ (g.GetCellRef p true).X := by
    simp [AGAGridActor.GetCellRef, AGAGridActor.Discretize, Clamp]
  simp only [FCellRef.IsValid, decide_eq_true_eq]
  intro h
  rw [h] at hx
  simp [FCellRef.Invalid, INDEX_NONE] at hx

/-- A point inside the grid (its unclamped cell is valid) has a valid cell whatever the
default of `bClamp` is. -/
theorem GetCellRef_default_IsValid (g : AGAGridActor) (p : FVector)
    (hin : (g.GetCellRef p false).IsValid = true) :
    (g.GetCellRef p g.DefaultClamp).IsValid = true := by
  cases h : g.DefaultClamp with
  | false => exact hin
  | true => exact GetCellRef_clamped_IsValid g p

/-- C15: for every follower, whatever its state before the call, every grid, every
destination point inside the grid and every owner location whose distance to the point
passes the test `DistLE` of `RefreshPath` against `ArrivalDistance` (as every distance of
at most `ArrivalDistance` does when `ArrivalDistance` is a non-negative `float` value,
`DistLE_of_exact`): `SetDestination` returns Finished, the state is Finished on return,
and the values written to `State` during the call are Invalid and then Finished, so never
Active. -/
theorem SetDestination_within_arrival (fuel : Nat) (g : AGAGridActor) (OwnerLocation : FVector)
    (c : UGAPathComponent) (DestinationPoint : FVector) (CameFrom : TMap FCellRef FVector)
    (hin : (g.GetCellRef DestinationPoint false).IsValid = true)
    (hnear : FVector.DistLE OwnerLocation DestinationPoint c.ArrivalDistance = true) :
    ∃ c', UGAPathComponent.SetDestination fuel (some g) OwnerLocation c DestinationPoint CameFrom
          = .done (c', .GAPS_Finished)
      ∧ c'.State = .GAPS_Finished
      ∧ c'.StateWrites = c.StateWrites ++ [.GAPS_Invalid, .GAPS_Finished]
      ∧ EGAPathState.GAPS_Active ∉ [EGAPathState.GAPS_Invalid, EGAPathState.GAPS_Finished] := by
  have hvalid := GetCellRef_default_IsValid g DestinationPoint hin
  refine ⟨({ ({ c with Destination := DestinationPoint }).SetState .GAPS_Invalid with
      bDestinationValid := true
      DestinationCell := g.GetCellRef DestinationPoint g.DefaultClamp
      bRebuildPathRequested := true
      CachedCameFrom := CameFrom }).SetState .GAPS_Finished, ?_, rfl, ?_, by decide⟩
  · simp [UGAPathComponent.SetDestination, hvalid, UGAPathComponent.RefreshPath,
      UGAPathComponent.SetState, hnear]
  · simp [UGAPathComponent.SetState]

/-- C15 at a concrete input: the follower of `row3` that is Active, the owner at the
centre of cell (1, 0), the destination 60 units away from it inside the same cell. -/
theorem SetDestination_within_arrival_witness :
    ∃ c', UGAPathComponent.SetDestination 3 (some row3) ⟨0, 0, 0⟩ activeFollower ⟨36, 48, 0⟩ []
          = .done (c', .GAPS_Finished)
      ∧ c'.State = .GAPS_Finished
      ∧ c'.StateWrites = activeFollower.StateWrites ++ [.GAPS_Invalid, .GAPS_Finished]
      ∧ EGAPathState.GAPS_Active ∉ [EGAPathState.GAPS_Invalid, EGAPathState.GAPS_Finished] :=
  SetDestination_within_arrival 3 row3 ⟨0, 0, 0⟩ activeFollower ⟨36, 48, 0⟩ []
    (by decide!) (by decide!)

/-- `SetNum(n)` leaves `n` steps. -/
theorem SetNum_length (Steps : List FPathStep) (n : Nat) : (SetNum Steps n).length = n := by
  simp only [SetNum, List.length_append, List.length_take, List.length_replicate]
  omega

/-- The conversion loop of `GoThere` keeps the number of steps. -/
theorem fillSteps_length (g : AGAGridActor) :
    ∀ (path : List FVector) (Steps : List FPathStep) (i : Nat) (Steps' : List FPathStep),
      fillSteps g path Steps i = .done Steps' → Steps'.length = Steps.length := by
  intro path
  induction path with
  | nil =>
    intro Steps i Steps' h
    simp only [fillSteps, Run.done.injEq] at h
    rw [← h]
  | cons p rest ih =>
    intro Steps i Steps' h
    simp only [fillSteps] at h
    cases hd : g.GetCellData (g.GetCellRef p g.DefaultClamp) with
    | none => rw [hd] at h; simp at h
    | some d =>
      rw [hd] at h
      simp only at h
      split at h
      · split at h
        · rw [ih _ _ _ h, List.length_set]
        · simp at h
      · exact ih _ _ _ h

/-- The distance field of `GoThere`, whose window is the single cell (0, 0), is built
without a pass of the main loop: `UGAPathComponent::Dijkstra` returns true and leaves
`CameFrom` as it was. -/
theorem Dijkstra_GoThereBounds (g : AGAGridActor) (StartPoint : FVector)
    (CameFrom : TMap FCellRef FVector) :
    ∃ m, UGAPathComponent.Dijkstra (some g) StartPoint (FGAGridMap.New GoThereBounds FLT_MAX)
      CameFrom = .done (true, m, CameFrom) := by
  have hp : dijkstraPasses (FGAGridMap.New GoThereBounds FLT_MAX).GridBounds = 0 := by decide
  refine ⟨(dijkstraInit StartPoint GoThereBounds CameFrom g).dist.foldl
    (fun m Pair => m.SetValue Pair.1 Pair.2) (FGAGridMap.New GoThereBounds FLT_MAX), ?_⟩
  simp only [UGAPathComponent.Dijkstra, dijkstra, hp, dijkstraLoop]
  rfl

/-- What `GoThere` leaves when a grid is there and it returns: it has written the state it
returns, `CameFrom`, the destination and the flags are as before. -/
theorem GoThere_effect (fuel : Nat) (g : AGAGridActor) (OwnerLocation : FVector)
    (c : UGAPathComponent) (CameFrom : TMap FCellRef FVector)
    (out : UGAPathComponent × TMap FCellRef FVector × EGAPathState)
    (h : UGAPathComponent.GoThere fuel (some g) OwnerLocation c CameFrom = .done out) :
    out.1.State = out.2.2
      ∧ out.1.StateWrites = c.StateWrites ++ [out.2.2]
      ∧ out.2.1 = CameFrom
      ∧ out.1.Destination = c.Destination
      ∧ out.1.DestinationCell = c.DestinationCell
      ∧ out.1.bDestinationValid = c.bDestinationValid
      ∧ out.1.bRebuildPathRequested = c.bRebuildPathRequested
      ∧ out.1.ArrivalDistance = c.ArrivalDistance
      ∧ out.1.CachedCameFrom = c.CachedCameFrom := by
  obtain ⟨m, hm⟩ := Dijkstra_GoThereBounds g OwnerLocation CameFrom
  simp only [UGAPathComponent.GoThere, hm] at h
  cases hp : PathComponent.CameFromToPath fuel CameFrom OwnerLocation c.Destination g with
  | checkFailed => rw [hp] at h; simp at h
  | outOfFuel => rw [hp] at h; simp at h
  | done RawPath =>
    rw [hp] at h
    simp only at h
    cases hf : fillSteps g RawPath (SetNum c.Steps CameFrom.length) 0 with
    | checkFailed => rw [hf] at h; simp at h
    | outOfFuel => rw [hf] at h; simp at h
    | done Steps =>
      rw [hf] at h
      simp only [Run.done.injEq] at h
      rw [← h]
      simp [UGAPathComponent.SetState]

/-- C17 refuted as stated: the Active follower of `row3` with `ArrivalDistance = 100` and
the destination (50 + 2^(-20), 0, 0), the owner at (-50, 0, 0). The distance,
100 + 2^(-20), is more than `ArrivalDistance`; computed in `double` and narrowed to `float`
it is 100, and `RefreshPath` writes Finished and returns it instead of leaving the Active
follower as it is. -/
theorem RefreshPath_finishes_beyond_ArrivalDistance :
    nearFollower.State = .GAPS_Active
      ∧ nearFollower.bDestinationValid = true
      ∧ nearFollower.ArrivalDistance = 100
      ∧ FVector.DistSquared ⟨-50, 0, 0⟩ nearFollower.Destination
          = (100 + 1 / 1048576) * (100 + 1 / 1048576)
      ∧ nearFollower.ArrivalDistance * nearFollower.ArrivalDistance
          < FVector.DistSquared ⟨-50, 0, 0⟩ nearFollower.Destination
      ∧ toFloat (FVector.Dist ⟨-50, 0, 0⟩ nearFollower.Destination) = 100
      ∧ UGAPathComponent.RefreshPath 3 (some row3) ⟨-50, 0, 0⟩ nearFollower
          = .done (nearFollower.SetState .GAPS_Finished, .GAPS_Finished)
      ∧ (nearFollower.SetState .GAPS_Finished).State = .GAPS_Finished := by
  decide!

/-- `RefreshPath` on a follower with a valid destination that is not Active and fails the
distance test: the follower is set to Active and handed to `GoThere` with the cached map,
and `RefreshPath` returns what `GoThere` returns. With a grid, whenever the replan
returns, the state it returns is the state `GoThere` wrote last, after the Active written
before the call, and the destination, the flags and the cached map are as before. -/
theorem RefreshPath_replan (fuel : Nat) (Grid : Option AGAGridActor) (OwnerLocation : FVector)
    (c : UGAPathComponent) (hv : c.bDestinationValid = true)
    (hfar : FVector.DistLE OwnerLocation c.Destination c.ArrivalDistance = false)
    (hact : c.State ≠ .GAPS_Active) :
    UGAPathComponent.RefreshPath fuel Grid OwnerLocation c
        = (UGAPathComponent.GoThere fuel Grid OwnerLocation (c.SetState .GAPS_Active)
            c.CachedCameFrom).map
            (fun out => ({ out.1 with CachedCameFrom := out.2.1 }, out.2.2))
      ∧ ∀ (g : AGAGridActor) (out : UGAPathComponent × EGAPathState), Grid = some g →
          UGAPathComponent.RefreshPath fuel Grid OwnerLocation c = .done out →
          out.1.State = out.2
            ∧ out.1.StateWrites = c.StateWrites ++ [.GAPS_Active, out.2]
            ∧ out.1.Destination = c.Destination
            ∧ out.1.bDestinationValid = true
            ∧ out.1.CachedCameFrom = c.CachedCameFrom
            ∧ out.1.bRebuildPathRequested = c.bRebuildPathRequested := by
  have heq : UGAPathComponent.RefreshPath fuel Grid OwnerLocation c
      = (UGAPathComponent.GoThere fuel Grid OwnerLocation (c.SetState .GAPS_Active)
          c.CachedCameFrom).map
          (fun out => ({ out.1 with CachedCameFrom := out.2.1 }, out.2.2)) := by
    cases h : UGAPathComponent.GoThere fuel Grid OwnerLocation (c.SetState .GAPS_Active)
        c.CachedCameFrom with
    | checkFailed => simp [UGAPathComponent.RefreshPath, hv, hfar, hact, h, Run.map]
    | outOfFuel => simp [UGAPathComponent.RefreshPath, hv, hfar, hact, h, Run.map]
    | done out =>
      obtain ⟨c', cf, r⟩ := out
      simp [UGAPathComponent.RefreshPath, hv, hfar, hact, h, Run.map]
  refine ⟨heq, ?_⟩
  intro g out hg hout
  rw [heq, hg] at hout
  cases h : UGAPathComponent.GoThere fuel (some g) OwnerLocation (c.SetState .GAPS_Active)
      c.CachedCameFrom with
  | checkFailed => rw [h] at hout; simp [Run.map] at hout
  | outOfFuel => rw [h] at hout; simp [Run.map] at hout
  | done o =>
    rw [h] at hout
    simp only [Run.map, Run.done.injEq] at hout
    have e := GoThere_effect fuel g OwnerLocation (c.SetState .GAPS_Active)
      c.CachedCameFrom o h
    rw [← hout]
    refine ⟨e.1, ?_, e.2.2.2.1, ?_, e.2.2.1, e.2.2.2.2.2.2.1⟩
    · simp only [e.2.1, UGAPathComponent.SetState, List.append_assoc, List.singleton_append]
    · rw [e.2.2.2.2.2.1]
      exact hv

/-- C17 as amended: `RefreshPath` on a follower with a valid destination tests the distance
from the owner to the destination, computed in `double` and narrowed to `float`, against
`ArrivalDistance` (`DistLE`). When the test holds it writes Finished and returns it, whatever the state was.
When it fails, an Active follower is returned as it is, with Active; a follower in any
other state is set to Active and handed to `GoThere` with the cached map, and
`RefreshPath` returns what `GoThere` returns: with a grid, whenever the replan returns, the
state it returns is the state `GoThere` wrote last, after the Active written before the
call, and the destination, its flag and the cached map are as before. -/
theorem RefreshPath_cases (fuel : Nat) (Grid : Option AGAGridActor) (OwnerLocation : FVector)
    (c : UGAPathComponent) (hv : c.bDestinationValid = true) :
    (FVector.DistLE OwnerLocation c.Destination c.ArrivalDistance = true →
        UGAPathComponent.RefreshPath fuel Grid OwnerLocation c
            = .done (c.SetState .GAPS_Finished, .GAPS_Finished)
          ∧ (c.SetState .GAPS_Finished).State = .GAPS_Finished)
      ∧ (FVector.DistLE OwnerLocation c.Destination c.ArrivalDistance = false →
          c.State = .GAPS_Active →
          UGAPathComponent.RefreshPath fuel Grid OwnerLocation c = .done (c, .GAPS_Active))
      ∧ (FVector.DistLE OwnerLocation c.Destination c.ArrivalDistance = false →
          c.State ≠ .GAPS_Active →
          UGAPathComponent.RefreshPath fuel Grid OwnerLocation c
              = (UGAPathComponent.GoThere fuel Grid OwnerLocation (c.SetState .GAPS_Active)
                  c.CachedCameFrom).map
                  (fun out => ({ out.1 with CachedCameFrom := out.2.1 }, out.2.2))
            ∧ ∀ (g : AGAGridActor) (out : UGAPathComponent × EGAPathState), Grid = some g →
                UGAPathComponent.RefreshPath fuel Grid OwnerLocation c = .done out →
                out.1.State = out.2
                  ∧ out.1.StateWrites = c.StateWrites ++ [.GAPS_Active, out.2]
                  ∧ out.1.Destination = c.Destination
                  ∧ out.1.bDestinationValid = true
                  ∧ out.1.CachedCameFrom = c.CachedCameFrom) := by
  refine ⟨?_, ?_, ?_⟩
  · intro hnear
    exact ⟨by simp [UGAPathComponent.RefreshPath, hv, hnear], rfl⟩
  · intro hfar hact
    simp [UGAPathComponent.RefreshPath, hv, hfar, hact]
  · intro hfar hact
    obtain ⟨heq, heff⟩ := RefreshPath_replan fuel Grid OwnerLocation c hv hfar hact
    refine ⟨heq, ?_⟩
    intro g out hg hout
    have e := heff g out hg hout
    exact ⟨e.1, e.2.1, e.2.2.1, e.2.2.2.1, e.2.2.2.2.1⟩

/-- C17 as amended, at concrete inputs on `row3`, with `ArrivalDistance = 100`. The Active
follower 100 units from its destination is set to Finished. The Active follower 200 units
from its destination is returned as it is. The Finished follower 200 units from its
destination is replanned: `RefreshPath` returns Active, the state written last, with the
step to the destination cell (2, 0). -/
theorem RefreshPath_cases_witness :
    UGAPathComponent.RefreshPath 3 (some row3) ⟨-100, 0, 0⟩ activeFollower
        = .done (activeFollower.SetState .GAPS_Finished, .GAPS_Finished)
      ∧ UGAPathComponent.RefreshPath 3 (some row3) ⟨-100, 0, 0⟩
          (activeFollower.SetDestinationAndRebuildPath ⟨100, 0, 0⟩)
        = .done (activeFollower.SetDestinationAndRebuildPath ⟨100, 0, 0⟩, .GAPS_Active)
      ∧ UGAPathComponent.RefreshPath 3 (some row3) ⟨-100, 0, 0⟩ finishedFollower
        = .done (replannedFollower, .GAPS_Active)
      ∧ replannedFollower.State = .GAPS_Active
      ∧ replannedFollower.StateWrites
          = finishedFollower.StateWrites ++ [.GAPS_Active, .GAPS_Active] :=
  ⟨((RefreshPath_cases 3 (some row3) ⟨-100, 0, 0⟩ activeFollower rfl).1 (by decide!)).1,
    (RefreshPath_cases 3 (some row3) ⟨-100, 0, 0⟩
      (activeFollower.SetDestinationAndRebuildPath ⟨100, 0, 0⟩) rfl).2.1 (by decide!) rfl,
    ((RefreshPath_cases 3 (some row3) ⟨-100, 0, 0⟩ finishedFollower rfl).2.2 (by decide!)
      (by decide)).1.trans (by decide!),
    ((RefreshPath_cases 3 (some row3) ⟨-100, 0, 0⟩ finishedFollower rfl).2.2 (by decide!)
      (by decide)).2 row3 (replannedFollower, .GAPS_Active) rfl
      (((RefreshPath_cases 3 (some row3) ⟨-100, 0, 0⟩ finishedFollower rfl).2.2 (by decide!)
        (by decide)).1.trans (by decide!)) |>.1,
    by decide⟩

/-- C19: for a follower whose rebuild flag is clear and whose state is not Active, a tick
returns the follower as it was (state, destination, steps, rebuild flag and every other
member) and moves nothing, for every owner location; so does every sequence of ticks. -/
theorem Ticks_idle (fuel : Nat) (Grid : Option AGAGridActor) (c : UGAPathComponent)
    (hf : c.bRebuildPathRequested = false) (hs : c.State ≠ .GAPS_Active) :
    (∀ OwnerLocation : FVector,
        UGAPathComponent.TickComponent fuel Grid OwnerLocation c = .done (c, none))
      ∧ ∀ OwnerLocations : List FVector,
        UGAPathComponent.Ticks fuel Grid OwnerLocations c = .done c := by
  have htick : ∀ OwnerLocation : FVector,
      UGAPathComponent.TickComponent fuel Grid OwnerLocation c = .done (c, none) := by
    intro OwnerLocation
    simp [UGAPathComponent.TickComponent, UGAPathComponent.FollowIfActive, hf, hs]
  refine ⟨htick, ?_⟩
  intro OwnerLocations
  induction OwnerLocations with
  | nil => rfl
  | cons o rest ih => simp only [UGAPathComponent.Ticks, htick o, ih]

/-- C19 at a concrete input: a follower left Invalid by a failed plan, three ticks. -/
theorem Ticks_idle_witness :
    UGAPathComponent.Ticks 3 (some row3) [⟨-100, 0, 0⟩, ⟨-90, 0, 0⟩, ⟨-80, 0, 0⟩]
        { activeFollower with State := .GAPS_Invalid }
      = .done { activeFollower with State := .GAPS_Invalid } :=
  (Ticks_idle 3 (some row3) { activeFollower with State := .GAPS_Invalid } rfl
    (by decide)).2 _

/-- When `FollowIfActive` returns, the component is the one it was given. -/
theorem FollowIfActive_component (OwnerLocation : FVector) (c : UGAPathComponent)
    (out : UGAPathComponent × Option FVector)
    (h : UGAPathComponent.FollowIfActive OwnerLocation c = .done out) : out.1 = c := by
  simp only [UGAPathComponent.FollowIfActive] at h
  split at h
  · cases hF : UGAPathComponent.FollowPath OwnerLocation c with
    | checkFailed => rw [hF] at h; simp at h
    | outOfFuel => rw [hF] at h; simp at h
    | done V =>
      rw [hF] at h
      simp only [Run.done.injEq] at h
      rw [← h]
  · simp only [Run.done.injEq] at h
    rw [← h]

/-- C18 refuted as stated: on `row3` the Active follower, whose one step leads to cell
(1, 0), gets the new destination (100, 0, 0), the centre of cell (2, 0), through
`SetDestinationAndRebuildPath`; the owner stands at the centre of cell (0, 0), 200 units
away. The tick returns with state Active, the old step as the only step and the rebuild
flag false, steering to the old step; `GoThere` on the same follower would have produced
the steps for the new destination. -/
theorem TickComponent_Active_keeps_old_steps :
    (UGAPathComponent.TickComponent 3 (some row3) ⟨-100, 0, 0⟩
        (activeFollower.SetDestinationAndRebuildPath ⟨100, 0, 0⟩)).map
        (fun out => (out.1.State, out.1.Steps, out.1.Destination, out.1.bRebuildPathRequested,
          out.2))
        = .done (.GAPS_Active, [⟨⟨0, 0⟩, ⟨1, 0⟩⟩], ⟨100, 0, 0⟩, false, some ⟨100, 0, 0⟩)
      ∧ (UGAPathComponent.GoThere 3 (some row3) ⟨-100, 0, 0⟩
          (activeFollower.SetDestinationAndRebuildPath ⟨100, 0, 0⟩)
          (activeFollower.SetDestinationAndRebuildPath ⟨100, 0, 0⟩).CachedCameFrom).map
          (fun out => out.1.Steps)
        = .done [⟨⟨100, 0⟩, ⟨2, 0⟩⟩, FPathStep.New]
      ∧ (activeFollower.SetDestinationAndRebuildPath ⟨100, 0, 0⟩).bRebuildPathRequested = true
      ∧ (activeFollower.SetDestinationAndRebuildPath ⟨100, 0, 0⟩).bDestinationValid = true := by
  decide!

/-- C18 as amended: on a tick where the rebuild flag is set and the destination is valid,
`RefreshPath` runs and the rebuild flag is false after every tick that returns. When the
distance to the destination, narrowed to `float`, is at most `ArrivalDistance` (`DistLE`),
the state becomes Finished and nothing is recomputed. Otherwise an Active follower keeps
its state, destination and steps and `FollowPath` runs on them; a follower in any other
state is set to Active and replanned by `GoThere` with the cached map, after which
`FollowPath` runs if the state is Active: with a grid, whenever that tick returns, the
state is the one `GoThere` wrote last and the destination is as before. -/
theorem TickComponent_rebuild (fuel : Nat) (Grid : Option AGAGridActor) (OwnerLocation : FVector)
    (c : UGAPathComponent) (hv : c.bDestinationValid = true)
    (hf : c.bRebuildPathRequested = true) :
    (∀ out, UGAPathComponent.TickComponent fuel Grid OwnerLocation c = .done out →
        out.1.bRebuildPathRequested = false)
      ∧ (FVector.DistLE OwnerLocation c.Destination c.ArrivalDistance = true →
          UGAPathComponent.TickComponent fuel Grid OwnerLocation c
            = .done ({ c.SetState .GAPS_Finished with bRebuildPathRequested := false }, none))
      ∧ (FVector.DistLE OwnerLocation c.Destination c.ArrivalDistance = false →
          c.State = .GAPS_Active →
          UGAPathComponent.TickComponent fuel Grid OwnerLocation c
            = (UGAPathComponent.FollowPath OwnerLocation c).map
                (fun V => ({ c with bRebuildPathRequested := false }, some V)))
      ∧ (FVector.DistLE OwnerLocation c.Destination c.ArrivalDistance = false →
          c.State ≠ .GAPS_Active →
          UGAPathComponent.TickComponent fuel Grid OwnerLocation c
              = (UGAPathComponent.GoThere fuel Grid OwnerLocation (c.SetState .GAPS_Active)
                  c.CachedCameFrom).bind
                  (fun out => UGAPathComponent.FollowIfActive OwnerLocation
                    { out.1 with CachedCameFrom := out.2.1, bRebuildPathRequested := false })
            ∧ ∀ (g : AGAGridActor) (out : UGAPathComponent × Option FVector), Grid = some g →
                UGAPathComponent.TickComponent fuel Grid OwnerLocation c = .done out →
                out.1.StateWrites = c.StateWrites ++ [.GAPS_Active, out.1.State]
                  ∧ out.1.Destination = c.Destination
                  ∧ out.1.CachedCameFrom = c.CachedCameFrom) := by
  refine ⟨?_, ?_, ?_, ?_⟩
  · intro out h
    simp only [UGAPathComponent.TickComponent, hv, hf, and_self, if_true] at h
    cases hr : UGAPathComponent.RefreshPath fuel Grid OwnerLocation c with
    | checkFailed => rw [hr] at h; simp at h
    | outOfFuel => rw [hr] at h; simp at h
    | done r =>
      rw [hr] at h
      obtain ⟨c', st⟩ := r
      simp only at h
      rw [FollowIfActive_component OwnerLocation _ out h]
  · intro hnear
    simp [UGAPathComponent.TickComponent, hv, hf, UGAPathComponent.RefreshPath, hnear,
      UGAPathComponent.FollowIfActive, UGAPathComponent.SetState]
  · intro hfar hact
    cases hS : c.Steps <;>
      simp [UGAPathComponent.TickComponent, hv, hf, UGAPathComponent.RefreshPath, hfar, hact,
        UGAPathComponent.FollowIfActive, UGAPathComponent.FollowPath, hS, Run.map]
  · intro hfar hact
    refine ⟨?_, ?_⟩
    · cases h : UGAPathComponent.GoThere fuel Grid OwnerLocation (c.SetState .GAPS_Active)
          c.CachedCameFrom with
      | checkFailed =>
        simp [UGAPathComponent.TickComponent, hv, hf, UGAPathComponent.RefreshPath, hfar, hact,
          h, Run.bind]
      | outOfFuel =>
        simp [UGAPathComponent.TickComponent, hv, hf, UGAPathComponent.RefreshPath, hfar, hact,
          h, Run.bind]
      | done out =>
        obtain ⟨c', cf, r⟩ := out
        simp [UGAPathComponent.TickComponent, hv, hf, UGAPathComponent.RefreshPath, hfar, hact,
          h, Run.bind]
    · intro g out hg h
      simp only [UGAPathComponent.TickComponent, hv, hf, and_self, if_true] at h
      cases hr : UGAPathComponent.RefreshPath fuel Grid OwnerLocation c with
      | checkFailed => rw [hr] at h; simp at h
      | outOfFuel => rw [hr] at h; simp at h
      | done r =>
        rw [hr] at h
        obtain ⟨c', st⟩ := r
        simp only at h
        have e := (RefreshPath_replan fuel Grid OwnerLocation c hv hfar hact).2 g (c', st) hg hr
        rw [FollowIfActive_component OwnerLocation _ out h]
        simp only at e ⊢
        exact ⟨by rw [e.2.1, e.1], e.2.2.1, e.2.2.2.2.1⟩

/-- C18 as amended, at concrete inputs on `row3`. The Active follower after
`SetDestinationAndRebuildPath`, the owner 200 units from the new destination: the tick
runs `FollowPath` on the follower as it was, the rebuild flag cleared. The Active follower
after `SetDestinationAndRebuildPath` to (50 + 2^(-20), 0, 0), the owner at (-50, 0, 0):
the distance narrowed to `float` is 100, the tick leaves the follower Finished, the
rebuild flag cleared, and steers nowhere. The Finished follower after
`SetDestinationAndRebuildPath`, the owner 200 units from the destination: the tick
replans, leaves the follower Active with the step to cell (2, 0), the rebuild flag
cleared, and steers to that step. -/
theorem TickComponent_rebuild_witness :
    UGAPathComponent.TickComponent 3 (some row3) ⟨-100, 0, 0⟩
        (activeFollower.SetDestinationAndRebuildPath ⟨100, 0, 0⟩)
      = (UGAPathComponent.FollowPath ⟨-100, 0, 0⟩
          (activeFollower.SetDestinationAndRebuildPath ⟨100, 0, 0⟩)).map
          (fun V => ({ activeFollower.SetDestinationAndRebuildPath ⟨100, 0, 0⟩ with
            bRebuildPathRequested := false }, some V))
      ∧ UGAPathComponent.TickComponent 3 (some row3) ⟨-50, 0, 0⟩
          (activeFollower.SetDestinationAndRebuildPath ⟨50 + 1 / 1048576, 0, 0⟩)
        = .done ({ (activeFollower.SetDestinationAndRebuildPath
              ⟨50 + 1 / 1048576, 0, 0⟩).SetState .GAPS_Finished with
            bRebuildPathRequested := false }, none)
      ∧ (UGAPathComponent.TickComponent 3 (some row3) ⟨-100, 0, 0⟩
          (finishedFollower.SetDestinationAndRebuildPath ⟨100, 0, 0⟩)).map
          (fun out => (out.1.State, out.1.Steps, out.1.bRebuildPathRequested, out.2))
        = .done (.GAPS_Active, [⟨⟨100, 0⟩, ⟨2, 0⟩⟩, FPathStep.New], false, some ⟨200, 0, 0⟩) :=
  ⟨(TickComponent_rebuild 3 (some row3) ⟨-100, 0, 0⟩
      (activeFollower.SetDestinationAndRebuildPath ⟨100, 0, 0⟩) rfl rfl).2.2.1 (by decide!) rfl,
    (TickComponent_rebuild 3 (some row3) ⟨-50, 0, 0⟩
      (activeFollower.SetDestinationAndRebuildPath ⟨50 + 1 / 1048576, 0, 0⟩) rfl rfl).2.1
      (by decide!),
    (congrArg (Run.map fun out => (out.1.State, out.1.Steps, out.1.bRebuildPathRequested, out.2))
      ((TickComponent_rebuild 3 (some row3) ⟨-100, 0, 0⟩
        (finishedFollower.SetDestinationAndRebuildPath ⟨100, 0, 0⟩) rfl rfl).2.2.2 (by decide!)
        (by decide)).1).trans (by decide!)⟩

/-- C16 at the failing input: on the 5 x 1 grid whose cell (2, 0) is not traversable, the
owner at the centre of cell (0, 0), `ArrivalDistance = 100`. With the destination at the
centre of cell (4, 0), 400 units away and cut off by cell (2, 0), and the `CameFrom` that
`dijkstra` built from the owner's cell, `SetDestination` returns Active. With the
destination at the centre of the non-traversable cell (2, 0), 200 units away, and an empty
`CameFrom`, it returns Active with an empty step sequence. -/
theorem SetDestination_unreachable_Active :
    (blockedRow.DistanceFieldFrom ⟨0, 0⟩).map
        (fun out => (UGAPathComponent.SetDestination 5 (some blockedRow)
          (blockedRow.GetCellPosition ⟨0, 0⟩) UGAPathComponent.New
          (blockedRow.GetCellPosition ⟨4, 0⟩) out.2).map
            (fun r => (r.2, r.1.State, r.1.Steps)))
        = .done (.done (.GAPS_Active, .GAPS_Active,
            [⟨⟨200, 0⟩, ⟨4, 0⟩⟩, FPathStep.New, FPathStep.New, FPathStep.New]))
      ∧ (UGAPathComponent.SetDestination 5 (some blockedRow)
          (blockedRow.GetCellPosition ⟨0, 0⟩) UGAPathComponent.New
          (blockedRow.GetCellPosition ⟨2, 0⟩) []).map (fun r => (r.2, r.1.State, r.1.Steps))
        = .done (.GAPS_Active, .GAPS_Active, [])
      ∧ FVector.DistLE (blockedRow.GetCellPosition ⟨0, 0⟩) (blockedRow.GetCellPosition ⟨4, 0⟩)
          UGAPathComponent.New.ArrivalDistance = false
      ∧ FVector.DistLE (blockedRow.GetCellPosition ⟨0, 0⟩) (blockedRow.GetCellPosition ⟨2, 0⟩)
          UGAPathComponent.New.ArrivalDistance = false
      ∧ blockedRow.GetCellData ⟨2, 0⟩ = some 0 := by
  decide!

/-- C20 at the failing input: on `row3`, the owner at the centre of cell (0, 0), the
destination at the centre of cell (2, 0), a follower without steps and the `CameFrom`
that `dijkstra` built from the owner's cell (two entries). The reconstructed path is the
one waypoint `goal`, in a traversable cell; `GoThere` ends Active with two steps, the
second a default step with the Invalid cell. With an empty `CameFrom` the write
`Steps[0]` is outside the array and `GoThere` stops at the failed range check. -/
theorem GoThere_steps_sized_by_CameFrom :
    (row3.DistanceFieldFrom ⟨0, 0⟩).map
        (fun out => (out.2.length,
          PathComponent.CameFromToPath 3 out.2 (row3.GetCellPosition ⟨0, 0⟩)
            (row3.GetCellPosition ⟨2, 0⟩) row3))
        = .done (2, .done [row3.GetCellPosition ⟨2, 0⟩])
      ∧ (row3.DistanceFieldFrom ⟨0, 0⟩).map
        (fun out => (UGAPathComponent.GoThere 3 (some row3) (row3.GetCellPosition ⟨0, 0⟩)
            plannedFollower out.2).map (fun r => (r.2.2, r.1.State, r.1.Steps)))
        = .done (.done (.GAPS_Active, .GAPS_Active, [⟨⟨100, 0⟩, ⟨2, 0⟩⟩, FPathStep.New]))
      ∧ plannedFollower.Destination = row3.GetCellPosition ⟨2, 0⟩
      ∧ row3.GetCellData ⟨2, 0⟩ = some CellDataTraversable
      ∧ FPathStep.New.CellRef = FCellRef.Invalid
      ∧ UGAPathComponent.GoThere 3 (some row3) (row3.GetCellPosition ⟨0, 0⟩) plannedFollower []
        = .checkFailed := by
  decide!

/-- C11 at the failing input: on the 2 x 2 grid without any traversable cell, the owner at
the centre of cell (0, 0), `SampleDimensions = 8000` (the window is the whole grid), the
layer list [TargetRange, identity, Replace] and `PathfindToPosition = true`:
`ChoosePosition` returns true and calls `SetDestination` with the unassigned local
`BestCellPosition`; the follower's destination is that vector and is flagged valid, both
for contents (7, 7, 7), inside the grid, and for contents (100000, 7, 7), outside it. -/
theorem ChoosePosition_no_traversable_cell :
    (closedGrid.WholeBox.Cells.all fun c => decide (closedGrid.GetCellData c = some 0)) = true
      ∧ FGridBox.OfRect (closedGrid.GridSpaceBoundsToRect2D
          (QueryBox (closedGrid.GetCellPosition ⟨0, 0⟩) 8000)).2 = closedGrid.WholeBox
      ∧ (UGASpatialComponent.ChoosePosition 3 closedGrid (openWorld ⟨50, 50, 0⟩)
          (closedGrid.GetCellPosition ⟨0, 0⟩) (some [targetRangeLayer]) 8000
          UGAPathComponent.New ⟨7, 7, 7⟩ true).map
          (fun out => (out.1, out.2.bDestinationValid, out.2.Destination, out.2.State))
        = .done (true, true, ⟨7, 7, 7⟩, .GAPS_Finished)
      ∧ (UGASpatialComponent.ChoosePosition 3 closedGrid (openWorld ⟨50, 50, 0⟩)
          (closedGrid.GetCellPosition ⟨0, 0⟩) (some [targetRangeLayer]) 8000
          UGAPathComponent.New ⟨100000, 7, 7⟩ true).map
          (fun out => (out.1, out.2.bDestinationValid, out.2.Destination, out.2.State))
        = .done (true, true, ⟨100000, 7, 7⟩, .GAPS_Invalid)
      ∧ UGAPathComponent.New.bDestinationValid = false := by
  decide!

/-! ### `GetCellRef`, `GridSpaceBoundsToRect2D` and `ResetData` -/

/-- The discretisation yields a cell with non-negative coordinates, and coordinates at
most `XCount - 1` and `YCount - 1` when both counts are at least 1. -/
theorem Discretize_bounds (g : AGAGridActor) (lx ly : ℚ) :
    0 ≤ (g.Discretize lx ly).X ∧ 0 ≤ (g.Discretize lx ly).Y
      ∧ (1 ≤ g.XCount → (g.Discretize lx ly).X ≤ g.XCount - 1)
      ∧ (1 ≤ g.YCount → (g.Discretize lx ly).Y ≤ g.YCount - 1) := by
  simp only [AGAGridActor.Discretize, Clamp]
  refine ⟨le_max_right _ _, le_max_right _ _, ?_, ?_⟩
  · intro h
    exact max_le (min_le_right _ _) (by omega)
  · intro h
    exact max_le (min_le_right _ _) (by omega)

/-- C21: for every grid with `XCount ≥ 1` and `YCount ≥ 1` (whatever its scale and
placement) and every point, `GetCellRef` with `bClamp = true` returns a cell with
`0 ≤ X ≤ XCount - 1` and `0 ≤ Y ≤ YCount - 1`. -/
theorem GetCellRef_clamped_in_bounds (g : AGAGridActor) (hX : 1 ≤ g.XCount)
    (hY : 1 ≤ g.YCount) (Point : FVector) :
    0 ≤ (g.GetCellRef Point true).X ∧ (g.GetCellRef Point true).X ≤ g.XCount - 1
      ∧ 0 ≤ (g.GetCellRef Point true).Y ∧ (g.GetCellRef Point true).Y ≤ g.YCount - 1 := by
  simp only [AGAGridActor.GetCellRef, if_true]
  exact ⟨(Discretize_bounds g _ _).1, (Discretize_bounds g _ _).2.2.1 hX,
    (Discretize_bounds g _ _).2.1, (Discretize_bounds g _ _).2.2.2 hY⟩

/-- C21 at a concrete input: the 5 x 5 grid of scale 100 and the point (1000, -7, 3),
outside the grid. -/
theorem GetCellRef_clamped_in_bounds_witness :
    0 ≤ ((openGrid 5 5 false).GetCellRef ⟨1000, -7, 3⟩ true).X
      ∧ ((openGrid 5 5 false).GetCellRef ⟨1000, -7, 3⟩ true).X ≤ (openGrid 5 5 false).XCount - 1
      ∧ 0 ≤ ((openGrid 5 5 false).GetCellRef ⟨1000, -7, 3⟩ true).Y
      ∧ ((openGrid 5 5 false).GetCellRef ⟨1000, -7, 3⟩ true).Y ≤ (openGrid 5 5 false).YCount - 1 :=
  GetCellRef_clamped_in_bounds (openGrid 5 5 false) (by decide) (by decide) ⟨1000, -7, 3⟩

/-- C22: for every grid and point, with `L` the point in grid-local space: `GetCellRef` with
`bClamp = false` returns `FCellRef::Invalid` if and only if `|L.X|` exceeds the half extent
on X or `|L.Y|` exceeds the half extent on Y; for every other point it returns the cell
that the call with `bClamp = true` returns, which lies inside the grid when both counts
are at least 1. -/
theorem GetCellRef_unclamped (g : AGAGridActor) (Point : FVector) :
    (g.GetCellRef Point false = FCellRef.Invalid ↔
        (|(g.InverseTransformPosition Point).X| > g.HalfExtentsX
          ∨ |(g.InverseTransformPosition Point).Y| > g.HalfExtentsY))
      ∧ (¬ (|(g.InverseTransformPosition Point).X| > g.HalfExtentsX
            ∨ |(g.InverseTransformPosition Point).Y| > g.HalfExtentsY) →
          g.GetCellRef Point false = g.GetCellRef Point true
            ∧ (1 ≤ g.XCount → 1 ≤ g.YCount →
                0 ≤ (g.GetCellRef Point false).X ∧ (g.GetCellRef Point false).X ≤ g.XCount - 1
                  ∧ 0 ≤ (g.GetCellRef Point false).Y
                  ∧ (g.GetCellRef Point false).Y ≤ g.YCount - 1)) := by
  have hin : ¬ (|(g.InverseTransformPosition Point).X| > g.HalfExtentsX
      ∨ |(g.InverseTransformPosition Point).Y| > g.HalfExtentsY) →
      g.GetCellRef Point false = g.GetCellRef Point true := by
    intro h
    have hx : |(g.InverseTransformPosition Point).X| ≤ g.HalfExtentsX := by
      by_contra hc
      exact h (Or.inl (not_le.mp hc))
    have hy : |(g.InverseTransformPosition Point).Y| ≤ g.HalfExtentsY := by
      by_contra hc
      exact h (Or.inr (not_le.mp hc))
    have cx : Clamp (g.InverseTransformPosition Point).X (-g.HalfExtentsX) g.HalfExtentsX
        = (g.InverseTransformPosition Point).X := by
      unfold Clamp
      rw [min_eq_left (abs_le.mp hx).2, max_eq_left (abs_le.mp hx).1]
    have cy : Clamp (g.InverseTransformPosition Point).Y (-g.HalfExtentsY) g.HalfExtentsY
        = (g.InverseTransformPosition Point).Y := by
      unfold Clamp
      rw [min_eq_left (abs_le.mp hy).2, max_eq_left (abs_le.mp hy).1]
    simp only [AGAGridActor.GetCellRef, Bool.false_eq_true, if_false, if_true, h, cx, cy]
  refine ⟨⟨?_, ?_⟩, ?_⟩
  · intro hinv
    by_contra h
    have hc := hin h
    have h0 : 0 ≤ (g.GetCellRef Point true).X := by
      simp only [AGAGridActor.GetCellRef, if_true]
      exact (Discretize_bounds g _ _).1
    rw [← hc, hinv] at h0
    simp [FCellRef.Invalid, INDEX_NONE] at h0
  · intro h
    simp [AGAGridActor.GetCellRef, h]
  · intro h
    refine ⟨hin h, ?_⟩
    intro hX hY
    rw [hin h]
    have hb := Discretize_bounds g
    simp only [AGAGridActor.GetCellRef, if_true]
    exact ⟨(hb _ _).1, (hb _ _).2.2.1 hX, (hb _ _).2.1, (hb _ _).2.2.2 hY⟩

/-- C22 at a concrete input: on the 5 x 5 grid of scale 100 the point (249, -250, 9), on
the border of the grid, gets the same cell (4, 0) with and without clamping. -/
theorem GetCellRef_unclamped_witness :
    (openGrid 5 5 false).GetCellRef ⟨249, -250, 9⟩ false
        = (openGrid 5 5 false).GetCellRef ⟨249, -250, 9⟩ true
      ∧ (1 ≤ (openGrid 5 5 false).XCount → 1 ≤ (openGrid 5 5 false).YCount →
          0 ≤ ((openGrid 5 5 false).GetCellRef ⟨249, -250, 9⟩ false).X
            ∧ ((openGrid 5 5 false).GetCellRef ⟨249, -250, 9⟩ false).X
                ≤ (openGrid 5 5 false).XCount - 1
            ∧ 0 ≤ ((openGrid 5 5 false).GetCellRef ⟨249, -250, 9⟩ false).Y
            ∧ ((openGrid 5 5 false).GetCellRef ⟨249, -250, 9⟩ false).Y
                ≤ (openGrid 5 5 false).YCount - 1) :=
  (GetCellRef_unclamped (openGrid 5 5 false) ⟨249, -250, 9⟩).2 (by decide!)

/-- C23: for every grid and every input box, `GridSpaceBoundsToRect2D` returns true if and
only if the rectangle it writes has `Min.X ≤ Max.X` and `Min.Y ≤ Max.Y`; and when it
returns true the rectangle lies inside the grid: `0 ≤ Min.X ≤ Max.X ≤ XCount - 1` and
`0 ≤ Min.Y ≤ Max.Y ≤ YCount - 1`. -/
theorem GridSpaceBoundsToRect2D_inside (g : AGAGridActor) (Box : FBox2D) :
    ((g.GridSpaceBoundsToRect2D Box).1 = true ↔
        (g.GridSpaceBoundsToRect2D Box).2.MinX ≤ (g.GridSpaceBoundsToRect2D Box).2.MaxX
          ∧ (g.GridSpaceBoundsToRect2D Box).2.MinY ≤ (g.GridSpaceBoundsToRect2D Box).2.MaxY)
      ∧ ((g.GridSpaceBoundsToRect2D Box).1 = true →
          0 ≤ (g.GridSpaceBoundsToRect2D Box).2.MinX
            ∧ (g.GridSpaceBoundsToRect2D Box).2.MinX ≤ (g.GridSpaceBoundsToRect2D Box).2.MaxX
            ∧ (g.GridSpaceBoundsToRect2D Box).2.MaxX ≤ g.XCount - 1
            ∧ 0 ≤ (g.GridSpaceBoundsToRect2D Box).2.MinY
            ∧ (g.GridSpaceBoundsToRect2D Box).2.MinY ≤ (g.GridSpaceBoundsToRect2D Box).2.MaxY
            ∧ (g.GridSpaceBoundsToRect2D Box).2.MaxY ≤ g.YCount - 1) := by
  refine ⟨?_, ?_⟩
  · simp [AGAGridActor.GridSpaceBoundsToRect2D]
  · intro h
    simp only [AGAGridActor.GridSpaceBoundsToRect2D, decide_eq_true_eq] at h ⊢
    exact ⟨le_max_right _ _, h.1, min_le_right _ _, le_max_right _ _, h.2, min_le_right _ _⟩

/-- C23 at a concrete input: on the 5 x 5 grid of scale 100 the box from (-730, 120) to
(260, 9000) gives the rectangle of columns 0..2 and rows 1..4. -/
theorem GridSpaceBoundsToRect2D_inside_witness :
    (openGrid 5 5 false).GridSpaceBoundsToRect2D ⟨⟨-730, 120⟩, ⟨260, 9000⟩⟩ = (true, ⟨0, 1, 2, 4⟩)
      ∧ 0 ≤ ((openGrid 5 5 false).GridSpaceBoundsToRect2D ⟨⟨-730, 120⟩, ⟨260, 9000⟩⟩).2.MinX :=
  ⟨by decide!, ((GridSpaceBoundsToRect2D_inside (openGrid 5 5 false)
    ⟨⟨-730, 120⟩, ⟨260, 9000⟩⟩).2 (by decide!)).1⟩

/-- C24: for every grid with non-negative counts, whatever its array held and whatever its
length was: `ResetData` returns, and afterwards the array has exactly `XCount * YCount`
entries, every entry is zero and no cell is traversable; the counts are unchanged. -/
theorem ResetData_zeroed (g : AGAGridActor) (hX : 0 ≤ g.XCount) (hY : 0 ≤ g.YCount) :
    ∃ g', g.ResetData = .done (false, g')
      ∧ (g'.Data.length : Int) = g.XCount * g.YCount
      ∧ (∀ d ∈ g'.Data, d = 0)
      ∧ (∀ c : FCellRef, g'.IsTraversable c = false)
      ∧ g'.XCount = g.XCount ∧ g'.YCount = g.YCount := by
  have hcount : 0 ≤ g.XCount * g.YCount := mul_nonneg hX hY
  have hzero : ∀ d ∈ (SetNumData g.Data (g.XCount * g.YCount).toNat).map (fun _ => 0), d = 0 := by
    intro d hd
    simp only [List.mem_map] at hd
    obtain ⟨_, _, h⟩ := hd
    exact h.symm
  refine ⟨{ g with Data := (SetNumData g.Data (g.XCount * g.YCount).toNat).map fun _ => 0 },
    ?_, ?_, hzero, ?_, rfl, rfl⟩
  · simp [AGAGridActor.ResetData, AGAGridActor.GetCellCount, not_lt.mpr hcount]
  · simp only [List.length_map, SetNumData, List.length_append, List.length_take,
      List.length_replicate]
    omega
  · intro c
    simp only [AGAGridActor.IsTraversable, AGAGridActor.GetCellData, AGAGridActor.CellRefToIndex]
    split
    · rename_i d hd
      split at hd
      · have hmem : d ∈ (SetNumData g.Data (g.XCount * g.YCount).toNat).map (fun _ => 0) :=
          List.get?_mem hd
        rw [hzero d hmem]
        decide
      · simp at hd
    · rfl

/-- C24 at a concrete input: the 2 x 2 grid whose array held five entries. -/
theorem ResetData_zeroed_witness :
    ∃ g', (plainGrid 2 2 100 [1, 1, 0, 1, 1] false).ResetData = .done (false, g')
      ∧ (g'.Data.length : Int)
          = (plainGrid 2 2 100 [1, 1, 0, 1, 1] false).XCount
            * (plainGrid 2 2 100 [1, 1, 0, 1, 1] false).YCount
      ∧ (∀ d ∈ g'.Data, d = 0)
      ∧ (∀ c : FCellRef, g'.IsTraversable c = false)
      ∧ g'.XCount = (plainGrid 2 2 100 [1, 1, 0, 1, 1] false).XCount
      ∧ g'.YCount = (plainGrid 2 2 100 [1, 1, 0, 1, 1] false).YCount :=
  ResetData_zeroed (plainGrid 2 2 100 [1, 1, 0, 1, 1] false) (by decide) (by decide)

/-! ### The follower's checks, the window of `dijkstra` and of the evaluator -/

/-- C25 at the failing input: on the 5 x 1 grid whose cell (2, 0) is not traversable, a
freshly constructed follower is given the centre (0, 0, 0) of that cell as destination,
the owner standing at the centre of cell (0, 0), 200 units away. Through
`SetDestinationAndRebuildPath` and a tick: `RefreshPath` leaves the follower Active with
no steps, and the tick stops at the failed check `Steps.Num() > 0` of `FollowPath`.
Through `SetDestination` with an empty `CameFrom`: the follower is Active with no steps
on return, and the next tick stops at the same check. -/
theorem TickComponent_Active_without_steps :
    (UGAPathComponent.RefreshPath 3 (some blockedRow) ⟨-200, 0, 0⟩
        (UGAPathComponent.New.SetDestinationAndRebuildPath ⟨0, 0, 0⟩)).map
        (fun r => (r.1.State, r.1.Steps)) = .done (.GAPS_Active, [])
      ∧ UGAPathComponent.TickComponent 3 (some blockedRow) ⟨-200, 0, 0⟩
          (UGAPathComponent.New.SetDestinationAndRebuildPath ⟨0, 0, 0⟩) = .checkFailed
      ∧ (UGAPathComponent.SetDestination 3 (some blockedRow) ⟨-200, 0, 0⟩ UGAPathComponent.New
          ⟨0, 0, 0⟩ []).map (fun r => (r.1.State, r.1.Steps, r.1.bRebuildPathRequested))
          = .done (.GAPS_Active, [], true)
      ∧ (UGAPathComponent.SetDestination 3 (some blockedRow) ⟨-200, 0, 0⟩ UGAPathComponent.New
          ⟨0, 0, 0⟩ []).bind
          (fun r => UGAPathComponent.TickComponent 3 (some blockedRow) ⟨-190, 0, 0⟩ r.1)
          = .checkFailed
      ∧ blockedRow.GetCellPosition ⟨0, 0⟩ = ⟨-200, 0, 0⟩
      ∧ blockedRow.GetCellPosition ⟨2, 0⟩ = ⟨0, 0, 0⟩ := by
  decide!

/-- C26 at the failing input: on the fully traversable 3 x 3 grid with the window of the
four cells 0..1 x 0..1, which lies inside the grid, and the start in the corner cell
(0, 0) of the window: the second pass expands cell (1, 1), whose neighbour (2, 0) is inside
the grid and outside the window; the visited map has no entry for it and `dijkstra` stops
at the failed lookup. -/
theorem dijkstra_window_2x2_in_3x3_checkFailed :
    dijkstra ((openGrid 3 3 false).GetCellPosition ⟨0, 0⟩) (FGAGridMap.New ⟨0, 1, 0, 1⟩ FLT_MAX) []
        (openGrid 3 3 false) = .checkFailed
      ∧ (dijkstraLoop (openGrid 3 3 false) 1
          (dijkstraInit ((openGrid 3 3 false).GetCellPosition ⟨0, 0⟩) ⟨0, 1, 0, 1⟩ []
            (openGrid 3 3 false))).bind
          (fun s => (pickMin s.sptSet s.dist (FLT_MAX, FCellRef.Default)).map
            (fun p => (p.2, TMap.Find s.sptSet ⟨2, 0⟩))) = .done (⟨1, 1⟩, none)
      ∧ (⟨2, 0⟩ : FCellRef) ∈ FindNeighbors (some (openGrid 3 3 false)) ⟨1, 1⟩
      ∧ FGridBox.IsValidCell ⟨0, 1, 0, 1⟩ ⟨2, 0⟩ = false
      ∧ FGridBox.IsValidCell ⟨0, 1, 0, 1⟩
          ((openGrid 3 3 false).GetCellRef ((openGrid 3 3 false).GetCellPosition ⟨0, 0⟩)
            (openGrid 3 3 false).DefaultClamp) = true
      ∧ (FGridBox.Cells ⟨0, 1, 0, 1⟩).all (fun c => IsCellValid (some (openGrid 3 3 false)) c)
          = true := by
  decide!

/-- C28 at the failing input: on the fully traversable 3 x 3 grid with the whole grid as
window (0..2 on both axes) and the target at the centre of cell (0, 0), after
`EvaluateLayer` with the layer [TargetRange, identity, Replace] the grid map holds values
for the four cells 0..1 x 0..1 only: the traversable window cells (2, 0), (0, 2) and
(2, 2) of column `MaxX` and row `MaxY` have none. -/
theorem EvaluateLayer_3x3_last_row_and_column_unset :
    (UGASpatialComponent.EvaluateLayer (openGrid 3 3 false)
        (openWorld ((openGrid 3 3 false).GetCellPosition ⟨0, 0⟩)) targetRangeLayer
        (FGAGridMap.New (openGrid 3 3 false).WholeBox 0) (openGrid 3 3 false).FreshDistanceMap
        FCellRef.Default).map
        (fun out => (out.1.Values.map Prod.fst, TMap.Find out.1.Values ⟨2, 0⟩,
          TMap.Find out.1.Values ⟨0, 2⟩, TMap.Find out.1.Values ⟨2, 2⟩))
        = .done ([⟨0, 0⟩, ⟨1, 0⟩, ⟨0, 1⟩, ⟨1, 1⟩], none, none, none)
      ∧ (openGrid 3 3 false).WholeBox = ⟨0, 2, 0, 2⟩
      ∧ (openGrid 3 3 false).IsTraversable ⟨2, 0⟩ = true
      ∧ (openGrid 3 3 false).IsTraversable ⟨0, 2⟩ = true
      ∧ (openGrid 3 3 false).IsTraversable ⟨2, 2⟩ = true := by
  decide!

/-- C30 at the failing input: on the grid of the constructor's defaults (100 x 100 cells of
scale 100, identity transform) with the default `SampleDimensions = 8000`, an agent at the
world origin, the centre of the grid, stands in cell (50, 50); the rectangle that
`ChoosePosition` computes is columns 0..39 and rows 0..39 and does not contain that cell.
On the 5 x 1 grid with `SampleDimensions = 100`, an agent at (200, 0, 0) stands in cell
(4, 0) and the rectangle is the single cell (2, 0). -/
theorem ChoosePosition_window_misses_agent :
    (openGrid 100 100 false).GetCellRef ⟨0, 0, 0⟩ false = ⟨50, 50⟩
      ∧ (openGrid 100 100 false).GetCellRef ⟨0, 0, 0⟩ true = ⟨50, 50⟩
      ∧ (openGrid 100 100 false).GridSpaceBoundsToRect2D (QueryBox ⟨0, 0, 0⟩ 8000)
          = (true, ⟨0, 0, 39, 39⟩)
      ∧ (FGridBox.OfRect ((openGrid 100 100 false).GridSpaceBoundsToRect2D
          (QueryBox ⟨0, 0, 0⟩ 8000)).2).IsValidCell ⟨50, 50⟩ = false
      ∧ blockedRow.GetCellRef ⟨200, 0, 0⟩ false = ⟨4, 0⟩
      ∧ blockedRow.GridSpaceBoundsToRect2D (QueryBox ⟨200, 0, 0⟩ 100) = (true, ⟨2, 0, 2, 0⟩)
      ∧ (FGridBox.OfRect (blockedRow.GridSpaceBoundsToRect2D
          (QueryBox ⟨200, 0, 0⟩ 100)).2).IsValidCell ⟨4, 0⟩ = false := by
  decide!

/-! ### Termination of `CameFromToPath` -/

/-- Every cell that `FindNeighbors` returns passes `IsCellValid`. -/
theorem FindNeighbors_IsCellValid (g : AGAGridActor) (u n : FCellRef)
    (h : n ∈ FindNeighbors (some g) u) : IsCellValid (some g) n = true := by
  simp only [FindNeighbors, List.mem_flatMap] at h
  obtain ⟨y, _, x, _, hn⟩ := h
  split at hn
  · simp at hn
  · split at hn
    · rename_i hv
      simp only [List.mem_singleton] at hn
      rw [hn]
      exact hv
    · simp at hn

/-- The relaxation loop keeps every property of the entries of `CameFrom` that holds for
a neighbour paired with its own centre. -/
theorem relax_CameFrom_entries (g : AGAGridActor) (u : FCellRef)
    (P : FCellRef × FVector → Prop) :
    ∀ (ns : List FCellRef) (s s' : DijkstraState),
      (∀ n ∈ ns, P (n, g.GetCellPosition n)) → relax g u ns s = .done s' →
      (∀ p ∈ s.CameFrom, P p) → ∀ p ∈ s'.CameFrom, P p := by
  intro ns
  induction ns with
  | nil =>
    intro s s' _ h hs
    simp only [relax, Run.done.injEq] at h
    rw [← h]
    exact hs
  | cons n ns ih =>
    intro s s' hns h hs
    have hns' : ∀ m ∈ ns, P (m, g.GetCellPosition m) :=
      fun m hm => hns m (List.mem_cons_of_mem _ hm)
    simp only [relax] at h
    cases h1 : TMap.Find s.sptSet n with
    | none => rw [h1] at h; simp at h
    | some b =>
      rw [h1] at h
      cases b with
      | true => exact ih s s' hns' h hs
      | false =>
        simp only at h
        cases h2 : TMap.Find s.dist u with
        | none => rw [h2] at h; simp at h
        | some du =>
          rw [h2] at h
          simp only at h
          by_cases hdu : du = FLT_MAX
          · simp only [hdu, ne_eq, not_true_eq_false, if_false] at h
            exact ih s s' hns' h hs
          · simp only [hdu, ne_eq, not_false_eq_true, if_true] at h
            cases h3 : TMap.Find s.dist n with
            | none => rw [h3] at h; simp at h
            | some d =>
              rw [h3] at h
              simp only at h
              refine ih _ s' hns' h ?_
              intro p hp
              rcases TMap.mem_Add s.CameFrom n (g.GetCellPosition n) p hp with hp' | hp'
              · rw [hp']
                exact hns n (List.mem_cons_self _ _)
              · exact hs p hp'

/-- The main loop keeps every property of the entries of `CameFrom` that holds for a
cell of the grid paired with its own centre. -/
theorem dijkstraLoop_CameFrom_entries (g : AGAGridActor) (P : FCellRef × FVector → Prop)
    (hP : ∀ n, IsCellValid (some g) n = true → P (n, g.GetCellPosition n)) :
    ∀ (count : Nat) (s s' : DijkstraState), dijkstraLoop g count s = .done s' →
      (∀ p ∈ s.CameFrom, P p) → ∀ p ∈ s'.CameFrom, P p := by
  intro count
  induction count with
  | zero =>
    intro s s' h hs
    simp only [dijkstraLoop, Run.done.injEq] at h
    rw [← h]
    exact hs
  | succ n ih =>
    intro s s' h hs
    simp only [dijkstraLoop] at h
    cases h1 : dijkstraStep g s with
    | checkFailed => rw [h1] at h; simp at h
    | outOfFuel => rw [h1] at h; simp at h
    | done t =>
      rw [h1] at h
      simp only at h
      refine ih t s' h ?_
      simp only [dijkstraStep] at h1
      cases h2 : pickMin s.sptSet s.dist (FLT_MAX, FCellRef.Default) with
      | checkFailed => rw [h2] at h1; simp at h1
      | outOfFuel => rw [h2] at h1; simp at h1
      | done p =>
        rw [h2] at h1
        obtain ⟨md, v⟩ := p
        simp only at h1
        cases h3 : TMap.Find s.sptSet v with
        | none => rw [h3] at h1; simp at h1
        | some b =>
          rw [h3] at h1
          simp only at h1
          exact relax_CameFrom_entries g v P _ _ t
            (fun m hm => hP m (FindNeighbors_IsCellValid g v m hm)) h1 hs

/-- For every grid, window and start point: the map that `dijkstra` fills, starting from
an empty one, has no entry for the default (Invalid) cell. -/
theorem dijkstra_CameFrom_no_default_entry (g : AGAGridActor) (StartPoint : FVector)
    (DistanceMap : FGAGridMap) (out : FGAGridMap × TMap FCellRef FVector)
    (h : dijkstra StartPoint DistanceMap [] g = .done out) :
    TMap.Find out.2 FCellRef.Default = none := by
  simp only [dijkstra] at h
  cases h1 : dijkstraLoop g (dijkstraPasses DistanceMap.GridBounds)
      (dijkstraInit StartPoint DistanceMap.GridBounds [] g) with
  | checkFailed => rw [h1] at h; simp at h
  | outOfFuel => rw [h1] at h; simp at h
  | done s =>
    rw [h1] at h
    simp only [Run.done.injEq] at h
    have hkeys := dijkstraLoop_CameFrom_entries g
      (fun p => IsCellValid (some g) p.1 = true) (fun n hn => hn) _ _ s h1
      (by intro p hp; simp [dijkstraInit] at hp)
    rw [← h]
    cases hF : TMap.Find s.CameFrom FCellRef.Default with
    | none => rfl
    | some v =>
      have hv := hkeys _ (TMap.mem_of_Find _ _ _ hF)
      simp [IsCellValid, FCellRef.Default, FCellRef.Invalid, INDEX_NONE] at hv

/-! ### The evaluator touches traversable cells only -/

/-- `TMap.Add` at one key leaves the other keys as they are. -/
theorem TMap.Find_Add_ne {K V : Type} [DecidableEq K] :
    ∀ (m : TMap K V) (c k : K) (v : V), k ≠ c → TMap.Find (TMap.Add m c v) k = TMap.Find m k := by
  intro m
  induction m with
  | nil =>
    intro c k v hk
    simp [TMap.Add, TMap.Find, Ne.symm hk]
  | cons p m ih =>
    intro c k v hk
    obtain ⟨k', v'⟩ := p
    by_cases hc : k' = c
    · subst hc
      simp [TMap.Add, TMap.Find, Ne.symm hk]
    · by_cases hkk : k' = k
      · subst hkk
        simp [TMap.Add, TMap.Find, hc]
      · simp [TMap.Add, TMap.Find, hc, hkk, ih c k v hk]

/-- The combination step changes the grid map at the cell at most: bounds, default and
the values of the other cells stay. -/
theorem layerCombine_frame (Layer : FFunctionLayer) (GridMap : FGAGridMap) (c : FCellRef)
    (v : ℚ) :
    (layerCombine Layer GridMap c v).GridBounds = GridMap.GridBounds
      ∧ (layerCombine Layer GridMap c v).DefaultValue = GridMap.DefaultValue
      ∧ ∀ k, k ≠ c →
          TMap.Find (layerCombine Layer GridMap c v).Values k = TMap.Find GridMap.Values k := by
  have hset : ∀ w : ℚ, (GridMap.SetValue c w).GridBounds = GridMap.GridBounds
      ∧ (GridMap.SetValue c w).DefaultValue = GridMap.DefaultValue
      ∧ ∀ k, k ≠ c → TMap.Find (GridMap.SetValue c w).Values k = TMap.Find GridMap.Values k :=
    fun w => ⟨rfl, rfl, fun k hk => TMap.Find_Add_ne _ _ _ _ hk⟩
  cases hOp : Layer.Op
  · simp only [layerCombine, hOp]
    exact hset _
  · simp only [layerCombine, hOp]
    split
    · exact hset _
    · exact ⟨rfl, rfl, fun k _ => rfl⟩
  · simp only [layerCombine, hOp]
    split
    · exact hset _
    · exact ⟨rfl, rfl, fun k _ => rfl⟩

/-- The body of the loops of `EvaluateLayer` for a cell `c`: a cell without the
traversable flag leaves the state as it is; otherwise the grid map changes at `c` at most
and the best cell stays or becomes `c`. -/
theorem evaluateCell_effect (Layer : FFunctionLayer) (g : AGAGridActor) (World : FWorld)
    (DistanceMap : FGAGridMap) (c : FCellRef) (s s' : EvalState)
    (h : evaluateCell Layer g World DistanceMap c s = .done s') :
    s'.GridMap.GridBounds = s.GridMap.GridBounds
      ∧ s'.GridMap.DefaultValue = s.GridMap.DefaultValue
      ∧ (∀ k, k ≠ c → TMap.Find s'.GridMap.Values k = TMap.Find s.GridMap.Values k)
      ∧ (g.IsTraversable c = false → s' = s)
      ∧ (s'.BestCell = s.BestCell ∨ (s'.BestCell = c ∧ g.IsTraversable c = true)) := by
  simp only [evaluateCell] at h
  cases hd : g.GetCellData c with
  | none => rw [hd] at h; simp at h
  | some d =>
    rw [hd] at h
    simp only at h
    have hfr := layerCombine_frame Layer s.GridMap c
      (Layer.ResponseCurve (layerInput Layer g World DistanceMap c))
    by_cases ht : EnumHasAllFlags d CellDataTraversable = true
    · have htrav : g.IsTraversable c = true := by simp [AGAGridActor.IsTraversable, hd, ht]
      simp only [ht, if_true] at h
      split at h
      · simp only [Run.done.injEq] at h
        rw [← h]
        exact ⟨hfr.1, hfr.2.1, hfr.2.2, by simp [htrav], Or.inr ⟨rfl, htrav⟩⟩
      · simp only [Run.done.injEq] at h
        rw [← h]
        exact ⟨hfr.1, hfr.2.1, hfr.2.2, by simp [htrav], Or.inl rfl⟩
    · simp only [ht, if_false] at h
      simp only [Bool.false_eq_true, if_false, Run.done.injEq] at h
      rw [← h]
      exact ⟨rfl, rfl, fun _ _ => rfl, fun _ => rfl, Or.inl rfl⟩

/-- The loops of `EvaluateLayer` over a list of cells: the values of the cells without
the traversable flag stay, and the best cell stays or becomes a traversable cell of the
list. -/
theorem evaluateCells_effect (Layer : FFunctionLayer) (g : AGAGridActor) (World : FWorld)
    (DistanceMap : FGAGridMap) :
    ∀ (cs : List FCellRef) (s s' : EvalState),
      evaluateCells Layer g World DistanceMap cs s = .done s' →
      s'.GridMap.GridBounds = s.GridMap.GridBounds
        ∧ s'.GridMap.DefaultValue = s.GridMap.DefaultValue
        ∧ (∀ k, g.IsTraversable k = false →
            TMap.Find s'.GridMap.Values k = TMap.Find s.GridMap.Values k)
        ∧ (s'.BestCell = s.BestCell
            ∨ (s'.BestCell ∈ cs ∧ g.IsTraversable s'.BestCell = true)) := by
  intro cs
  induction cs with
  | nil =>
    intro s s' h
    simp only [evaluateCells, Run.done.injEq] at h
    rw [← h]
    exact ⟨rfl, rfl, fun _ _ => rfl, Or.inl rfl⟩
  | cons c cs ih =>
    intro s s' h
    simp only [evaluateCells] at h
    cases h1 : evaluateCell Layer g World DistanceMap c s with
    | checkFailed => rw [h1] at h; simp at h
    | outOfFuel => rw [h1] at h; simp at h
    | done t =>
      rw [h1] at h
      simp only at h
      have e1 := evaluateCell_effect Layer g World DistanceMap c s t h1
      have e2 := ih t s' h
      refine ⟨e2.1.trans e1.1, e2.2.1.trans e1.2.1, ?_, ?_⟩
      · intro k hk
        rw [e2.2.2.1 k hk]
        by_cases hkc : k = c
        · subst hkc
          rw [e1.2.2.2.1 hk]
        · exact e1.2.2.1 k hkc
      · rcases e2.2.2.2 with hb | ⟨hm, ht⟩
        · rcases e1.2.2.2.2 with hb1 | ⟨hb1, ht1⟩
          · exact Or.inl (hb.trans hb1)
          · refine Or.inr ⟨?_, ?_⟩
            · rw [hb, hb1]
              exact List.mem_cons_self _ _
            · rw [hb, hb1]
              exact ht1
        · exact Or.inr ⟨List.mem_cons_of_mem _ hm, ht⟩

/-- Every cell the loops of `EvaluateLayer` visit lies in the window. -/
theorem EvaluatedCells_IsValidCell (b : FGridBox) (c : FCellRef) (h : c ∈ b.EvaluatedCells) :
    b.IsValidCell c = true := by
  obtain ⟨dy, hdy, hrow⟩ := List.mem_flatMap.mp h
  obtain ⟨dx, hdx, hc⟩ := List.mem_map.mp hrow
  have hy := Int.lt_toNat.mp (List.mem_range.mp hdy)
  have hy0 : (0 : Int) ≤ (dy : Int) := Int.ofNat_nonneg dy
  simp at hdx
  obtain ⟨a, hx, hax⟩ := hdx
  have hx0 : (0 : Int) ≤ (a : Int) := Int.ofNat_nonneg a
  rw [← hc, hax]
  simp only [FGridBox.IsValidCell, decide_eq_true_eq]
  omega

/-- C29: for every grid, layer, window, distance map and prior best cell: when
`EvaluateLayer` returns, every cell without the traversable flag has the value it had
before (none was written for it, and `GetValue` reports what it reported), and if the best
cell changed, the new best cell has the traversable flag and lies in the window. -/
theorem EvaluateLayer_traversable_only (g : AGAGridActor) (World : FWorld)
    (Layer : FFunctionLayer) (GridMap DistanceMap : FGAGridMap) (BestCell : FCellRef)
    (out : FGAGridMap × FCellRef)
    (h : UGASpatialComponent.EvaluateLayer g World Layer GridMap DistanceMap BestCell
      = .done out) :
    (∀ c, g.IsTraversable c = false →
        TMap.Find out.1.Values c = TMap.Find GridMap.Values c
          ∧ out.1.GetValue c = GridMap.GetValue c)
      ∧ (out.2 ≠ BestCell →
          g.IsTraversable out.2 = true ∧ GridMap.GridBounds.IsValidCell out.2 = true) := by
  simp only [UGASpatialComponent.EvaluateLayer] at h
  cases h1 : evaluateCells Layer g World DistanceMap GridMap.GridBounds.EvaluatedCells
      ⟨GridMap, -FLT_MAX, BestCell⟩ with
  | checkFailed => rw [h1] at h; simp at h
  | outOfFuel => rw [h1] at h; simp at h
  | done s =>
    rw [h1] at h
    simp only [Run.done.injEq] at h
    have e := evaluateCells_effect Layer g World DistanceMap _ _ s h1
    rw [← h]
    refine ⟨?_, ?_⟩
    · intro c hc
      refine ⟨e.2.2.1 c hc, ?_⟩
      simp only [FGAGridMap.GetValue, e.1, e.2.1, e.2.2.1 c hc]
    · intro hne
      rcases e.2.2.2 with hb | ⟨hm, ht⟩
      · exact absurd hb hne
      · exact ⟨ht, EvaluatedCells_IsValidCell _ _ hm⟩

/-- C29 at a concrete input: the 3 x 3 grid whose cell (1, 0) is not traversable, the whole
grid as window, the target at the centre of cell (0, 0), the layer
[TargetRange, identity, Replace] and no best cell before: the run returns, cell (1, 0)
keeps having no value and the best cell becomes a traversable cell of the window. -/
theorem EvaluateLayer_traversable_only_witness :
    ∃ out, UGASpatialComponent.EvaluateLayer pillarGrid (openWorld ⟨-100, -100, 0⟩)
        targetRangeLayer (FGAGridMap.New pillarGrid.WholeBox 0) pillarGrid.FreshDistanceMap
        FCellRef.Default = .done out
      ∧ TMap.Find out.1.Values ⟨1, 0⟩ = none
      ∧ out.2 ≠ FCellRef.Default
      ∧ pillarGrid.IsTraversable out.2 = true
      ∧ pillarGrid.WholeBox.IsValidCell out.2 = true := by
  cases h : UGASpatialComponent.EvaluateLayer pillarGrid (openWorld ⟨-100, -100, 0⟩)
      targetRangeLayer (FGAGridMap.New pillarGrid.WholeBox 0) pillarGrid.FreshDistanceMap
      FCellRef.Default with
  | checkFailed => exact absurd h (by decide!)
  | outOfFuel => exact absurd h (by decide!)
  | done out =>
    have hne : out.2 ≠ FCellRef.Default := by
      intro hc
      have h2 : (UGASpatialComponent.EvaluateLayer pillarGrid (openWorld ⟨-100, -100, 0⟩)
          targetRangeLayer (FGAGridMap.New pillarGrid.WholeBox 0) pillarGrid.FreshDistanceMap
          FCellRef.Default).map Prod.snd = .done FCellRef.Default := by
        rw [h, ← hc]
        rfl
      exact absurd h2 (by decide!)
    have hthm := EvaluateLayer_traversable_only pillarGrid (openWorld ⟨-100, -100, 0⟩)
      targetRangeLayer (FGAGridMap.New pillarGrid.WholeBox 0) pillarGrid.FreshDistanceMap
      FCellRef.Default out h
    exact ⟨out, rfl, (hthm.1 ⟨1, 0⟩ (by decide)).1, hne, (hthm.2 hne).1, (hthm.2 hne).2⟩

/-- On a grid whose array has `XCount * YCount` entries, every cell inside the grid has
data. -/
theorem GetCellData_inside (g : AGAGridActor)
    (hlen : (g.Data.length : Int) = g.XCount * g.YCount) (c : FCellRef)
    (hx0 : 0 ≤ c.X) (hx1 : c.X < g.XCount) (hy0 : 0 ≤ c.Y) (hy1 : c.Y < g.YCount) :
    ∃ d, g.GetCellData c = some d := by
  have hidx0 : 0 ≤ c.Y * g.XCount + c.X := by
    have : 0 ≤ c.Y * g.XCount := mul_nonneg hy0 (by omega)
    omega
  have hidx1 : c.Y * g.XCount + c.X < g.XCount * g.YCount := by
    have h1 : c.Y * g.XCount ≤ (g.YCount - 1) * g.XCount :=
      mul_le_mul_of_nonneg_right (by omega) (by omega)
    have h2 : (g.YCount - 1) * g.XCount = g.XCount * g.YCount - g.XCount := by ring
    omega
  have hlt : (c.Y * g.XCount + c.X).toNat < g.Data.length := by
    have := Int.toNat_of_nonneg hidx0
    omega
  refine ⟨g.Data.get ⟨_, hlt⟩, ?_⟩
  simp only [AGAGridActor.GetCellData, AGAGridActor.CellRefToIndex, hidx0, if_true]
  exact List.get?_eq_get hlt

/-- On a grid whose array has `XCount * YCount` entries, `EvaluateLayer` returns for every
window that lies inside the grid. -/
theorem EvaluateLayer_returns (g : AGAGridActor)
    (hlen : (g.Data.length : Int) = g.XCount * g.YCount) (World : FWorld)
    (Layer : FFunctionLayer) (GridMap DistanceMap : FGAGridMap) (BestCell : FCellRef)
    (hminx : 0 ≤ GridMap.GridBounds.MinX) (hmaxx : GridMap.GridBounds.MaxX ≤ g.XCount - 1)
    (hminy : 0 ≤ GridMap.GridBounds.MinY) (hmaxy : GridMap.GridBounds.MaxY ≤ g.YCount - 1) :
    ∃ out, UGASpatialComponent.EvaluateLayer g World Layer GridMap DistanceMap BestCell
      = .done out := by
  have hcells : ∀ (cs : List FCellRef),
      (∀ c ∈ cs, GridMap.GridBounds.IsValidCell c = true) →
      ∀ s : EvalState, ∃ s', evaluateCells Layer g World DistanceMap cs s = .done s' := by
    intro cs
    induction cs with
    | nil => intro _ s; exact ⟨s, rfl⟩
    | cons c cs ih =>
      intro hcs s
      have hc := hcs c (List.mem_cons_self _ _)
      simp only [FGridBox.IsValidCell, decide_eq_true_eq] at hc
      obtain ⟨d, hd⟩ := GetCellData_inside g hlen c (by omega) (by omega) (by omega) (by omega)
      have hcell : ∃ t, evaluateCell Layer g World DistanceMap c s = .done t := by
        simp only [evaluateCell, hd]
        split
        · split
          · exact ⟨_, rfl⟩
          · exact ⟨_, rfl⟩
        · exact ⟨_, rfl⟩
      obtain ⟨t, ht⟩ := hcell
      obtain ⟨s', hs'⟩ := ih (fun k hk => hcs k (List.mem_cons_of_mem _ hk)) t
      exact ⟨s', by simp only [evaluateCells, ht, hs']⟩
  obtain ⟨s', hs'⟩ := hcells GridMap.GridBounds.EvaluatedCells
    (fun c hc => EvaluatedCells_IsValidCell _ c hc) ⟨GridMap, -FLT_MAX, BestCell⟩
  exact ⟨(s'.GridMap, s'.BestCell), by simp only [UGASpatialComponent.EvaluateLayer, hs']⟩

/-! ### The neighbours of a cell -/

/-- The list `FindNeighbors` builds: the eight cells around `u`, row by row, each kept
when it lies inside the grid. -/
theorem FindNeighbors_unfold (g : AGAGridActor) (u : FCellRef) :
    FindNeighbors (some g) u
      = ([⟨u.X - 1, u.Y - 1⟩, ⟨u.X, u.Y - 1⟩, ⟨u.X + 1, u.Y - 1⟩, ⟨u.X - 1, u.Y⟩,
          ⟨u.X + 1, u.Y⟩, ⟨u.X - 1, u.Y + 1⟩, ⟨u.X, u.Y + 1⟩, ⟨u.X + 1, u.Y + 1⟩] :
            List FCellRef).filter (IsCellValid (some g)) := by
  have hf : ∀ a : FCellRef, (if IsCellValid (some g) a = true then [a] else [])
      = [a].filter (IsCellValid (some g)) := by
    intro a
    by_cases h : IsCellValid (some g) a = true
    · simp [h]
    · simp [h]
  have hc : ([⟨u.X - 1, u.Y - 1⟩, ⟨u.X, u.Y - 1⟩, ⟨u.X + 1, u.Y - 1⟩, ⟨u.X - 1, u.Y⟩,
          ⟨u.X + 1, u.Y⟩, ⟨u.X - 1, u.Y + 1⟩, ⟨u.X, u.Y + 1⟩, ⟨u.X + 1, u.Y + 1⟩] :
            List FCellRef)
      = [⟨u.X - 1, u.Y - 1⟩] ++ ([⟨u.X, u.Y - 1⟩] ++ ([⟨u.X + 1, u.Y - 1⟩] ++ ([⟨u.X - 1, u.Y⟩]
          ++ ([⟨u.X + 1, u.Y⟩] ++ ([⟨u.X - 1, u.Y + 1⟩] ++ ([⟨u.X, u.Y + 1⟩]
          ++ [⟨u.X + 1, u.Y + 1⟩])))))) := rfl
  rw [hc]
  simp only [List.filter_append, ← hf]
  simp [FindNeighbors, sub_eq_add_neg]

/-- The eight cells around `u` are the cells at Chebyshev distance 1 from `u`. -/
theorem mem_ring_iff (u v : FCellRef) :
    v ∈ ([⟨u.X - 1, u.Y - 1⟩, ⟨u.X, u.Y - 1⟩, ⟨u.X + 1, u.Y - 1⟩, ⟨u.X - 1, u.Y⟩,
          ⟨u.X + 1, u.Y⟩, ⟨u.X - 1, u.Y + 1⟩, ⟨u.X, u.Y + 1⟩, ⟨u.X + 1, u.Y + 1⟩] :
            List FCellRef)
      ↔ u.ChebyshevDistance v = 1 := by
  obtain ⟨vx, vy⟩ := v
  simp only [List.mem_cons, FCellRef.mk.injEq, List.mem_singleton, List.not_mem_nil, or_false,
    FCellRef.ChebyshevDistance]
  constructor
  · intro h
    have hx : |vx - u.X| ≤ 1 := abs_le.mpr (by omega)
    have hy : |vy - u.Y| ≤ 1 := abs_le.mpr (by omega)
    have h1 : |vx - u.X| = 1 ∨ |vy - u.Y| = 1 := by
      rcases h with h | h | h | h | h | h | h | h
      · left; rw [abs_eq (by norm_num)]; omega
      · right; rw [abs_eq (by norm_num)]; omega
      · left; rw [abs_eq (by norm_num)]; omega
      · left; rw [abs_eq (by norm_num)]; omega
      · left; rw [abs_eq (by norm_num)]; omega
      · left; rw [abs_eq (by norm_num)]; omega
      · right; rw [abs_eq (by norm_num)]; omega
      · left; rw [abs_eq (by norm_num)]; omega
    rcases h1 with h1 | h1
    · rw [h1]; exact max_eq_left hy
    · rw [h1]; exact max_eq_right hx
  · intro h
    have hx : |vx - u.X| ≤ 1 := h ▸ le_max_left _ _
    have hy : |vy - u.Y| ≤ 1 := h ▸ le_max_right _ _
    have hx' := abs_le.mp hx
    have hy' := abs_le.mp hy
    have hne : ¬ (vx - u.X = 0 ∧ vy - u.Y = 0) := by
      rintro ⟨h0, h1⟩
      rw [h0, h1] at h
      simp at h
    omega

/-- The eight cells around a cell are pairwise different. -/
theorem ring_nodup (u : FCellRef) :
    ([⟨u.X - 1, u.Y - 1⟩, ⟨u.X, u.Y - 1⟩, ⟨u.X + 1, u.Y - 1⟩, ⟨u.X - 1, u.Y⟩,
          ⟨u.X + 1, u.Y⟩, ⟨u.X - 1, u.Y + 1⟩, ⟨u.X, u.Y + 1⟩, ⟨u.X + 1, u.Y + 1⟩] :
            List FCellRef).Nodup := by
  simp only [List.nodup_cons, List.mem_cons, FCellRef.mk.injEq, List.mem_singleton,
    List.not_mem_nil, or_false, List.nodup_nil, not_false_eq_true, and_true]
  omega

/-- C31: for every grid and every cell `u`, `FindNeighbors` returns exactly the cells `v`
inside the grid with `max(|v.X - u.X|, |v.Y - u.Y|) = 1` (diagonals included): at most 8
cells, without duplicates, never `u` itself; and for cells `u` and `v` inside the grid,
`v` is a neighbour of `u` if and only if `u` is a neighbour of `v`. -/
theorem FindNeighbors_chebyshev (g : AGAGridActor) (u : FCellRef) :
    (∀ v, v ∈ FindNeighbors (some g) u
        ↔ IsCellValid (some g) v = true ∧ u.ChebyshevDistance v = 1)
      ∧ (FindNeighbors (some g) u).length ≤ 8
      ∧ (FindNeighbors (some g) u).Nodup
      ∧ u ∉ FindNeighbors (some g) u
      ∧ (∀ v, IsCellValid (some g) u = true → IsCellValid (some g) v = true →
          (v ∈ FindNeighbors (some g) u ↔ u ∈ FindNeighbors (some g) v)) := by
  have hmem : ∀ a b : FCellRef, b ∈ FindNeighbors (some g) a
      ↔ IsCellValid (some g) b = true ∧ a.ChebyshevDistance b = 1 := by
    intro a b
    rw [FindNeighbors_unfold, List.mem_filter, mem_ring_iff]
    exact and_comm
  have hsymm : ∀ a b : FCellRef, a.ChebyshevDistance b = b.ChebyshevDistance a := by
    intro a b
    simp only [FCellRef.ChebyshevDistance, abs_sub_comm]
  refine ⟨hmem u, ?_, ?_, ?_, ?_⟩
  · rw [FindNeighbors_unfold]
    exact le_trans (List.length_filter_le _ _) (le_of_eq rfl)
  · rw [FindNeighbors_unfold]
    exact (ring_nodup u).filter _
  · intro h
    have h1 := ((hmem u u).mp h).2
    simp [FCellRef.ChebyshevDistance] at h1
  · intro v hu hv
    rw [hmem u v, hmem v u, hsymm u v]
    simp [hu, hv]

/-- C31 at concrete inputs: on the 3 x 3 grid the centre cell has the 8 other cells as
neighbours, and the corner cell (0, 0) has 3, the diagonal cell (1, 1) among them. -/
theorem FindNeighbors_chebyshev_witness :
    FindNeighbors (some (openGrid 3 3 false)) ⟨1, 1⟩
        = [⟨0, 0⟩, ⟨1, 0⟩, ⟨2, 0⟩, ⟨0, 1⟩, ⟨2, 1⟩, ⟨0, 2⟩, ⟨1, 2⟩, ⟨2, 2⟩]
      ∧ FindNeighbors (some (openGrid 3 3 false)) ⟨0, 0⟩ = [⟨1, 0⟩, ⟨0, 1⟩, ⟨1, 1⟩]
      ∧ (⟨1, 1⟩ ∈ FindNeighbors (some (openGrid 3 3 false)) ⟨0, 0⟩
          ↔ ⟨0, 0⟩ ∈ FindNeighbors (some (openGrid 3 3 false)) ⟨1, 1⟩) :=
  ⟨by decide, by decide,
    (FindNeighbors_chebyshev (openGrid 3 3 false) ⟨0, 0⟩).2.2.2.2 ⟨1, 1⟩ (by decide) (by decide)⟩

/-! ### Layer-by-layer sweeps and cell-by-cell evaluation -/

/-- A cell that has data: the body of the loops of `EvaluateLayer` returns, with the grid
map `cellStep` gives. -/
theorem evaluateCell_of_data (Layer : FFunctionLayer) (g : AGAGridActor) (World : FWorld)
    (DistanceMap : FGAGridMap) (c : FCellRef) (s : EvalState) (d : Nat)
    (hd : g.GetCellData c = some d) :
    ∃ s', evaluateCell Layer g World DistanceMap c s = .done s'
      ∧ s'.GridMap = cellStep Layer g World DistanceMap c s.GridMap := by
  simp only [evaluateCell, hd, cellStep, AGAGridActor.IsTraversable]
  split
  · split
    · exact ⟨_, rfl, rfl⟩
    · exact ⟨_, rfl, rfl⟩
  · exact ⟨_, rfl, rfl⟩

/-- A cell that has no data: the body of the loops of `EvaluateLayer` fails its check. -/
theorem evaluateCell_no_data (Layer : FFunctionLayer) (g : AGAGridActor) (World : FWorld)
    (DistanceMap : FGAGridMap) (c : FCellRef) (s : EvalState)
    (hd : g.GetCellData c = none) :
    evaluateCell Layer g World DistanceMap c s = .checkFailed := by
  simp only [evaluateCell, hd]

/-- The step for one cell keeps the window and the default of the grid map. -/
theorem cellStep_bounds (Layer : FFunctionLayer) (g : AGAGridActor) (World : FWorld)
    (DistanceMap : FGAGridMap) (c : FCellRef) (GridMap : FGAGridMap) :
    (cellStep Layer g World DistanceMap c GridMap).GridBounds = GridMap.GridBounds
      ∧ (cellStep Layer g World DistanceMap c GridMap).DefaultValue = GridMap.DefaultValue := by
  simp only [cellStep]
  split
  · exact ⟨(layerCombine_frame _ _ _ _).1, (layerCombine_frame _ _ _ _).2.1⟩
  · exact ⟨rfl, rfl⟩

/-- The combination step at `k` reads the grid map at `k` only. -/
theorem layerCombine_congr (Layer : FFunctionLayer) (a b : FGAGridMap) (k : FCellRef) (v : ℚ)
    (h : FGAGridMap.AgreeAt k a b) :
    FGAGridMap.AgreeAt k (layerCombine Layer a k v) (layerCombine Layer b k v) := by
  obtain ⟨hb, hd, hf⟩ := h
  have hset : ∀ w : ℚ, FGAGridMap.AgreeAt k (a.SetValue k w) (b.SetValue k w) := by
    intro w
    refine ⟨hb, hd, ?_⟩
    simp only [FGAGridMap.SetValue, TMap.Find_Add_self]
  have hget : a.GetValue k = b.GetValue k := by
    simp only [FGAGridMap.GetValue, hb, hd, hf]
  cases hOp : Layer.Op
  · simp only [layerCombine, hOp]
    exact hset _
  · simp only [layerCombine, hOp, hget]
    split
    · exact hset _
    · exact ⟨hb, hd, hf⟩
  · simp only [layerCombine, hOp, hget]
    split
    · exact hset _
    · exact ⟨hb, hd, hf⟩

/-- The step for the cell `c` is local: at another cell `k` it changes nothing, and at
`c` itself its result depends on the grid map at `c` only. -/
theorem cellStep_local (Layer : FFunctionLayer) (g : AGAGridActor) (World : FWorld)
    (DistanceMap : FGAGridMap) (c k : FCellRef) (a b : FGAGridMap)
    (h : FGAGridMap.AgreeAt k a b) :
    FGAGridMap.AgreeAt k (cellStep Layer g World DistanceMap c a)
      (if c = k then cellStep Layer g World DistanceMap k b else b) := by
  by_cases hck : c = k
  · subst hck
    simp only [if_true, cellStep]
    split
    · exact layerCombine_congr _ _ _ _ _ h
    · exact h
  · simp only [hck, if_false, cellStep]
    split
    · have hfr := layerCombine_frame Layer a c
        (Layer.ResponseCurve (layerInput Layer g World DistanceMap c))
      exact ⟨hfr.1.trans h.1, hfr.2.1.trans h.2.1,
        (hfr.2.2 k (fun hkc => hck hkc.symm)).trans h.2.2⟩
    · exact h

/-- The loops of `EvaluateLayer` visit no cell twice. -/
theorem EvaluatedCells_nodup (b : FGridBox) : b.EvaluatedCells.Nodup := by
  unfold FGridBox.EvaluatedCells
  rw [List.nodup_flatMap]
  refine ⟨?_, ?_⟩
  · intro dy _
    refine List.Nodup.map ?_ ?_
    · intro x y hxy
      simp only [FCellRef.mk.injEq] at hxy
      omega
    · have h : ((List.range (b.MaxX - b.MinX).toNat).map (fun a : Nat => (a : Int))).Nodup :=
        List.Nodup.map (fun x y hxy => by exact_mod_cast hxy) (List.nodup_range _)
      simp only [bind_pure_comp, List.map_eq_map] at h ⊢
      exact h
  · refine List.Pairwise.imp ?_ (List.nodup_range _)
    intro dy dy' hne
    simp only [Function.onFun]
    intro c h1 h2
    obtain ⟨x1, _, e1⟩ := List.mem_map.mp h1
    obtain ⟨x2, _, e2⟩ := List.mem_map.mp h2
    rw [← e2] at e1
    simp only [FCellRef.mk.injEq] at e1
    omega

/-- Agreement at a cell is symmetric. -/
theorem FGAGridMap.AgreeAt_symm (k : FCellRef) (a b : FGAGridMap)
    (h : FGAGridMap.AgreeAt k a b) : FGAGridMap.AgreeAt k b a :=
  ⟨h.1.symm, h.2.1.symm, h.2.2.symm⟩

/-- Agreement at a cell is transitive. -/
theorem FGAGridMap.AgreeAt_trans (k : FCellRef) (a b c : FGAGridMap)
    (h1 : FGAGridMap.AgreeAt k a b) (h2 : FGAGridMap.AgreeAt k b c) :
    FGAGridMap.AgreeAt k a c :=
  ⟨h1.1.trans h2.1, h1.2.1.trans h2.2.1, h1.2.2.trans h2.2.2⟩

/-- Grid maps that agree at a cell report the same for it. -/
theorem FGAGridMap.AgreeAt_GetValue (k : FCellRef) (a b : FGAGridMap)
    (h : FGAGridMap.AgreeAt k a b) : a.GetValue k = b.GetValue k := by
  simp only [FGAGridMap.GetValue, h.1, h.2.1, h.2.2]

/-- A local step swept over a list of different cells: at the cell `k` the result is the
step for `k` alone when `k` is in the list, and nothing otherwise. -/
theorem LocalStep_sweep (f : FCellRef → FGAGridMap → FGAGridMap) (hf : LocalStep f)
    (k : FCellRef) :
    ∀ (cells : List FCellRef), cells.Nodup → ∀ a b : FGAGridMap, FGAGridMap.AgreeAt k a b →
      FGAGridMap.AgreeAt k (cells.foldl (fun m c => f c m) a)
        (if k ∈ cells then f k b else b) := by
  intro cells
  induction cells with
  | nil => intro _ a b h; simpa using h
  | cons c cs ih =>
    intro hnd a b h
    have hc := (List.nodup_cons.mp hnd)
    simp only [List.foldl_cons]
    have h1 := hf c k a b h
    by_cases hck : c = k
    · subst hck
      simp only [if_true] at h1
      have h2 := ih hc.2 _ _ h1
      simp only [hc.1, if_false] at h2
      simpa using h2
    · simp only [hck, if_false] at h1
      have h2 := ih hc.2 _ _ h1
      have hmem : (k ∈ c :: cs) ↔ k ∈ cs := by
        constructor
        · intro hk
          rcases List.mem_cons.mp hk with hk | hk
          · exact absurd hk.symm hck
          · exact hk
        · exact List.mem_cons_of_mem _
      simpa only [hmem] using h2

/-- The step of `EvaluateLayer` for one cell is local. -/
theorem cellStep_LocalStep (Layer : FFunctionLayer) (g : AGAGridActor) (World : FWorld)
    (DistanceMap : FGAGridMap) : LocalStep (cellStep Layer g World DistanceMap) :=
  fun c k a b h => cellStep_local Layer g World DistanceMap c k a b h

/-- All the layers folded over one cell make a local step. -/
theorem layers_LocalStep (g : AGAGridActor) (World : FWorld) (DistanceMap : FGAGridMap) :
    ∀ Layers : List FFunctionLayer,
      LocalStep fun c m => Layers.foldl (fun m L => cellStep L g World DistanceMap c m) m := by
  intro Layers
  induction Layers with
  | nil => intro c k a b h; simpa using h
  | cons L rest ih =>
    intro c k a b h
    simp only [List.foldl_cons]
    have h1 := cellStep_local L g World DistanceMap c k a b h
    by_cases hck : c = k
    · subst hck
      simp only [if_true] at h1 ⊢
      have h2 := ih c c _ _ h1
      simpa using h2
    · simp only [hck, if_false] at h1 ⊢
      have h2 := ih c k _ _ h1
      simpa only [hck, if_false] using h2

/-- The layer-by-layer sweeps over a list of different cells: at the cell `k` the result
is all the layers folded over `k` alone when `k` is in the list, and nothing otherwise. -/
theorem sweeps_at (g : AGAGridActor) (World : FWorld) (DistanceMap : FGAGridMap)
    (cells : List FCellRef) (hnd : cells.Nodup) (k : FCellRef) :
    ∀ (Layers : List FFunctionLayer) (a b : FGAGridMap), FGAGridMap.AgreeAt k a b →
      FGAGridMap.AgreeAt k
        (Layers.foldl (fun m L => cells.foldl (fun m c => cellStep L g World DistanceMap c m) m) a)
        (if k ∈ cells then Layers.foldl (fun m L => cellStep L g World DistanceMap k m) b
          else b) := by
  intro Layers
  induction Layers with
  | nil => intro a b h; simpa using h
  | cons L rest ih =>
    intro a b h
    simp only [List.foldl_cons]
    have h1 := LocalStep_sweep _ (cellStep_LocalStep L g World DistanceMap) k cells hnd a b h
    by_cases hk : k ∈ cells
    · simp only [hk, if_true] at h1 ⊢
      have h2 := ih _ _ h1
      simpa only [hk, if_true] using h2
    · simp only [hk, if_false] at h1 ⊢
      have h2 := ih _ _ h1
      simpa only [hk, if_false] using h2

/-- A sweep of the step of one layer keeps the window of the grid map. -/
theorem sweep_bounds (Layer : FFunctionLayer) (g : AGAGridActor) (World : FWorld)
    (DistanceMap : FGAGridMap) :
    ∀ (cells : List FCellRef) (m : FGAGridMap),
      (cells.foldl (fun m c => cellStep Layer g World DistanceMap c m) m).GridBounds
        = m.GridBounds := by
  intro cells
  induction cells with
  | nil => intro m; rfl
  | cons c cs ih =>
    intro m
    simp only [List.foldl_cons]
    rw [ih, (cellStep_bounds Layer g World DistanceMap c m).1]

/-- When every cell of the list has data, the loops of `EvaluateLayer` return and leave
the grid map the sweep of `cellStep` gives. -/
theorem evaluateCells_of_data (Layer : FFunctionLayer) (g : AGAGridActor) (World : FWorld)
    (DistanceMap : FGAGridMap) :
    ∀ (cells : List FCellRef), (∀ c ∈ cells, g.GetCellData c ≠ none) → ∀ s : EvalState,
      ∃ s', evaluateCells Layer g World DistanceMap cells s = .done s'
        ∧ s'.GridMap = cells.foldl (fun m c => cellStep Layer g World DistanceMap c m) s.GridMap := by
  intro cells
  induction cells with
  | nil => intro _ s; exact ⟨s, rfl, rfl⟩
  | cons c cs ih =>
    intro hD s
    obtain ⟨d, hd⟩ := Option.ne_none_iff_exists'.mp (hD c (List.mem_cons_self _ _))
    obtain ⟨t, ht, htm⟩ := evaluateCell_of_data Layer g World DistanceMap c s d hd
    obtain ⟨s', hs', hsm⟩ := ih (fun k hk => hD k (List.mem_cons_of_mem _ hk)) t
    refine ⟨s', by simp only [evaluateCells, ht, hs'], ?_⟩
    simp only [List.foldl_cons]
    rw [hsm, htm]

/-- When a cell of the list has no data, the loops of `EvaluateLayer` fail a check. -/
theorem evaluateCells_no_data (Layer : FFunctionLayer) (g : AGAGridActor) (World : FWorld)
    (DistanceMap : FGAGridMap) :
    ∀ (cells : List FCellRef), (∃ c ∈ cells, g.GetCellData c = none) → ∀ s : EvalState,
      evaluateCells Layer g World DistanceMap cells s = .checkFailed := by
  intro cells
  induction cells with
  | nil => intro h; obtain ⟨c, hc, _⟩ := h; simp at hc
  | cons c cs ih =>
    intro h s
    cases hd : g.GetCellData c with
    | none => simp only [evaluateCells, evaluateCell_no_data Layer g World DistanceMap c s hd]
    | some d =>
      obtain ⟨t, ht, _⟩ := evaluateCell_of_data Layer g World DistanceMap c s d hd
      obtain ⟨k, hk, hkd⟩ := h
      rcases List.mem_cons.mp hk with hk | hk
      · rw [hk, hd] at hkd
        simp at hkd
      · simp only [evaluateCells, ht]
        exact ih ⟨k, hk, hkd⟩ t

/-- When every cell the loops visit has data, the loop over the layers returns and leaves
the grid map the sweeps of `cellStep` give, layer by layer. -/
theorem evaluateLayers_of_data (g : AGAGridActor) (World : FWorld) (DistanceMap : FGAGridMap)
    (B : FGridBox) (hD : ∀ c ∈ B.EvaluatedCells, g.GetCellData c ≠ none) :
    ∀ (Layers : List FFunctionLayer) (GridMap : FGAGridMap) (BestCell : FCellRef),
      GridMap.GridBounds = B →
      ∃ Best, evaluateLayers g World DistanceMap Layers (GridMap, BestCell)
        = .done (Layers.foldl (fun m L =>
            B.EvaluatedCells.foldl (fun m c => cellStep L g World DistanceMap c m) m) GridMap,
          Best) := by
  intro Layers
  induction Layers with
  | nil => intro GridMap BestCell _; exact ⟨BestCell, rfl⟩
  | cons L rest ih =>
    intro GridMap BestCell hB
    obtain ⟨s', hs', hsm⟩ := evaluateCells_of_data L g World DistanceMap B.EvaluatedCells hD
      ⟨GridMap, -FLT_MAX, BestCell⟩
    have hB' : s'.GridMap.GridBounds = B := by
      rw [hsm, sweep_bounds]
      exact hB
    obtain ⟨Best, hBest⟩ := ih s'.GridMap s'.BestCell hB'
    refine ⟨Best, ?_⟩
    simp only [evaluateLayers, UGASpatialComponent.EvaluateLayer, hB, hs', List.foldl_cons]
    rw [hBest, hsm]

/-- When a cell the loops visit has no data, the loop over one layer or more fails a
check. -/
theorem evaluateLayers_no_data (g : AGAGridActor) (World : FWorld) (DistanceMap : FGAGridMap)
    (L : FFunctionLayer) (rest : List FFunctionLayer) (GridMap : FGAGridMap)
    (BestCell : FCellRef)
    (hD : ∃ c ∈ GridMap.GridBounds.EvaluatedCells, g.GetCellData c = none) :
    evaluateLayers g World DistanceMap (L :: rest) (GridMap, BestCell) = .checkFailed := by
  simp only [evaluateLayers, UGASpatialComponent.EvaluateLayer,
    evaluateCells_no_data L g World DistanceMap _ hD]

/-- All the layers over one cell that has data: the fold of `cellStep`. -/
theorem cellByCellAt_of_data (g : AGAGridActor) (World : FWorld) (DistanceMap : FGAGridMap)
    (c : FCellRef) (d : Nat) (hd : g.GetCellData c = some d) :
    ∀ (Layers : List FFunctionLayer) (GridMap : FGAGridMap),
      cellByCellAt g World DistanceMap c Layers GridMap
        = .done (Layers.foldl (fun m L => cellStep L g World DistanceMap c m) GridMap) := by
  intro Layers
  induction Layers with
  | nil => intro GridMap; rfl
  | cons L rest ih =>
    intro GridMap
    obtain ⟨t, ht, htm⟩ := evaluateCell_of_data L g World DistanceMap c
      ⟨GridMap, -FLT_MAX, FCellRef.Default⟩ d hd
    simp only [cellByCellAt, evaluateCellMap, ht, Run.map, List.foldl_cons, ih, htm]

/-- One layer or more over a cell that has no data fails a check. -/
theorem cellByCellAt_no_data (g : AGAGridActor) (World : FWorld) (DistanceMap : FGAGridMap)
    (c : FCellRef) (hd : g.GetCellData c = none) (L : FFunctionLayer)
    (rest : List FFunctionLayer) (GridMap : FGAGridMap) :
    cellByCellAt g World DistanceMap c (L :: rest) GridMap = .checkFailed := by
  simp only [cellByCellAt, evaluateCellMap, evaluateCell_no_data L g World DistanceMap c _ hd,
    Run.map]

/-- Cell-by-cell evaluation of cells that all have data: the fold, cell by cell, of the
fold of `cellStep` over the layers. -/
theorem cellByCell_of_data (g : AGAGridActor) (World : FWorld) (DistanceMap : FGAGridMap)
    (Layers : List FFunctionLayer) :
    ∀ (cells : List FCellRef), (∀ c ∈ cells, g.GetCellData c ≠ none) → ∀ GridMap : FGAGridMap,
      cellByCell g World DistanceMap Layers cells GridMap
        = .done (cells.foldl (fun m c =>
            Layers.foldl (fun m L => cellStep L g World DistanceMap c m) m) GridMap) := by
  intro cells
  induction cells with
  | nil => intro _ GridMap; rfl
  | cons c cs ih =>
    intro hD GridMap
    obtain ⟨d, hd⟩ := Option.ne_none_iff_exists'.mp (hD c (List.mem_cons_self _ _))
    simp only [cellByCell, cellByCellAt_of_data g World DistanceMap c d hd, List.foldl_cons,
      ih (fun k hk => hD k (List.mem_cons_of_mem _ hk))]

/-- Cell-by-cell evaluation with one layer or more fails a check when a cell has no
data. -/
theorem cellByCell_no_data (g : AGAGridActor) (World : FWorld) (DistanceMap : FGAGridMap)
    (L : FFunctionLayer) (rest : List FFunctionLayer) :
    ∀ (cells : List FCellRef), (∃ c ∈ cells, g.GetCellData c = none) → ∀ GridMap : FGAGridMap,
      cellByCell g World DistanceMap (L :: rest) cells GridMap = .checkFailed := by
  intro cells
  induction cells with
  | nil => intro h; obtain ⟨c, hc, _⟩ := h; simp at hc
  | cons c cs ih =>
    intro h GridMap
    cases hd : g.GetCellData c with
    | none => simp only [cellByCell, cellByCellAt_no_data g World DistanceMap c hd]
    | some d =>
      obtain ⟨k, hk, hkd⟩ := h
      rcases List.mem_cons.mp hk with hk | hk
      · rw [hk, hd] at hkd
        simp at hkd
      · simp only [cellByCell, cellByCellAt_of_data g World DistanceMap c d hd]
        exact ih ⟨k, hk, hkd⟩ _

/-- Cell-by-cell evaluation without layers leaves the grid map as it is. -/
theorem cellByCell_nil (g : AGAGridActor) (World : FWorld) (DistanceMap : FGAGridMap) :
    ∀ (cells : List FCellRef) (GridMap : FGAGridMap),
      cellByCell g World DistanceMap [] cells GridMap = .done GridMap := by
  intro cells
  induction cells with
  | nil => intro GridMap; rfl
  | cons c cs ih => intro GridMap; simp only [cellByCell, cellByCellAt, ih]

/-- C33: for every grid, layer list, grid map (with its window) and cell `k`, and for every
order `cells` in which the cells of the sweep are visited: the layer-by-layer sweeps of
`ChoosePosition` (one `EvaluateLayer` pass per layer) and the cell-by-cell evaluation (all
the layers folded over one cell after the other) fail together or return together, and
then report the same for `k`. When the sweeps return, what they leave for a visited cell
`k` is what folding all the layers over `k` alone leaves, and a cell that is not visited
keeps what it had. -/
theorem evaluateLayers_cellByCell (g : AGAGridActor) (World : FWorld)
    (DistanceMap : FGAGridMap) (Layers : List FFunctionLayer) (GridMap : FGAGridMap)
    (BestCell : FCellRef) (cells : List FCellRef)
    (hperm : cells.Perm GridMap.GridBounds.EvaluatedCells) (k : FCellRef) :
    (evaluateLayers g World DistanceMap Layers (GridMap, BestCell)).map
          (fun out => (out.1.GetValue k, TMap.Find out.1.Values k))
        = (cellByCell g World DistanceMap Layers cells GridMap).map
          (fun m => (m.GetValue k, TMap.Find m.Values k))
      ∧ ∀ out, evaluateLayers g World DistanceMap Layers (GridMap, BestCell) = .done out →
          (k ∈ cells →
            (cellByCellAt g World DistanceMap k Layers GridMap).map
                (fun m => (m.GetValue k, TMap.Find m.Values k))
              = .done (out.1.GetValue k, TMap.Find out.1.Values k))
          ∧ (k ∉ cells → out.1.GetValue k = GridMap.GetValue k
              ∧ TMap.Find out.1.Values k = TMap.Find GridMap.Values k) := by
  cases Layers with
  | nil =>
    refine ⟨?_, ?_⟩
    · simp only [evaluateLayers, cellByCell_nil, Run.map]
    · intro out hout
      simp only [evaluateLayers, Run.done.injEq] at hout
      rw [← hout]
      exact ⟨fun _ => rfl, fun _ => ⟨rfl, rfl⟩⟩
  | cons L rest =>
    by_cases hD : ∀ c ∈ cells, g.GetCellData c ≠ none
    · have hD0 : ∀ c ∈ GridMap.GridBounds.EvaluatedCells, g.GetCellData c ≠ none :=
        fun c hc => hD c (hperm.mem_iff.mpr hc)
      obtain ⟨Best, hBest⟩ := evaluateLayers_of_data g World DistanceMap GridMap.GridBounds hD0
        (L :: rest) GridMap BestCell rfl
      have hrefl : FGAGridMap.AgreeAt k GridMap GridMap := ⟨rfl, rfl, rfl⟩
      have h1 := sweeps_at g World DistanceMap GridMap.GridBounds.EvaluatedCells
        (EvaluatedCells_nodup _) k (L :: rest) GridMap GridMap hrefl
      have h2 := LocalStep_sweep _ (layers_LocalStep g World DistanceMap (L :: rest)) k cells
        (hperm.nodup_iff.mpr (EvaluatedCells_nodup _)) GridMap GridMap hrefl
      have hmem : (k ∈ GridMap.GridBounds.EvaluatedCells) ↔ k ∈ cells := hperm.mem_iff.symm
      simp only [hmem] at h1
      refine ⟨?_, ?_⟩
      · have h3 := FGAGridMap.AgreeAt_trans k _ _ _ h1 (FGAGridMap.AgreeAt_symm k _ _ h2)
        rw [hBest, cellByCell_of_data g World DistanceMap (L :: rest) cells hD GridMap]
        simp only [Run.map, FGAGridMap.AgreeAt_GetValue k _ _ h3, h3.2.2]
      · intro out hout
        rw [hBest] at hout
        simp only [Run.done.injEq] at hout
        rw [← hout]
        refine ⟨?_, ?_⟩
        · intro hk
          obtain ⟨d, hd⟩ := Option.ne_none_iff_exists'.mp (hD k hk)
          simp only [hk, if_true] at h1
          rw [cellByCellAt_of_data g World DistanceMap k d hd]
          simp only [Run.map, FGAGridMap.AgreeAt_GetValue k _ _ h1, h1.2.2]
        · intro hk
          simp only [hk, if_false] at h1
          exact ⟨FGAGridMap.AgreeAt_GetValue k _ _ h1, h1.2.2⟩
    · have hD1 : ∃ c ∈ cells, g.GetCellData c = none := by
        by_contra hcon
        exact hD (fun c hc hn => hcon ⟨c, hc, hn⟩)
      have hD0 : ∃ c ∈ GridMap.GridBounds.EvaluatedCells, g.GetCellData c = none := by
        obtain ⟨c, hc, hn⟩ := hD1
        exact ⟨c, hperm.mem_iff.mp hc, hn⟩
      have hfail := evaluateLayers_no_data g World DistanceMap L rest GridMap BestCell hD0
      refine ⟨?_, ?_⟩
      · rw [hfail, cellByCell_no_data g World DistanceMap L rest cells hD1 GridMap]
        rfl
      · intro out hout
        rw [hfail] at hout
        simp at hout

/-- C33 at a concrete input: the open 3 x 3 grid with the whole grid as window, the layers
[TargetRange, identity, Replace] and [PathDistance, v + 2, Add], the cells of the sweep
visited in reverse order: the sweeps leave 4 for the cell (1, 1), and so does the
cell-by-cell evaluation. -/
theorem evaluateLayers_cellByCell_witness :
    (FGAGridMap.New (openGrid 3 3 false).WholeBox 0).GridBounds.EvaluatedCells.reverse.Perm
        (FGAGridMap.New (openGrid 3 3 false).WholeBox 0).GridBounds.EvaluatedCells
      ∧ (evaluateLayers (openGrid 3 3 false) (openWorld ⟨-100, -100, 0⟩)
            (openGrid 3 3 false).FreshDistanceMap
            [targetRangeLayer, ⟨.SI_PathDistance, .SO_Add, fun v => v + 2⟩]
            (FGAGridMap.New (openGrid 3 3 false).WholeBox 0, FCellRef.Default)).map
          (fun out => (out.1.GetValue ⟨1, 1⟩, TMap.Find out.1.Values ⟨1, 1⟩))
        = .done ((true, 4), some 4)
      ∧ (cellByCell (openGrid 3 3 false) (openWorld ⟨-100, -100, 0⟩)
            (openGrid 3 3 false).FreshDistanceMap
            [targetRangeLayer, ⟨.SI_PathDistance, .SO_Add, fun v => v + 2⟩]
            (FGAGridMap.New (openGrid 3 3 false).WholeBox 0).GridBounds.EvaluatedCells.reverse
            (FGAGridMap.New (openGrid 3 3 false).WholeBox 0)).map
          (fun m => (m.GetValue ⟨1, 1⟩, TMap.Find m.Values ⟨1, 1⟩))
        = .done ((true, 4), some 4) :=
  ⟨List.reverse_perm _, by decide!,
    ((evaluateLayers_cellByCell (openGrid 3 3 false) (openWorld ⟨-100, -100, 0⟩)
      (openGrid 3 3 false).FreshDistanceMap
      [targetRangeLayer, ⟨.SI_PathDistance, .SO_Add, fun v => v + 2⟩]
      (FGAGridMap.New (openGrid 3 3 false).WholeBox 0) FCellRef.Default _
      (List.reverse_perm _) ⟨1, 1⟩).1).symm.trans (by decide!)⟩

/-! ### The cells of the rectangle of a box and their centres -/

/-- One axis of `GridSpaceBoundsToRect2D`: a coordinate `n` at or above the lower bound
computed from `lo` has its centre at or above `lo`; a coordinate at or below the upper
bound computed from `hi` has its centre at or below `hi` when `hi` is at least half a
cell. -/
theorem rect_axis_centre (s lo hi : ℚ) (n : Int) (hs : 0 < s) :
    (max (TruncToInt ((lo + (1 / 2) * s) / s)) 0 ≤ n → lo ≤ (n : ℚ) * s + (1 / 2) * s)
      ∧ ((1 / 2) * s ≤ hi → n ≤ TruncToInt ((hi - (1 / 2) * s) / s) →
          (n : ℚ) * s + (1 / 2) * s ≤ hi) := by
  refine ⟨?_, ?_⟩
  · intro hn
    have hn0 : (0 : Int) ≤ n := le_trans (le_max_right _ _) hn
    have hn1 : TruncToInt ((lo + (1 / 2) * s) / s) ≤ n := le_trans (le_max_left _ _) hn
    have hn0q : (0 : ℚ) ≤ (n : ℚ) := by exact_mod_cast hn0
    by_cases ha : 0 ≤ (lo + (1 / 2) * s) / s
    · simp only [TruncToInt, ha, if_true] at hn1
      have h1 : (lo + (1 / 2) * s) / s < (n : ℚ) + 1 := by
        have := Int.lt_floor_add_one ((lo + (1 / 2) * s) / s)
        have h2 : ((⌊(lo + (1 / 2) * s) / s⌋ : Int) : ℚ) ≤ (n : ℚ) := by exact_mod_cast hn1
        linarith
      rw [div_lt_iff₀ hs] at h1
      nlinarith
    · have h1 : (lo + (1 / 2) * s) / s < 0 := lt_of_not_le ha
      rw [div_lt_iff₀ hs] at h1
      nlinarith [mul_nonneg hn0q hs.le]
  · intro hhi hn
    have ha : 0 ≤ (hi - (1 / 2) * s) / s := div_nonneg (by linarith) hs.le
    simp only [TruncToInt, ha, if_true] at hn
    have h1 : (n : ℚ) ≤ (hi - (1 / 2) * s) / s := by
      have := Int.floor_le ((hi - (1 / 2) * s) / s)
      have h2 : (n : ℚ) ≤ ((⌊(hi - (1 / 2) * s) / s⌋ : Int) : ℚ) := by exact_mod_cast hn
      linarith
    rw [le_div_iff₀ hs] at h1
    linarith

/-- On a grid of positive scale: every cell of the rectangle of a box has its exact centre
`(X + 1/2) * CellScale` at or beyond the lower edges of the box, and at or before an upper
edge that is at least half a cell away from the corner of the grid. -/
theorem GridSpaceBoundsToRect2D_centres (g : AGAGridActor) (Box : FBox2D)
    (hs : 0 < g.CellScale) (c : FCellRef)
    (hx0 : (g.GridSpaceBoundsToRect2D Box).2.MinX ≤ c.X)
    (hx1 : c.X ≤ (g.GridSpaceBoundsToRect2D Box).2.MaxX)
    (hy0 : (g.GridSpaceBoundsToRect2D Box).2.MinY ≤ c.Y)
    (hy1 : c.Y ≤ (g.GridSpaceBoundsToRect2D Box).2.MaxY) :
    Box.Min.X ≤ (c.X : ℚ) * g.CellScale + (1 / 2) * g.CellScale
      ∧ Box.Min.Y ≤ (c.Y : ℚ) * g.CellScale + (1 / 2) * g.CellScale
      ∧ ((1 / 2) * g.CellScale ≤ Box.Max.X →
          (c.X : ℚ) * g.CellScale + (1 / 2) * g.CellScale ≤ Box.Max.X)
      ∧ ((1 / 2) * g.CellScale ≤ Box.Max.Y →
          (c.Y : ℚ) * g.CellScale + (1 / 2) * g.CellScale ≤ Box.Max.Y) := by
  simp only [AGAGridActor.GridSpaceBoundsToRect2D] at hx0 hx1 hy0 hy1
  refine ⟨(rect_axis_centre g.CellScale Box.Min.X Box.Max.X c.X hs).1 hx0,
    (rect_axis_centre g.CellScale Box.Min.Y Box.Max.Y c.Y hs).1 hy0, ?_, ?_⟩
  · intro h
    exact (rect_axis_centre g.CellScale Box.Min.X Box.Max.X c.X hs).2 h
      (le_trans hx1 (min_le_left _ _))
  · intro h
    exact (rect_axis_centre g.CellScale Box.Min.Y Box.Max.Y c.Y hs).2 h
      (le_trans hy1 (min_le_left _ _))

/-- On a grid of scale 100 no cell has its `float` centre between 10 and 40. -/
theorem CellCentre_scale_100 (g : AGAGridActor) (hs : g.CellScale = 100) (n : Int) :
    ¬ (10 ≤ g.CellCentre n ∧ g.CellCentre n ≤ 40) := by
  rintro ⟨h1, h2⟩
  unfold AGAGridActor.CellCentre at h1 h2
  simp only [hs] at h1 h2
  have hh := toFloat_range ((1 / 2) * 100) (Or.inr (by norm_num))
  rcases le_or_lt 0 n with hn | hn
  · have hnq : (0 : ℚ) ≤ (n : ℚ) := by exact_mod_cast hn
    have ha := toFloat_range (n : ℚ) (by
      rcases eq_or_lt_of_le hn with h | h
      · left; rw [← h]; simp
      · right
        have : (1 : ℚ) ≤ (n : ℚ) := by exact_mod_cast h
        exact le_trans (by norm_num) this)
    have ha0 : (0 : ℚ) ≤ toFloat (n : ℚ) := by
      have : 0 ≤ (n : ℚ) * (16777215 / 16777216) := mul_nonneg hnq (by norm_num)
      linarith [ha.1]
    have hp := toFloat_range (toFloat (n : ℚ) * 100) (by
      rcases eq_or_lt_of_le hn with h | h
      · left; rw [← h]; simp [toFloat_zero]
      · right
        have : (1 : ℚ) ≤ (n : ℚ) := by exact_mod_cast h
        have h3 : (1 : ℚ) / 2 ^ 126 ≤ 1 := by norm_num
        linarith [ha.1])
    have hp0 : (0 : ℚ) ≤ toFloat (toFloat (n : ℚ) * 100) := by linarith [hp.1]
    have hq := toFloat_range (toFloat (toFloat (n : ℚ) * 100) + toFloat ((1 / 2) * 100)) (by
      right
      have h3 : (1 : ℚ) / 2 ^ 126 ≤ 1 := by norm_num
      linarith [hh.1])
    linarith [hq.1, hh.1]
  · have hnq : (n : ℚ) ≤ -1 := by exact_mod_cast (by omega : n ≤ -1)
    have ha := toFloat_neg (n : ℚ) (le_trans hnq (by norm_num))
    have hp := toFloat_neg (toFloat (n : ℚ) * 100) (by
      have h3 : -(1 : ℚ) ≤ -(1 / 2 ^ 126) := by norm_num
      linarith [ha.2])
    have hq := toFloat_neg (toFloat (toFloat (n : ℚ) * 100) + toFloat ((1 / 2) * 100)) (by
      have h3 : -(1 : ℚ) ≤ -(1 / 2 ^ 126) := by norm_num
      linarith [ha.2, hp.2, hh.2])
    linarith [ha.2, hp.2, hh.2, hq.2]

/-- C34 at the failing input: on the 5 x 5 grid of scale 100 the box from (10, 10) to (40, 40), narrower
than one cell, holds no cell centre, yet `GridSpaceBoundsToRect2D` returns true with the
rectangle of the single cell (0, 0), whose centre (50, 50) lies outside the box on both
axes; the box from (-100, -100) to (0, 0) gives the same rectangle. -/
theorem GridSpaceBoundsToRect2D_centre_outside :
    (openGrid 5 5 false).GridSpaceBoundsToRect2D ⟨⟨10, 10⟩, ⟨40, 40⟩⟩ = (true, ⟨0, 0, 0, 0⟩)
      ∧ (openGrid 5 5 false).GetCellGridSpacePosition ⟨0, 0⟩ = ⟨50, 50⟩
      ∧ ¬ ((openGrid 5 5 false).GetCellGridSpacePosition ⟨0, 0⟩).X ≤ 40
      ∧ ¬ ((openGrid 5 5 false).GetCellGridSpacePosition ⟨0, 0⟩).Y ≤ 40
      ∧ (∀ c : FCellRef, ¬ (10 ≤ ((openGrid 5 5 false).GetCellGridSpacePosition c).X
          ∧ ((openGrid 5 5 false).GetCellGridSpacePosition c).X ≤ 40))
      ∧ (openGrid 5 5 false).GridSpaceBoundsToRect2D ⟨⟨-100, -100⟩, ⟨0, 0⟩⟩
          = (true, ⟨0, 0, 0, 0⟩) := by
  refine ⟨by decide!, by decide!, by decide!, by decide!, ?_, by decide!⟩
  intro c
  exact CellCentre_scale_100 (openGrid 5 5 false) rfl c.X

/-! ### The distance field on the whole grid -/

/-- `TMap.Find` after `TMap.Add`. -/
theorem TMap.Find_Add {K V : Type} [DecidableEq K] (m : TMap K V) (k c : K) (v : V) :
    TMap.Find (TMap.Add m k v) c = if c = k then some v else TMap.Find m c := by
  by_cases h : c = k
  · subst h
    simp only [if_true, TMap.Find_Add_self]
  · simp only [h, if_false, TMap.Find_Add_ne m k c v h]

/-- A key that occurs in the map is found. -/
theorem TMap.Find_ne_none_of_mem {K V : Type} [DecidableEq K] :
    ∀ (m : TMap K V) (k : K) (v : V), (k, v) ∈ m → TMap.Find m k ≠ none := by
  intro m
  induction m with
  | nil => intro k v h; simp at h
  | cons p m ih =>
    intro k v h
    obtain ⟨k', v'⟩ := p
    by_cases hk : k' = k
    · simp [TMap.Find, hk]
    · rcases List.mem_cons.mp h with h | h
      · simp only [Prod.mk.injEq] at h
        exact absurd h.1.symm hk
      · simp only [TMap.Find, hk, if_false]
        exact ih k v h

/-- The Chebyshev distance obeys the triangle inequality. -/
theorem ChebyshevDistance_triangle (a b c : FCellRef) :
    a.ChebyshevDistance c ≤ a.ChebyshevDistance b + b.ChebyshevDistance c := by
  simp only [FCellRef.ChebyshevDistance]
  have hx : |c.X - a.X| ≤ |b.X - a.X| + |c.X - b.X| := by
    have := abs_add (b.X - a.X) (c.X - b.X)
    have e : b.X - a.X + (c.X - b.X) = c.X - a.X := by ring
    rwa [e] at this
  have hy : |c.Y - a.Y| ≤ |b.Y - a.Y| + |c.Y - b.Y| := by
    have := abs_add (b.Y - a.Y) (c.Y - b.Y)
    have e : b.Y - a.Y + (c.Y - b.Y) = c.Y - a.Y := by ring
    rwa [e] at this
  refine max_le ?_ ?_
  · exact le_trans hx (add_le_add (le_max_left _ _) (le_max_left _ _))
  · exact le_trans hy (add_le_add (le_max_right _ _) (le_max_right _ _))

/-- A distance that fits a cell after `N` passes fits it after more passes. -/
theorem DistValueOK_mono (Source : FCellRef) (N M : Int) (hNM : N ≤ M) (c : FCellRef) (v : ℚ)
    (h : DistValueOK Source N c v) : DistValueOK Source M c v := by
  rcases h with h | ⟨m, hv, h1, h2⟩
  · exact Or.inl h
  · exact Or.inr ⟨m, hv, h1, le_trans h2 hNM⟩

/-- The selection loop of `dijkstra` returns a cell that is not yet processed, when all
the keys of the list are keys of `sptSet` and either the cell carried is not yet processed
or the list holds such a cell with a distance at most the one carried. -/
theorem pickMin_unvisited (sptSet : TMap FCellRef Bool) :
    ∀ (l : List (FCellRef × ℚ)) (acc : ℚ × FCellRef),
      (∀ p ∈ l, TMap.Find sptSet p.1 ≠ none) →
      (TMap.Find sptSet acc.2 = some false
        ∨ ∃ p ∈ l, TMap.Find sptSet p.1 = some false ∧ p.2 ≤ acc.1) →
      ∃ r, pickMin sptSet l acc = .done r ∧ TMap.Find sptSet r.2 = some false := by
  intro l
  induction l with
  | nil =>
    intro acc _ h
    rcases h with h | ⟨p, hp, _⟩
    · exact ⟨acc, rfl, h⟩
    · simp at hp
  | cons p l ih =>
    intro acc hkeys h
    obtain ⟨Key, Value⟩ := p
    obtain ⟨minDist, u⟩ := acc
    have hk := hkeys (Key, Value) (List.mem_cons_self _ _)
    have hkeys' : ∀ p ∈ l, TMap.Find sptSet p.1 ≠ none :=
      fun p hp => hkeys p (List.mem_cons_of_mem _ hp)
    cases hf : TMap.Find sptSet Key with
    | none => exact absurd hf hk
    | some visited =>
      simp only [pickMin, hf]
      by_cases hc : visited = false ∧ Value ≤ minDist
      · simp only [hc, and_self, if_true]
        refine ih (Value, Key) hkeys' (Or.inl ?_)
        rw [hf, hc.1]
      · simp only [hc, if_false]
        refine ih (minDist, u) hkeys' ?_
        rcases h with h | ⟨q, hq, hq1, hq2⟩
        · exact Or.inl h
        · rcases List.mem_cons.mp hq with hq | hq
          · subst hq
            simp only at hq1 hq2
            rw [hf] at hq1
            simp only [Option.some.injEq] at hq1
            exact absurd ⟨hq1, hq2⟩ hc
          · exact Or.inr ⟨q, hq, hq1, hq2⟩

/-- The relaxation loop of `dijkstra` for a processed cell `u` whose distance fits after
`N` passes, over cells of the grid next to `u`: it returns, `sptSet` and the keys of `dist`
stay, and every distance fits after `N + 1` passes. -/
theorem relax_whole_grid (g : AGAGridActor) (Source u : FCellRef) (N : Int) (du : ℚ)
    (hdu : DistValueOK Source N u du) :
    ∀ (nbs : List FCellRef),
      (∀ nb ∈ nbs, IsCellValid (some g) nb = true ∧ nb ≠ u ∧ u.ChebyshevDistance nb = 1) →
      ∀ s : DijkstraState,
        (∀ c, TMap.Find s.dist c ≠ none ↔ IsCellValid (some g) c = true) →
        (∀ c, TMap.Find s.sptSet c ≠ none ↔ IsCellValid (some g) c = true) →
        (∀ c v, (c, v) ∈ s.dist → DistValueOK Source (N + 1) c v) →
        TMap.Find s.dist u = some du →
        ∃ s', relax g u nbs s = .done s'
          ∧ s'.sptSet = s.sptSet
          ∧ (∀ c, TMap.Find s'.dist c ≠ none ↔ IsCellValid (some g) c = true)
          ∧ (∀ c v, (c, v) ∈ s'.dist → DistValueOK Source (N + 1) c v) := by
  intro nbs
  induction nbs with
  | nil => intro _ s h1 _ h3 _; exact ⟨s, rfl, rfl, h1, h3⟩
  | cons nb rest ih =>
    intro hnbs s h1 h2 h3 h4
    obtain ⟨hv, hne, hch⟩ := hnbs nb (List.mem_cons_self _ _)
    have hrest : ∀ nb ∈ rest,
        IsCellValid (some g) nb = true ∧ nb ≠ u ∧ u.ChebyshevDistance nb = 1 :=
      fun k hk => hnbs k (List.mem_cons_of_mem _ hk)
    cases hs : TMap.Find s.sptSet nb with
    | none => exact absurd hs ((h2 nb).mpr hv)
    | some b =>
      cases b with
      | true =>
        simp only [relax, hs]
        exact ih hrest s h1 h2 h3 h4
      | false =>
        simp only [relax, hs, h4]
        by_cases hfin : du ≠ FLT_MAX
        · simp only [hfin, ne_eq, not_false_eq_true, if_true]
          cases hd : TMap.Find s.dist nb with
          | none => exact absurd hd ((h1 nb).mpr hv)
          | some old =>
            simp only
            have hnew : DistValueOK Source (N + 1) nb (du + 1) := by
              rcases hdu with hdu | ⟨m, hm, hm1, hm2⟩
              · exact absurd hdu hfin
              · refine Or.inr ⟨m + 1, by rw [hm]; push_cast; ring, ?_, by omega⟩
                have := ChebyshevDistance_triangle Source u nb
                omega
            obtain ⟨s', hs', hspt, hk, hval⟩ := ih hrest
              ⟨TMap.Add s.dist nb (du + 1), s.sptSet,
                TMap.Add s.CameFrom nb (g.GetCellPosition nb)⟩
              (by
                intro c
                simp only [TMap.Find_Add]
                by_cases hc : c = nb
                · simp [hc, hv]
                · simp only [hc, if_false]
                  exact h1 c)
              h2
              (by
                intro c v hcv
                rcases TMap.mem_Add _ _ _ _ hcv with h | h
                · simp only [Prod.mk.injEq] at h
                  rw [h.1, h.2]
                  exact hnew
                · exact h3 c v h)
              (by
                simp only [TMap.Find_Add]
                rw [if_neg (Ne.symm hne)]
                exact h4)
            exact ⟨s', hs', hspt, hk, hval⟩
        · simp only [hfin, if_false]
          exact ih hrest s h1 h2 h3 h4

/-- The neighbours of a cell lie inside the grid, differ from the cell and are at
Chebyshev distance 1 from it. -/
theorem FindNeighbors_near (g : AGAGridActor) (u nb : FCellRef)
    (h : nb ∈ FindNeighbors (some g) u) :
    IsCellValid (some g) nb = true ∧ nb ≠ u ∧ u.ChebyshevDistance nb = 1 := by
  rw [FindNeighbors_unfold, List.mem_filter, mem_ring_iff] at h
  refine ⟨h.2, ?_, h.1⟩
  intro hnu
  have h1 := h.1
  rw [hnu] at h1
  simp [FCellRef.ChebyshevDistance] at h1

/-- The cells of the whole-grid window are the cells inside the grid. -/
theorem WholeBox_Cells_mem (g : AGAGridActor) (c : FCellRef) :
    c ∈ g.WholeBox.Cells ↔ IsCellValid (some g) c = true := by
  simp only [IsCellValid, decide_eq_true_eq, FGridBox.Cells, AGAGridActor.WholeBox]
  constructor
  · intro h
    obtain ⟨dy, hdy, hrow⟩ := List.mem_flatMap.mp h
    obtain ⟨dx, hdx, hc⟩ := List.mem_map.mp hrow
    have hy := Int.lt_toNat.mp (List.mem_range.mp hdy)
    have hy0 : (0 : Int) ≤ (dy : Int) := Int.ofNat_nonneg dy
    simp at hdx
    obtain ⟨a, hx, hax⟩ := hdx
    have hx0 : (0 : Int) ≤ (a : Int) := Int.ofNat_nonneg a
    rw [← hc, hax]
    simp only
    omega
  · intro h
    refine List.mem_flatMap.mpr ⟨c.Y.toNat, List.mem_range.mpr ?_, ?_⟩
    · omega
    · refine List.mem_map.mpr ⟨c.X, ?_, ?_⟩
      · simp
        exact ⟨c.X.toNat, by omega, by omega⟩
      · have e1 : ((c.Y.toNat : Nat) : Int) = c.Y := Int.toNat_of_nonneg h.2.2.1
        rw [e1]
        simp

/-- The loops over a window visit no cell twice. -/
theorem Cells_nodup (b : FGridBox) : b.Cells.Nodup := by
  unfold FGridBox.Cells
  rw [List.nodup_flatMap]
  refine ⟨?_, ?_⟩
  · intro dy _
    refine List.Nodup.map ?_ ?_
    · intro x y hxy
      simp only [FCellRef.mk.injEq] at hxy
      omega
    · have h : ((List.range (b.MaxX - b.MinX + 1).toNat).map (fun a : Nat => (a : Int))).Nodup :=
        List.Nodup.map (fun x y hxy => by exact_mod_cast hxy) (List.nodup_range _)
      simp only [bind_pure_comp, List.map_eq_map] at h ⊢
      exact h
  · refine List.Pairwise.imp ?_ (List.nodup_range _)
    intro dy dy' hne
    simp only [Function.onFun]
    intro c h1 h2
    obtain ⟨x1, _, e1⟩ := List.mem_map.mp h1
    obtain ⟨x2, _, e2⟩ := List.mem_map.mp h2
    rw [← e2] at e1
    simp only [FCellRef.mk.injEq] at e1
    omega

/-- The number of cells of a window. -/
theorem Cells_length (b : FGridBox) :
    b.Cells.length = (b.MaxY - b.MinY + 1).toNat * (b.MaxX - b.MinX + 1).toNat := by
  unfold FGridBox.Cells
  simp [List.length_flatMap, Function.comp_def, ← List.map_eq_flatMap]

/-- The whole-grid window of a grid with a cell has one cell more than `dijkstra` makes
passes. -/
theorem dijkstraPasses_WholeBox (g : AGAGridActor) (hX : 0 < g.XCount) (hY : 0 < g.YCount) :
    dijkstraPasses g.WholeBox + 1 = g.WholeBox.Cells.toFinset.card
      ∧ (dijkstraPasses g.WholeBox : Int) = g.XCount * g.YCount - 1 := by
  rw [List.toFinset_card_of_nodup (Cells_nodup _), Cells_length]
  simp only [dijkstraPasses, AGAGridActor.WholeBox]
  have e1 : g.XCount - 1 - 0 + 1 = g.XCount := by ring
  have e2 : g.YCount - 1 - 0 + 1 = g.YCount := by ring
  rw [e1, e2]
  have hpos : 0 < g.XCount * g.YCount := mul_pos hX hY
  have h1 : ((g.XCount * g.YCount - 1).toNat : Int) = g.XCount * g.YCount - 1 :=
    Int.toNat_of_nonneg (by omega)
  have h2 : ((g.YCount.toNat * g.XCount.toNat : Nat) : Int) = g.XCount * g.YCount := by
    push_cast
    rw [Int.toNat_of_nonneg hX.le, Int.toNat_of_nonneg hY.le]
    ring
  refine ⟨?_, h1⟩
  omega

/-- One pass of the main loop of `dijkstra` on the whole grid, while a cell is still to
process: the pass returns and the maps are as after one pass more. -/
theorem dijkstraStep_whole_grid (g : AGAGridActor) (Source : FCellRef) (N : Nat)
    (s : DijkstraState) (hinv : DijkstraInv g Source N s)
    (hcount : N < g.WholeBox.Cells.toFinset.card) (hmax : (N : ℚ) ≤ FLT_MAX) :
    ∃ s', dijkstraStep g s = .done s' ∧ DijkstraInv g Source (N + 1) s' := by
  obtain ⟨K1, K2, V, C⟩ := hinv
  -- a cell that is not yet processed
  have hex : ∃ c ∈ g.WholeBox.Cells.toFinset, c ∉ visitedCells g s.sptSet := by
    refine Finset.not_subset.mp (fun hsub => ?_)
    have := Finset.card_le_card hsub
    omega
  obtain ⟨c, hc, hcv⟩ := hex
  have hcvalid : IsCellValid (some g) c = true :=
    (WholeBox_Cells_mem g c).mp (List.mem_toFinset.mp hc)
  have hcspt : TMap.Find s.sptSet c = some false := by
    cases hf : TMap.Find s.sptSet c with
    | none => exact absurd hf ((K2 c).mpr hcvalid)
    | some b =>
      cases b with
      | false => rfl
      | true => exact absurd (Finset.mem_filter.mpr ⟨hc, hf⟩) hcv
  have hle : ∀ k v, (k, v) ∈ s.dist → v ≤ FLT_MAX := by
    intro k v hkv
    rcases V k v hkv with h | ⟨m, hm, _, hm2⟩
    · exact le_of_eq h
    · rw [hm]
      have : (m : ℚ) ≤ (N : ℚ) := by exact_mod_cast hm2
      exact le_trans this hmax
  obtain ⟨vc, hvc⟩ := Option.ne_none_iff_exists'.mp ((K1 c).mpr hcvalid)
  have hcmem := TMap.mem_of_Find _ _ _ hvc
  obtain ⟨r, hr, hgood⟩ := pickMin_unvisited s.sptSet s.dist (FLT_MAX, FCellRef.Default)
    (fun p hp => (K2 p.1).mpr ((K1 p.1).mp (TMap.Find_ne_none_of_mem _ p.1 p.2 hp)))
    (Or.inr ⟨(c, vc), hcmem, hcspt, hle c vc hcmem⟩)
  obtain ⟨md, u⟩ := r
  simp only at hgood
  have huvalid : IsCellValid (some g) u = true := (K2 u).mp (by rw [hgood]; simp)
  obtain ⟨du, hdu⟩ := Option.ne_none_iff_exists'.mp ((K1 u).mpr huvalid)
  have hduok : DistValueOK Source N u du := V u du (TMap.mem_of_Find _ _ _ hdu)
  obtain ⟨s', hs', hspt, hk, hval⟩ := relax_whole_grid g Source u N du hduok
    (FindNeighbors (some g) u) (fun nb hnb => FindNeighbors_near g u nb hnb)
    ⟨s.dist, TMap.Add s.sptSet u true, s.CameFrom⟩ K1
    (by
      intro k
      simp only [TMap.Find_Add]
      by_cases hku : k = u
      · simp [hku, huvalid]
      · simp only [hku, if_false]
        exact K2 k)
    (fun k v hkv => DistValueOK_mono Source N (N + 1) (by omega) k v (V k v hkv))
    hdu
  refine ⟨s', ?_, hk, ?_, ?_, ?_⟩
  · simp only [dijkstraStep, hr, hgood, hs']
  · intro k
    rw [hspt]
    simp only [TMap.Find_Add]
    by_cases hku : k = u
    · simp [hku, huvalid]
    · simp only [hku, if_false]
      exact K2 k
  · intro k v hkv
    have := hval k v hkv
    simpa using this
  · rw [hspt]
    have hsub : visitedCells g (TMap.Add s.sptSet u true)
        ⊆ insert u (visitedCells g s.sptSet) := by
      intro k hk
      simp only [visitedCells, Finset.mem_filter, TMap.Find_Add] at hk
      by_cases hku : k = u
      · rw [hku]
        exact Finset.mem_insert_self _ _
      · simp only [hku, if_false] at hk
        exact Finset.mem_insert_of_mem (Finset.mem_filter.mpr hk)
    exact le_trans (Finset.card_le_card hsub)
      (le_trans (Finset.card_insert_le _ _) (by omega))

/-- The main loop of `dijkstra` on the whole grid, as long as the passes made and to make
stay below the number of cells: it returns and the maps are as after that many passes. -/
theorem dijkstraLoop_whole_grid (g : AGAGridActor) (Source : FCellRef)
    (hmax : (g.WholeBox.Cells.toFinset.card : ℚ) ≤ FLT_MAX) :
    ∀ (count N : Nat) (s : DijkstraState), DijkstraInv g Source N s →
      N + count < g.WholeBox.Cells.toFinset.card →
      ∃ s', dijkstraLoop g count s = .done s' ∧ DijkstraInv g Source (N + count) s' := by
  intro count
  induction count with
  | zero => intro N s hinv _; exact ⟨s, rfl, hinv⟩
  | succ count ih =>
    intro N s hinv hlt
    have hN : (N : ℚ) ≤ FLT_MAX := by
      have : (N : ℚ) ≤ (g.WholeBox.Cells.toFinset.card : ℚ) := by
        exact_mod_cast (by omega : N ≤ g.WholeBox.Cells.toFinset.card)
      exact le_trans this hmax
    obtain ⟨s1, hs1, hinv1⟩ := dijkstraStep_whole_grid g Source N s hinv (by omega) hN
    obtain ⟨s', hs', hinv'⟩ := ih (N + 1) s1 hinv1 (by omega)
    refine ⟨s', by simp only [dijkstraLoop, hs1, hs'], ?_⟩
    have e : N + (count + 1) = N + 1 + count := by omega
    rw [e]
    exact hinv'

/-- The keys of a map filled with one value for every cell of a list. -/
theorem fill_Find {V : Type} (x : V) :
    ∀ (l : List FCellRef) (m : TMap FCellRef V) (k : FCellRef),
      TMap.Find (l.foldl (fun m c => TMap.Add m c x) m) k ≠ none
        ↔ (k ∈ l ∨ TMap.Find m k ≠ none) := by
  intro l
  induction l with
  | nil => intro m k; simp
  | cons c l ih =>
    intro m k
    simp only [List.foldl_cons]
    rw [ih, TMap.Find_Add]
    by_cases hkc : k = c
    · simp [hkc]
    · simp [hkc]

/-- The pairs of a map filled with one value for every cell of a list. -/
theorem fill_mem {V : Type} (x : V) :
    ∀ (l : List FCellRef) (m : TMap FCellRef V) (p : FCellRef × V),
      p ∈ l.foldl (fun m c => TMap.Add m c x) m → p.2 = x ∨ p ∈ m := by
  intro l
  induction l with
  | nil => intro m p h; exact Or.inr h
  | cons c l ih =>
    intro m p h
    simp only [List.foldl_cons] at h
    rcases ih _ p h with h | h
    · exact Or.inl h
    · rcases TMap.mem_Add _ _ _ _ h with h | h
      · exact Or.inl (by rw [h])
      · exact Or.inr h

/-- The maps of `dijkstra` before the first pass on the whole grid, for a source inside
the grid. -/
theorem dijkstraInit_whole_grid (g : AGAGridActor) (StartPoint : FVector)
    (CameFrom : TMap FCellRef FVector)
    (hsrc : IsCellValid (some g) (g.GetCellRef StartPoint g.DefaultClamp) = true) :
    DijkstraInv g (g.GetCellRef StartPoint g.DefaultClamp) 0
      (dijkstraInit StartPoint g.WholeBox CameFrom g) := by
  refine ⟨?_, ?_, ?_, ?_⟩
  · intro c
    simp only [dijkstraInit, TMap.Find_Add]
    by_cases hc : c = g.GetCellRef StartPoint g.DefaultClamp
    · simp [hc, hsrc]
    · simp only [hc, if_false]
      rw [fill_Find, WholeBox_Cells_mem]
      simp [TMap.Find]
  · intro c
    simp only [dijkstraInit]
    rw [fill_Find, WholeBox_Cells_mem]
    simp [TMap.Find]
  · intro c v hcv
    simp only [dijkstraInit] at hcv
    rcases TMap.mem_Add _ _ _ _ hcv with h | h
    · simp only [Prod.mk.injEq] at h
      rw [h.1, h.2]
      refine Or.inr ⟨0, by simp, ?_, le_refl _⟩
      simp [FCellRef.ChebyshevDistance]
    · rcases fill_mem FLT_MAX _ _ _ h with h | h
      · exact Or.inl h
      · simp at h
  · have hempty : visitedCells g (dijkstraInit StartPoint g.WholeBox CameFrom g).sptSet = ∅ := by
      apply Finset.eq_empty_of_forall_not_mem
      intro c hc
      simp only [visitedCells, Finset.mem_filter, dijkstraInit] at hc
      rcases fill_mem false _ _ _ (TMap.mem_of_Find _ _ _ hc.2) with h | h
      · simp at h
      · simp at h
    rw [hempty]
    simp

/-- The values of the distance map after the copy loop of `dijkstra`. -/
theorem copy_Values :
    ∀ (l : List (FCellRef × ℚ)) (m : FGAGridMap),
      (l.foldl (fun m Pair => m.SetValue Pair.1 Pair.2) m).Values
        = l.foldl (fun vals Pair => TMap.Add vals Pair.1 Pair.2) m.Values := by
  intro l
  induction l with
  | nil => intro m; rfl
  | cons p l ih =>
    intro m
    simp only [List.foldl_cons]
    rw [ih]
    rfl

/-- A value found after the copy loop was copied, or was there before under a key the
loop did not meet. -/
theorem copy_Find :
    ∀ (l : List (FCellRef × ℚ)) (m : TMap FCellRef ℚ) (k : FCellRef) (v : ℚ),
      TMap.Find (l.foldl (fun vals Pair => TMap.Add vals Pair.1 Pair.2) m) k = some v →
      (k, v) ∈ l ∨ (TMap.Find m k = some v ∧ ∀ w, (k, w) ∉ l) := by
  intro l
  induction l with
  | nil => intro m k v h; exact Or.inr ⟨h, fun w hw => by simp at hw⟩
  | cons p l ih =>
    intro m k v h
    obtain ⟨a, b⟩ := p
    simp only [List.foldl_cons] at h
    rcases ih _ k v h with h1 | ⟨h1, h2⟩
    · exact Or.inl (List.mem_cons_of_mem _ h1)
    · rw [TMap.Find_Add] at h1
      by_cases hka : k = a
      · simp only [hka, if_true, Option.some.injEq] at h1
        left
        rw [hka, ← h1]
        exact List.mem_cons_self _ _
      · simp only [hka, if_false] at h1
        refine Or.inr ⟨h1, fun w hw => ?_⟩
        rcases List.mem_cons.mp hw with hw | hw
        · simp only [Prod.mk.injEq] at hw
          exact hka hw.1
        · exact h2 w hw

/-- A key the copy loop met is found afterwards. -/
theorem copy_Find_ne_none :
    ∀ (l : List (FCellRef × ℚ)) (m : TMap FCellRef ℚ) (k : FCellRef),
      ((∃ w, (k, w) ∈ l) ∨ TMap.Find m k ≠ none) →
      TMap.Find (l.foldl (fun vals Pair => TMap.Add vals Pair.1 Pair.2) m) k ≠ none := by
  intro l
  induction l with
  | nil =>
    intro m k h
    rcases h with ⟨w, hw⟩ | h
    · simp at hw
    · exact h
  | cons p l ih =>
    intro m k h
    obtain ⟨a, b⟩ := p
    simp only [List.foldl_cons]
    apply ih
    rcases h with ⟨w, hw⟩ | h
    · rcases List.mem_cons.mp hw with hw | hw
      · simp only [Prod.mk.injEq] at hw
        right
        rw [TMap.Find_Add, if_pos hw.1]
        simp
      · exact Or.inl ⟨w, hw⟩
    · right
      rw [TMap.Find_Add]
      by_cases hka : k = a
      · simp [hka]
      · simp only [hka, if_false]
        exact h

/-- C32: when the window of the distance map is the whole grid and the cell of the start
point lies inside the grid (the counts being `int32` values), `dijkstra` returns, it
stores a distance for every cell of the grid, and every stored distance other than
`FLT_MAX` is a whole number at least the Chebyshev distance `max(|dx|, |dy|)` between the
cell and the source cell and at most the number of cells of the window minus one. -/
theorem dijkstra_whole_grid_bounds (g : AGAGridActor) (StartPoint : FVector)
    (DistanceMap : FGAGridMap) (CameFrom : TMap FCellRef FVector)
    (hwin : DistanceMap.GridBounds = g.WholeBox)
    (hsrc : IsCellValid (some g) (g.GetCellRef StartPoint g.DefaultClamp) = true)
    (hX : g.XCount ≤ 2147483647) (hY : g.YCount ≤ 2147483647) :
    ∃ out, dijkstra StartPoint DistanceMap CameFrom g = .done out
      ∧ ∀ c, IsCellValid (some g) c = true →
          (∃ v, TMap.Find out.1.Values c = some v)
            ∧ ∀ v, TMap.Find out.1.Values c = some v → v ≠ FLT_MAX →
                ∃ m : Int, v = (m : ℚ)
                  ∧ (g.GetCellRef StartPoint g.DefaultClamp).ChebyshevDistance c ≤ m
                  ∧ m ≤ g.XCount * g.YCount - 1 := by
  have hs := hsrc
  simp only [IsCellValid, decide_eq_true_eq] at hs
  have hX0 : 0 < g.XCount := by omega
  have hY0 : 0 < g.YCount := by omega
  obtain ⟨hcard, hpasses⟩ := dijkstraPasses_WholeBox g hX0 hY0
  have hmax : (g.WholeBox.Cells.toFinset.card : ℚ) ≤ FLT_MAX := by
    have h1 : g.XCount * g.YCount ≤ 2147483647 * 2147483647 :=
      mul_le_mul hX hY hY0.le (by norm_num)
    have h2 : (g.WholeBox.Cells.toFinset.card : Int) = g.XCount * g.YCount := by
      rw [← hcard]
      push_cast
      omega
    have h3 : ((g.WholeBox.Cells.toFinset.card : Int) : ℚ) ≤ ((2147483647 * 2147483647 : Int) : ℚ) := by
      rw [h2]
      exact_mod_cast h1
    have h4 : ((2147483647 * 2147483647 : Int) : ℚ) ≤ FLT_MAX := by
      simp only [FLT_MAX]
      norm_num
    exact_mod_cast le_trans h3 h4
  obtain ⟨s, hs1, K1, _, V, _⟩ := dijkstraLoop_whole_grid g
    (g.GetCellRef StartPoint g.DefaultClamp) hmax (dijkstraPasses g.WholeBox) 0
    (dijkstraInit StartPoint g.WholeBox CameFrom g)
    (dijkstraInit_whole_grid g StartPoint CameFrom hsrc) (by omega)
  refine ⟨(s.dist.foldl (fun m Pair => m.SetValue Pair.1 Pair.2) DistanceMap, s.CameFrom),
    by simp only [dijkstra, hwin, hs1], ?_⟩
  intro c hc
  simp only [copy_Values]
  obtain ⟨w, hw⟩ := Option.ne_none_iff_exists'.mp ((K1 c).mpr hc)
  have hmem := TMap.mem_of_Find _ _ _ hw
  refine ⟨Option.ne_none_iff_exists'.mp
    (copy_Find_ne_none s.dist DistanceMap.Values c (Or.inl ⟨w, hmem⟩)), ?_⟩
  intro v hv hfin
  rcases copy_Find s.dist DistanceMap.Values c v hv with h | ⟨_, h⟩
  · rcases V c v h with h1 | ⟨m, hm, hm1, hm2⟩
    · exact absurd h1 hfin
    · refine ⟨m, hm, hm1, ?_⟩
      simp only [zero_add] at hm2
      omega
  · exact absurd hmem (h w)

/-- C32 at a concrete input: the open 5 x 5 grid, the whole grid as window, the start at
the centre of cell (0, 0): `dijkstra` returns; the distance it stores for cell (1, 0) is 4,
a whole number between the Chebyshev distance 1 and 24. -/
theorem dijkstra_whole_grid_bounds_witness :
    storedDistance ((openGrid 5 5 false).DistanceFieldFrom ⟨0, 0⟩) ⟨1, 0⟩ = some 4
      ∧ ∃ out, dijkstra ((openGrid 5 5 false).GetCellPosition ⟨0, 0⟩)
          (openGrid 5 5 false).FreshDistanceMap [] (openGrid 5 5 false) = .done out
        ∧ ∀ c, IsCellValid (some (openGrid 5 5 false)) c = true →
            (∃ v, TMap.Find out.1.Values c = some v)
              ∧ ∀ v, TMap.Find out.1.Values c = some v → v ≠ FLT_MAX →
                  ∃ m : Int, v = (m : ℚ)
                    ∧ ((openGrid 5 5 false).GetCellRef
                        ((openGrid 5 5 false).GetCellPosition ⟨0, 0⟩)
                        (openGrid 5 5 false).DefaultClamp).ChebyshevDistance c ≤ m
                    ∧ m ≤ (openGrid 5 5 false).XCount * (openGrid 5 5 false).YCount - 1 :=
  ⟨by decide!,
    dijkstra_whole_grid_bounds (openGrid 5 5 false)
      ((openGrid 5 5 false).GetCellPosition ⟨0, 0⟩) (openGrid 5 5 false).FreshDistanceMap []
      (by decide!) (by decide!) (by decide) (by decide)⟩

end GameAI
